import Mathlib

/-! SPHinXsys: neighbor configuration, body-part masking and the 2D level set

A shallow embedding of
* `SPHINXsys/src/shared/body_relations/inner_body_relation.cpp`
* `src/shared/bodies/base_body_part.h`
* `src/for_2D_build/geometries/level_set_2d.cpp`
* `tests/user_examples/test_3d_flow_around_mathematical_balloon_solid/
  test_3d_flow_around_mathematical_balloon_solid.cpp` (the balloon test)

Conventions of the embedding:
* `Real` of the C++ code is modelled by the exact rationals `ℚ` (no rounding, no NaN);
* `size_t` indices are `Nat`, `int` values are `Int`, with the wrap-around of 32 bits made
  explicit where a counter is incremented;
* object state is passed explicitly: a method becomes a function from the state
  before the call to the state after it;
* `parallel_for` / `mesh_parallel_for` bodies are run in ascending index order, which is
  one of the schedules the fork-join runtime may choose.
-/

set_option autoImplicit false

namespace SPH

/-! ## Basic types -/

/-- The scalar type `Real` of the code, modelled by exact rationals. -/
abbrev Real := ℚ

/-- Vectors `Vecd` / `Vec2d` of the 2D build. -/
abbrev Vecd := Real × Real

/-- The vector `Vecd::Ones()`. -/
def Vecd.Ones : Vecd := (1, 1)

/-- The vector `Vecd::Zero()`. -/
def Vecd.Zero : Vecd := (0, 0)

/-! ## Loops -/

/-- The C++ loop `for (size_t k = start; k != stop; ++k) body(k);` run on state `s`
with a budget of `fuel` evaluations of the loop test. `none` means the budget ran out
before the test `k != stop` failed. -/
def forNe {σ : Type} (body : Nat → σ → σ) (stop : Nat) : Nat → Nat → σ → Option σ
  | 0, _, _ => none
  | fuel + 1, k, s => if k = stop then some s else forNe body stop fuel (k + 1) (body k s)

/-- The same loop with a body that may fail (an out-of-bounds access). -/
def forNeM {σ : Type} (body : Nat → σ → Option σ) (stop : Nat) : Nat → Nat → σ → Option σ
  | 0, _, _ => none
  | fuel + 1, k, s =>
    if k = stop then some s
    else match body k s with
      | none => none
      | some s1 => forNeM body stop fuel (k + 1) s1

/-! ## Neighborhood and particle configuration -/

/-- One admitted neighbor: `(j, W_ij, dW_ijV_j, e_ij)`. -/
structure NeighborEntry where
  j : Nat
  W_ij : Real
  dW_ijV_j : Real
  e_ij : Vecd
deriving DecidableEq

/-- The class `Neighborhood`: the fields read by the code under `src/`
(`current_size_`, `j_`, `W_ij_`, `dW_ijV_j_`, `e_ij_`) and the allocated capacity. -/
structure Neighborhood where
  current_size_ : Nat
  allocated_size_ : Nat
  j_ : List Nat
  W_ij_ : List Real
  dW_ijV_j_ : List Real
  e_ij_ : List Vecd
deriving DecidableEq

/-- The type `ParticleConfiguration`: one neighborhood per particle, indexed by particle index. -/
abbrev ParticleConfiguration := List Neighborhood

/-- The `n`-th stored entry of a neighborhood, as a consumer reads it
(`j_[n]`, `W_ij_[n]`, `dW_ijV_j_[n]`, `e_ij_[n]`). -/
def Neighborhood.entry (nb : Neighborhood) (n : Nat) : NeighborEntry :=
  { j := nb.j_.getD n 0
    W_ij := nb.W_ij_.getD n 0
    dW_ijV_j := nb.dW_ijV_j_.getD n 0
    e_ij := nb.e_ij_.getD n Vecd.Zero }

/-- The neighbors that count: the entries at positions `0 .. current_size_ - 1`. -/
def Neighborhood.neighbors (nb : Neighborhood) : List NeighborEntry :=
  (List.range nb.current_size_).map nb.entry

/-- Storage invariant of a neighborhood: the four arrays have `allocated_size_` entries
and the counter does not exceed the capacity. -/
def Neighborhood.WellFormed (nb : Neighborhood) : Prop :=
  nb.j_.length = nb.allocated_size_ ∧ nb.W_ij_.length = nb.allocated_size_ ∧
  nb.dW_ijV_j_.length = nb.allocated_size_ ∧ nb.e_ij_.length = nb.allocated_size_ ∧
  nb.current_size_ ≤ nb.allocated_size_

instance (nb : Neighborhood) : Decidable nb.WellFormed := by
  unfold Neighborhood.WellFormed; infer_instance

/-- Modelled from the spec: appending a neighbor. The class `Neighborhood` and the neighbor
builders are not under `src/`; the spec says the record is "a growable list ... plus a
current size counter distinct from allocated capacity" and that neighbors are "re-appended
each rebuild rather than reallocating storage". The entry is written at position
`current_size_`, into existing storage when there is some and by growing the arrays
otherwise, and the counter is incremented. -/
def Neighborhood.append (nb : Neighborhood) (e : NeighborEntry) : Neighborhood :=
  if nb.current_size_ ≥ nb.allocated_size_ then
    { current_size_ := nb.current_size_ + 1
      allocated_size_ := nb.allocated_size_ + 1
      j_ := nb.j_ ++ [e.j]
      W_ij_ := nb.W_ij_ ++ [e.W_ij]
      dW_ijV_j_ := nb.dW_ijV_j_ ++ [e.dW_ijV_j]
      e_ij_ := nb.e_ij_ ++ [e.e_ij] }
  else
    { current_size_ := nb.current_size_ + 1
      allocated_size_ := nb.allocated_size_
      j_ := nb.j_.set nb.current_size_ e.j
      W_ij_ := nb.W_ij_.set nb.current_size_ e.W_ij
      dW_ijV_j_ := nb.dW_ijV_j_.set nb.current_size_ e.dW_ijV_j
      e_ij_ := nb.e_ij_.set nb.current_size_ e.e_ij }

/-- The assignment `inner_configuration_[index_i].current_size_ = 0`. -/
def resetCurrentSize (cfg : ParticleConfiguration) (index_i : Nat) : ParticleConfiguration :=
  cfg.modify (fun nb => { nb with current_size_ := 0 }) index_i

/-- Modelled from the spec: `BaseInnerRelation::resetNeighborhoodCurrentSize`, which is not
under `src/`. Spec, step 1 of `updateConfiguration`: "Reset every participating particle's
neighbor-count to 0 (... the full body for inner relations ...)". -/
def BaseInnerRelation.resetNeighborhoodCurrentSize (total_real_particles_ : Nat)
    (cfg : ParticleConfiguration) : ParticleConfiguration :=
  (List.range total_real_particles_).foldl resetCurrentSize cfg

/-- What a neighbor search is given for one body: for each particle the candidates met in
the visited cells (in visiting order), and the admission test, which returns the entry to
append for an admitted candidate. Both are read from the cell linked list, the particle
positions and the neighbor builder, never from the configuration being written. -/
structure NeighborSearch (Cand : Type) where
  candidates : Nat → List Cand
  admission : Nat → Cand → Option NeighborEntry

/-- The neighbors a search admits for particle `index_i`, in visiting order. -/
def NeighborSearch.admitted {Cand : Type} (S : NeighborSearch Cand) (index_i : Nat) :
    List NeighborEntry :=
  (S.candidates index_i).filterMap (S.admission index_i)

/-- The search of one particle: every candidate is tested and appended when admitted. -/
def NeighborSearch.searchParticle {Cand : Type} (S : NeighborSearch Cand) (index_i : Nat)
    (nb : Neighborhood) : Neighborhood :=
  (S.candidates index_i).foldl
    (fun acc c => match S.admission index_i c with
      | some e => acc.append e
      | none => acc) nb

/-- Modelled from the spec: `CellLinkedList::searchNeighborsByParticles`, which is not under
`src/`. Spec, step 2 of `updateConfiguration`: "For each particle i in the active range ...
visit candidate neighbor cells and, for each candidate particle j, evaluate an admission
predicate ... If admitted, append (j, kernel_weight, kernel_gradient_weight, unit_vector) to
i's neighbor list". `range` is the loop range of the body or body part. -/
def searchNeighborsByParticles {Cand : Type} (S : NeighborSearch Cand) (range : List Nat)
    (cfg : ParticleConfiguration) : ParticleConfiguration :=
  range.foldl (fun acc index_i => acc.modify (S.searchParticle index_i) index_i) cfg

/-- Method `InnerRelation::updateConfiguration` (inner_body_relation.cpp, lines 18-24): reset, then
one search over the whole body (`sph_body_` loops over all real particles). -/
def InnerRelation.updateConfiguration {Cand : Type} (total_real_particles_ : Nat)
    (S : NeighborSearch Cand) (inner_configuration_ : ParticleConfiguration) :
    ParticleConfiguration :=
  searchNeighborsByParticles S (List.range total_real_particles_)
    (BaseInnerRelation.resetNeighborhoodCurrentSize total_real_particles_ inner_configuration_)

/-! ## Body parts and the self-surface relation -/

/-- Class `BodyPartByParticle` (base_body_part.h, lines 74-113): the collection
`body_part_particles_` of particle indices of the part. -/
structure BodyPartByParticle where
  body_part_particles_ : List Nat

/-- Modelled from the spec: `getParticleIndex(num)` of a body part, whose definition is not
under `src/`. Spec: a body part is "represented ... as a particle-index collection" and
relation updates scoped to it "iterate only over this collection": the `num`-th particle
of the part is the `num`-th entry of `body_part_particles_`. -/
def BodyPartByParticle.getParticleIndex (part : BodyPartByParticle) (num : Nat) : Nat :=
  part.body_part_particles_.getD num 0

/-- Method `SelfSurfaceContactRelation::resetNeighborhoodCurrentSize` (inner_body_relation.cpp,
lines 62-75): the loop `for (num = r.begin(); num != r.end(); ++num)` on the block
`r = [0, body_part_particles_.size())`. A write to an index the configuration does not
have changes nothing in the model (the C++ behaviour is undefined there). -/
def SelfSurfaceContactRelation.resetNeighborhoodCurrentSize
    (body_surface_layer_ : BodyPartByParticle) (inner_configuration_ : ParticleConfiguration) :
    Option ParticleConfiguration :=
  forNe (fun num cfg => resetCurrentSize cfg (body_surface_layer_.getParticleIndex num))
    body_surface_layer_.body_part_particles_.length
    (body_surface_layer_.body_part_particles_.length + 1) 0 inner_configuration_

/-- Class `BodyPartByParticle::TargetParticleMask` (base_body_part.h, lines 87-105): the part id and
the indicator array; the base search method is the template parameter. -/
structure TargetParticleMask where
  part_id_ : Int
  body_part_indicator_ : Nat → Int

/-- Method `TargetParticleMask<SearchMethod>::isInRange` (lines 97-100); `base` is
`SearchMethod::isInRange`. -/
def TargetParticleMask.isInRange (base : Nat → Nat → Bool) (m : TargetParticleMask)
    (index_i index_j : Nat) : Bool :=
  (m.body_part_indicator_ index_j == m.part_id_) && base index_i index_j

/-- The neighbor list of `index_i` built through the mask: the candidates the masked
predicate admits, in visiting order. -/
def TargetParticleMask.neighborList (base : Nat → Nat → Bool) (m : TargetParticleMask)
    (index_i : Nat) (candidates : List Nat) : List Nat :=
  candidates.filter (fun index_j => m.isInRange base index_i index_j)

/-! ## Level set (2D build) -/

/-- The type `PackageDataMatrix<T, pkg_size>`: the data of one package, indexed by `[i][j]`. -/
abbrev PackageDataMatrix (α : Type) := Nat → Nat → α

/-- The assignment `data[i][j] = v`. -/
def PackageDataMatrix.set {α : Type} (data : PackageDataMatrix α) (i j : Nat) (v : α) :
    PackageDataMatrix α :=
  fun a b => if a = i ∧ b = j then v else data a b

/-- The assignment `field.DataField()[package_index][i][j] = v`. -/
def writeCell {α : Type} (field : Nat → PackageDataMatrix α) (package_index i j : Nat) (v : α) :
    Nat → PackageDataMatrix α :=
  Function.update field package_index ((field package_index).set i j v)

/-- The mesh variables of `LevelSet` written by `initializeDataForSingularPackage`, each
indexed by package index. -/
structure LevelSet where
  phi_ : Nat → PackageDataMatrix Real
  near_interface_id_ : Nat → PackageDataMatrix Int
  phi_gradient_ : Nat → PackageDataMatrix Vecd
  kernel_weight_ : Nat → PackageDataMatrix Real
  kernel_gradient_ : Nat → PackageDataMatrix Vecd

/-- Modelled from the spec: `for_each_cell_data`, which is not under `src/`, and the package
size it loops to. Spec: "cells are grouped into fixed-size packages"; the function is applied
to every cell `(i, j)` of a package, `0 <= i, j < pkg_size`. -/
def for_each_cell_data {σ : Type} (pkg_size : Nat) (function : Nat → Nat → σ → σ) (s : σ) : σ :=
  (List.range pkg_size).foldl
    (fun s1 i => (List.range pkg_size).foldl (fun s2 j => function i j s2) s1) s

/-- The body of the lambda of `initializeDataForSingularPackage` (level_set_2d.cpp,
lines 24-28). -/
def initializeSingularCell (package_index : Nat) (far_field_level_set : Real) (i j : Nat)
    (ls : LevelSet) : LevelSet :=
  { phi_ := writeCell ls.phi_ package_index i j far_field_level_set
    near_interface_id_ :=
      writeCell ls.near_interface_id_ package_index i j (if far_field_level_set < 0 then -2 else 2)
    phi_gradient_ := writeCell ls.phi_gradient_ package_index i j Vecd.Ones
    kernel_weight_ :=
      writeCell ls.kernel_weight_ package_index i j (if far_field_level_set < 0 then 0 else 1)
    kernel_gradient_ := writeCell ls.kernel_gradient_ package_index i j Vecd.Zero }

/-- Method `LevelSet::initializeDataForSingularPackage` (level_set_2d.cpp, lines 13-30). -/
def LevelSet.initializeDataForSingularPackage (pkg_size : Nat) (ls : LevelSet)
    (package_index : Nat) (far_field_level_set : Real) : LevelSet :=
  for_each_cell_data pkg_size (initializeSingularCell package_index far_field_level_set) ls

/-- The sign of a number as `-1`, `0` or `1`. -/
def signOf {α : Type} [Zero α] [LT α] [DecidableRel (fun a b : α => a < b)] (x : α) : Int :=
  if x < 0 then -1 else if 0 < x then 1 else 0

/-! ### Queries -/

/-- Modelled from the spec: the geometry of the level-set grid, which is not under `src/`.
Spec: "A regular grid covering a tentative bounding box", "cells are grouped into fixed-size
packages". `cell_package_index_` gives the package covering each cell. -/
structure Mesh where
  mesh_lower_bound_ : Vecd
  data_spacing_ : Real
  pkg_size : Nat
  cell_package_index_ : Nat → Nat → Nat

/-- Modelled from the spec: `GridPositionFromIndex`, the position of the grid node with
global index `(I, J)`. -/
def Mesh.GridPositionFromIndex (M : Mesh) (I J : Nat) : Vecd :=
  (M.mesh_lower_bound_.1 + (I : Real) * M.data_spacing_,
   M.mesh_lower_bound_.2 + (J : Real) * M.data_spacing_)

/-- Modelled from the spec: `DataValueFromGlobalIndex` (called in `writeMeshFieldToPlt`,
defined outside `src/`): the value a mesh variable stores for global grid index `(I, J)`,
read from the package covering the cell of that index. -/
def Mesh.DataValueFromGlobalIndex {α : Type} (M : Mesh) (field : Nat → PackageDataMatrix α)
    (I J : Nat) : α :=
  field (M.cell_package_index_ (I / M.pkg_size) (J / M.pkg_size)) (I % M.pkg_size) (J % M.pkg_size)

/-- Modelled from the spec: bilinear interpolation of four corner values with fractions
`a`, `b` (the interpolation routine is not under `src/`). -/
def bilinear (f00 f10 f01 f11 a b : Real) : Real :=
  f00 * (1 - a) * (1 - b) + f10 * a * (1 - b) + f01 * (1 - a) * b + f11 * a * b

/-- Modelled from the spec: the grid coordinate of a position along one axis (the mesh
class is not under `src/`). -/
def Mesh.gridCoordinate (M : Mesh) (lower x : Real) : Real := (x - lower) / M.data_spacing_

/-- Modelled from the spec: the global index of the grid node at or below a position, along
one axis (the mesh class is not under `src/`). -/
def Mesh.lowerNode (M : Mesh) (lower x : Real) : Nat := (⌊M.gridCoordinate lower x⌋).toNat

/-- Modelled from the spec: the interpolation of a scalar mesh variable at a position.
Spec: "bilinear/trilinear interpolation over the grid using the package (possibly singular)
covering position's cell". -/
def Mesh.probe (M : Mesh) (field : Nat → PackageDataMatrix Real) (position : Vecd) : Real :=
  let I := M.lowerNode M.mesh_lower_bound_.1 position.1
  let J := M.lowerNode M.mesh_lower_bound_.2 position.2
  bilinear (M.DataValueFromGlobalIndex field I J) (M.DataValueFromGlobalIndex field (I + 1) J)
    (M.DataValueFromGlobalIndex field I (J + 1)) (M.DataValueFromGlobalIndex field (I + 1) (J + 1))
    (M.gridCoordinate M.mesh_lower_bound_.1 position.1 - I)
    (M.gridCoordinate M.mesh_lower_bound_.2 position.2 - J)

/-- Modelled from the spec: `valueAt(position)`, the level-set value query. -/
def LevelSet.valueAt (M : Mesh) (ls : LevelSet) (position : Vecd) : Real :=
  M.probe ls.phi_ position

/-- Modelled from the spec: `gradientAt(position)`, the level-set gradient query,
interpolated component by component. -/
def LevelSet.gradientAt (M : Mesh) (ls : LevelSet) (position : Vecd) : Vecd :=
  (M.probe (fun p i j => (ls.phi_gradient_ p i j).1) position,
   M.probe (fun p i j => (ls.phi_gradient_ p i j).2) position)

/-- Modelled from the spec: an analytic shape, seen through its signed distance and the
gradient of that distance. The class `Shape` is not under `src/`. -/
structure Shape where
  findSignedDistance : Vecd → Real
  findNormalDirection : Vecd → Vecd

/-- Modelled from the spec: a fully resolved package. Spec: the field is "built by sampling an
analytic or discretized shape"; every cell `(i, j)` of package `package_index`, covering
mesh cell `(cell_i, cell_j)`, stores the shape's distance and gradient at its grid node. -/
def LevelSet.initializeDataForResolvedPackage (M : Mesh) (shape : Shape) (ls : LevelSet)
    (package_index cell_i cell_j : Nat) : LevelSet :=
  for_each_cell_data M.pkg_size
    (fun i j s =>
      let position := M.GridPositionFromIndex (cell_i * M.pkg_size + i) (cell_j * M.pkg_size + j)
      { s with
        phi_ := writeCell s.phi_ package_index i j (shape.findSignedDistance position)
        phi_gradient_ :=
          writeCell s.phi_gradient_ package_index i j (shape.findNormalDirection position) }) ls

/-! ### Refinement -/

/-- Modelled from the spec: `mesh_parallel_for(MeshRange(Arrayi::Zero(), all_cells_), f)`,
which is not under `src/`. Spec: "data-parallel fork-join over independent particle/cell
indices": `f` is applied to the cells `(i, j)` with `0 <= i < all_cells_[0]`,
`0 <= j < all_cells_[1]`, and the call returns when all are done. -/
def mesh_parallel_for {σ : Type} (all_cells_ : Nat × Nat) (function : Nat → Nat → σ → σ)
    (s : σ) : σ :=
  (List.range all_cells_.1).foldl
    (fun s1 i => (List.range all_cells_.2).foldl (fun s2 j => function i j s2) s1) s

/-- The body of the constructor `RefinedLevelSet::RefinedLevelSet` (level_set_2d.cpp,
lines 150-161), for any state type: the per-cell pass, then `finishDataPackages`. -/
def RefinedLevelSet.construct {σ : Type} (all_cells_ : Nat × Nat)
    (initializeDataInACellFromCoarse : Nat × Nat → σ → σ) (finishDataPackages : σ → σ)
    (s : σ) : σ :=
  finishDataPackages
    (mesh_parallel_for all_cells_ (fun i j => initializeDataInACellFromCoarse (i, j)) s)

/-- What the constructor of a refined level set does, as a log. -/
inductive RefineEvent where
  | cellFromCoarse (cell_index : Nat × Nat)
  | finish
deriving DecidableEq

/-- The log written by the constructor when each callee records its call. -/
def RefinedLevelSet.constructLog (all_cells_ : Nat × Nat) : List RefineEvent :=
  RefinedLevelSet.construct all_cells_
    (fun cell_index log => log ++ [RefineEvent.cellFromCoarse cell_index])
    (fun log => log ++ [RefineEvent.finish]) []

/-- Modelled from the spec: the coarse level set as refinement reads it. For a position,
`none` when the coarse package covering it is not singular, `some d` when it is singular
with far-field constant `d`. -/
structure CoarseLevelSet where
  singularFarField : Vecd → Option Real

/-- Modelled from the spec: the refined field, as the signed distance held by each fine cell
(the class `RefinedMesh` is not under `src/`). -/
abbrev RefinedField := Nat × Nat → Real

/-- Modelled from the spec: `RefinedLevelSet::initializeDataInACellFromCoarse`, which is not
under `src/`. Spec: "for every fine cell inside a coarse package flagged non-singular,
resample shape's exact signed distance directly; for cells inside a singular coarse
package, replicate the coarse far-field constant". -/
def RefinedLevelSet.initializeDataInACellFromCoarse (CellPositionFromIndex : Nat × Nat → Vecd)
    (coarse_mesh_ : CoarseLevelSet) (shape_ : Shape) (cell_index : Nat × Nat)
    (field : RefinedField) : RefinedField :=
  match coarse_mesh_.singularFarField (CellPositionFromIndex cell_index) with
  | none => Function.update field cell_index
      (shape_.findSignedDistance (CellPositionFromIndex cell_index))
  | some d => Function.update field cell_index d

/-- Modelled from the spec: `RefinedMesh::finishDataPackages`, which is not under `src/`, on
the signed distances of the refined field. Spec: the field produced by `refine` holds, in
every fine cell, the resampled distance or the coarse far-field constant, and "refinement is
one-shot and does not require iterative relaxation at this layer (smoothing/correction is an
external post-pass, out of scope)": the closing step of the constructor organises the
packages and changes no signed distance written by the per-cell pass. -/
def RefinedLevelSet.finishDataPackages (field : RefinedField) : RefinedField :=
  field

/-- Modelled from the spec: the constructor of `RefinedLevelSet` (lines 150-161) on the
refined field, the per-cell pass followed by `finishDataPackages`. -/
def RefinedLevelSet.refine (all_cells_ : Nat × Nat) (CellPositionFromIndex : Nat × Nat → Vecd)
    (coarse_mesh_ : CoarseLevelSet) (shape_ : Shape) (field : RefinedField) : RefinedField :=
  RefinedLevelSet.construct all_cells_
    (RefinedLevelSet.initializeDataInACellFromCoarse CellPositionFromIndex coarse_mesh_ shape_)
    RefinedLevelSet.finishDataPackages field

/-! ## Adaptive inner relation -/

/-- The members of `AdaptiveInnerRelation` used by `updateConfiguration`: the number of
levels, the cell linked lists of the levels and the search-depth policies. -/
structure AdaptiveInnerRelation (Grid Depth : Type) where
  total_levels_ : Nat
  cell_linked_list_levels_ : List Grid
  get_multi_level_search_depth_ : List Depth

/-- One pass of the loop body of `AdaptiveInnerRelation::updateConfiguration`: the search of
level `l` with `cell_linked_list_levels_[l]` and `get_multi_level_search_depth_[l]`; `none`
when an index is out of bounds. -/
def AdaptiveInnerRelation.searchLevel {Grid Depth σ : Type} (rel : AdaptiveInnerRelation Grid Depth)
    (search : Grid → Depth → σ → σ) (l : Nat) (s : σ) : Option σ :=
  match rel.cell_linked_list_levels_[l]?, rel.get_multi_level_search_depth_[l]? with
  | some grid, some depth => some (search grid depth s)
  | _, _ => none

/-- Method `AdaptiveInnerRelation::updateConfiguration` (inner_body_relation.cpp, lines 43-52) for
any state type: `reset` is `resetNeighborhoodCurrentSize`, `search grid depth` is
`grid->searchNeighborsByParticles(sph_body_, inner_configuration_, depth,
get_adaptive_inner_neighbor_)`. -/
def AdaptiveInnerRelation.updateConfiguration {Grid Depth σ : Type}
    (rel : AdaptiveInnerRelation Grid Depth) (reset : σ → σ) (search : Grid → Depth → σ → σ)
    (s : σ) : Option σ :=
  forNeM (rel.searchLevel search) rel.total_levels_ (rel.total_levels_ + 1) 0 (reset s)

/-! ### Near-surface test -/

/-- Modelled from the spec: `isNearSurface(position)`, which is not under `src/`. Spec: "true
iff the covering cell's near-interface id has absolute value <= 1". The covering cell is the
one of the grid node at or below the position. -/
def LevelSet.isNearSurface (M : Mesh) (ls : LevelSet) (position : Vecd) : Bool :=
  decide ((M.DataValueFromGlobalIndex ls.near_interface_id_
    (M.lowerNode M.mesh_lower_bound_.1 position.1)
    (M.lowerNode M.mesh_lower_bound_.2 position.2)).natAbs ≤ 1)

/-! ## Construction of the adaptive relation, tree relation -/

/-- One pass of the loop of the constructor of `AdaptiveInnerRelation` (lines 35-40): the
policy created from `cell_linked_list_levels_[l]` is pushed back; `none` when the index is
out of bounds. `createPtr grid` is
`createPtr<SearchDepthAdaptive>(real_body, grid)`. -/
def AdaptiveInnerRelation.pushSearchDepth {Grid Depth : Type} (createPtr : Grid → Depth) (l : Nat)
    (rel : AdaptiveInnerRelation Grid Depth) : Option (AdaptiveInnerRelation Grid Depth) :=
  match rel.cell_linked_list_levels_[l]? with
  | some grid =>
    some { rel with
      get_multi_level_search_depth_ := rel.get_multi_level_search_depth_ ++ [createPtr grid] }
  | none => none

/-- The constructor `AdaptiveInnerRelation::AdaptiveInnerRelation` (inner_body_relation.cpp,
lines 26-41): `total_levels_(0)` and an empty policy vector from the member initializers,
then the levels returned by `getMeshLevels`, their number, and one policy per level. -/
def AdaptiveInnerRelation.construct {Grid Depth : Type} (getMeshLevels : List Grid)
    (createPtr : Grid → Depth) : Option (AdaptiveInnerRelation Grid Depth) :=
  let rel0 : AdaptiveInnerRelation Grid Depth :=
    { total_levels_ := 0, cell_linked_list_levels_ := [], get_multi_level_search_depth_ := [] }
  let rel1 := { rel0 with cell_linked_list_levels_ := getMeshLevels }
  let rel2 := { rel1 with total_levels_ := rel1.cell_linked_list_levels_.length }
  forNeM (AdaptiveInnerRelation.pushSearchDepth createPtr) rel2.total_levels_
    (rel2.total_levels_ + 1) 0 rel2

/-- Method `TreeInnerRelation::updateConfiguration` (inner_body_relation.cpp, lines 86-89), for
any state type: the single call `generative_tree_.buildParticleConfiguration(
inner_configuration_)`. -/
def TreeInnerRelation.updateConfiguration {σ : Type} (buildParticleConfiguration : σ → σ)
    (inner_configuration_ : σ) : σ :=
  buildParticleConfiguration inner_configuration_

/-- Modelled from the spec: `TreeBody::buildParticleConfiguration`, which is not under `src/`.
Spec: tree relations "delegate entirely to an external hierarchical-tree builder ... and
simply copy its output into the neighbor-configuration array", a list being rebuilt by "the
counter is reset to 0 and neighbors re-appended". The output of the builder for particle
`index_i` is the list `treeNeighbors index_i`; it is copied into the neighborhood of
`index_i`: the counter is set to 0 and the entries are appended. -/
def TreeBody.buildParticleConfiguration (total_real_particles_ : Nat)
    (treeNeighbors : Nat → List NeighborEntry) (cfg : ParticleConfiguration) :
    ParticleConfiguration :=
  searchNeighborsByParticles
    { candidates := treeNeighbors, admission := fun _ e => some e }
    (List.range total_real_particles_)
    (BaseInnerRelation.resetNeighborhoodCurrentSize total_real_particles_ cfg)

/-! ## Balloon test: geometry constants and body parts -/

/-- Vectors `Vec3d` of the 3D test. -/
abbrev Vec3d := Real × Real × Real

/-- The number of binary digits of `n`, 0 for `n = 0`; `fuel` bounds the recursion and
`fuel = n` is enough. -/
def binaryDigits : Nat → Nat → Nat
  | 0, _ => 0
  | fuel + 1, n => if n = 0 then 0 else binaryDigits fuel (n / 2) + 1

/-- The value a `double` holds for the exact value `x`: `x` rounded to the nearest number
with a significand of 53 binary digits, ties to the even significand. The test is compiled
with `Real = double`, every arithmetic operation and every literal is rounded this way. The
exponent is not bounded here (no overflow, no subnormal numbers): the values of the test are
far from both ends of the range. -/
def roundDouble (x : Real) : Real :=
  let n : Nat := x.num.natAbs
  let d : Nat := x.den
  if n = 0 then 0 else
    let k : Int := (binaryDigits n n : Int) - (binaryDigits d d : Int)
    let e0 : Int := k - 53
    let N0 : Nat := n * 2 ^ (Int.toNat (-e0))
    let D0 : Nat := d * 2 ^ (Int.toNat e0)
    let e : Int := if N0 / D0 < 2 ^ 53 then e0 else e0 + 1
    let N : Nat := n * 2 ^ (Int.toNat (-e))
    let D : Nat := d * 2 ^ (Int.toNat e)
    let f : Nat := N / D
    let r : Nat := N % D
    let m : Nat :=
      if 2 * r < D then f else if D < 2 * r then f + 1 else if f % 2 = 0 then f else f + 1
    let v : Real := (m : Real) * (2 : Real) ^ e
    if x.num < 0 then -v else v

/-- The constant `unit_scale` (mm to m), line 81. -/
def unit_scale : Real := roundDouble 0.001

/-- The constant `fluid_diameter`, line 82. -/
def fluid_diameter : Real := roundDouble (12 * unit_scale)

/-- The constant `resolution_solid`, line 87. -/
def resolution_solid : Real := roundDouble (roundDouble 0.4 * unit_scale)

/-- The constant `balloon_fixed_length_distal`, line 91. -/
def balloon_fixed_length_distal : Real := roundDouble (roundDouble 2.15 * unit_scale)

/-- The constant `balloon_fixed_length_proximal`, line 92. -/
def balloon_fixed_length_proximal : Real := roundDouble (roundDouble 1.5 * unit_scale)

/-- The constant `balloon_full_length`, line 93. -/
def balloon_full_length : Real := roundDouble (roundDouble 45.5 * unit_scale)

/-- The constant `balloon_translation`, line 94. -/
def balloon_translation : Vec3d := (roundDouble (fluid_diameter * roundDouble 3.5), 0, 0)

/-- The constant `balloon_distal_end`, line 95. -/
def balloon_distal_end : Real :=
  roundDouble (roundDouble (roundDouble (-5.5) * unit_scale) + balloon_translation.1)

/-- Method `ForceBoundaryGeometry::tagManually` (balloon test, lines 223-232): the index is
pushed back when the three conditions hold together. `findSignedDistance` is the signed
distance of `surface_shape_`, `pos_` the particle positions. -/
def ForceBoundaryGeometry.tagManually (findSignedDistance : Vec3d → Real) (pos_ : Nat → Vec3d)
    (index_i : Nat) (body_part_particles_ : List Nat) : List Nat :=
  let distance := findSignedDistance (pos_ index_i)
  if distance < roundDouble (roundDouble 0.7 * resolution_solid) ∧
      (pos_ index_i).1 > roundDouble (balloon_distal_end + balloon_fixed_length_distal) ∧
      (pos_ index_i).1 < roundDouble (roundDouble (balloon_distal_end + balloon_full_length) -
          balloon_fixed_length_proximal)
  then body_part_particles_ ++ [index_i]
  else body_part_particles_

/-- Modelled from the spec: `BodyPartByParticle::tagParticles`, declared in base_body_part.h
and defined outside `src/`. Spec: `tagByPredicate` "applies a boolean test per particle ...
once, populating the owned index collection": the tagging method is applied once to each
particle index `0 .. total_real_particles_ - 1`, in ascending order. -/
def BodyPartByParticle.tagParticles (total_real_particles_ : Nat)
    (tagging_particle_method : Nat → List Nat → List Nat) (body_part_particles_ : List Nat) :
    List Nat :=
  (List.range total_real_particles_).foldl (fun acc index_i => tagging_particle_method index_i acc)
    body_part_particles_

/-- The constructor of `ForceBoundaryGeometry` (balloon test, lines 214-219): the base
constructor leaves `body_part_particles_` empty, then the particles are tagged. -/
def ForceBoundaryGeometry.construct (total_real_particles_ : Nat)
    (findSignedDistance : Vec3d → Real) (pos_ : Nat → Vec3d) : BodyPartByParticle :=
  { body_part_particles_ :=
      BodyPartByParticle.tagParticles total_real_particles_
        (ForceBoundaryGeometry.tagManually findSignedDistance pos_) [] }

/-! ## Balloon test: the driver loops -/

/-- The two bodies whose relations are updated in the driver loops. -/
inductive Body where
  | fluid_block
  | solid
deriving DecidableEq

/-- The relations updated in the driver loops. -/
inductive Relation where
  | solid_self_contact
  | solid_fluid_contact
  | fluid_block_complex
deriving DecidableEq

/-- The body that owns a relation: `SelfSurfaceContactRelation solid_self_contact(solid)`,
`ContactRelation solid_fluid_contact(solid, ...)`, `ComplexRelation fluid_block_complex(
fluid_inner, ...)` with `InnerRelation fluid_inner(fluid_block)`. -/
def Relation.owner : Relation → Body
  | Relation.solid_self_contact => Body.solid
  | Relation.solid_fluid_contact => Body.solid
  | Relation.fluid_block_complex => Body.fluid_block

/-- A statement of a loop body: a dynamics step (named by its object, on the body the object
was built for), a rebuild of the cell linked list of a body, an update of a relation, or
an output step. -/
inductive DriverStep where
  | dynamics (name : String) (body : Body)
  | updateCellLinkedList (body : Body)
  | updateConfiguration (relation : Relation)
  | output (name : String)
deriving DecidableEq

/-- One iteration of the inner loop of `run_self_contact` (balloon test, lines 456-482), in
statement order. The `throw` after `solid_time_step_size.exec()` cuts the iteration short,
which gives a prefix of this list. -/
def run_self_contact_iteration : List DriverStep :=
  [ DriverStep.dynamics "solid_initialize_timestep" Body.solid,
    DriverStep.dynamics "balloon_force_bc" Body.solid,
    DriverStep.dynamics "solid_self_contact_density" Body.solid,
    DriverStep.dynamics "solid_self_contact_forces" Body.solid,
    DriverStep.dynamics "solid_time_step_size" Body.solid,
    DriverStep.dynamics "solid_stress_relaxation_first" Body.solid,
    DriverStep.dynamics "solid_constrain" Body.solid,
    DriverStep.dynamics "solid_position_damping" Body.solid,
    DriverStep.dynamics "solid_constrain" Body.solid,
    DriverStep.dynamics "solid_stress_relaxation_second" Body.solid,
    DriverStep.dynamics "solid_update_normal" Body.solid,
    DriverStep.dynamics "update_solid_volume" Body.solid,
    DriverStep.updateCellLinkedList Body.solid,
    DriverStep.updateConfiguration Relation.solid_self_contact ]

/-- One iteration of the solid loop `while (dt_s_sum < dt)` of `run_simulation` (lines
562-590). -/
def run_simulation_solid_iteration : List DriverStep :=
  [ DriverStep.dynamics "solid_initialize_timestep" Body.solid,
    DriverStep.dynamics "balloon_force_bc" Body.solid,
    DriverStep.dynamics "solid_self_contact_density" Body.solid,
    DriverStep.dynamics "solid_self_contact_forces" Body.solid,
    DriverStep.dynamics "solid_time_step_size" Body.solid,
    DriverStep.dynamics "solid_stress_relaxation_first" Body.solid,
    DriverStep.dynamics "solid_constrain" Body.solid,
    DriverStep.dynamics "solid_position_damping" Body.solid,
    DriverStep.dynamics "solid_constrain" Body.solid,
    DriverStep.dynamics "solid_stress_relaxation_second" Body.solid,
    DriverStep.dynamics "update_solid_volume" Body.solid,
    DriverStep.dynamics "solid_update_normal" Body.solid,
    DriverStep.updateCellLinkedList Body.solid,
    DriverStep.updateConfiguration Relation.solid_self_contact ]

/-- One iteration of the acoustic loop `while (relaxation_time < Dt)` of `run_simulation`
(lines 545-597) in which the solid loop runs `solid_steps` times. -/
def run_simulation_acoustic_iteration (solid_steps : Nat) : List DriverStep :=
  [ DriverStep.dynamics "fluid_acoustic_time_step" Body.fluid_block,
    DriverStep.dynamics "fluid_pressure_relaxation" Body.fluid_block,
    DriverStep.dynamics "emitter_buffer_inflow_condition" Body.fluid_block,
    DriverStep.dynamics "fluid_density_relaxation" Body.fluid_block,
    DriverStep.dynamics "initialize_displacement_" Body.solid ] ++
  (List.replicate solid_steps run_simulation_solid_iteration).flatten ++
  [ DriverStep.dynamics "update_averages_" Body.solid ]

/-- One iteration of the loop `while (integration_time < output_interval)` of
`run_simulation` (lines 527-619); `acoustic_steps` lists, for each iteration of the acoustic
loop, how often its solid loop runs. -/
def run_simulation_iteration (acoustic_steps : List Nat) : List DriverStep :=
  [ DriverStep.dynamics "fluid_step_initialization" Body.fluid_block,
    DriverStep.dynamics "fluid_advection_time_step" Body.fluid_block,
    DriverStep.dynamics "inlet_outlet_surface_particle_indicator" Body.fluid_block,
    DriverStep.dynamics "update_fluid_density_by_summation" Body.fluid_block,
    DriverStep.dynamics "viscous_acceleration" Body.fluid_block,
    DriverStep.dynamics "transport_velocity_correction" Body.fluid_block ] ++
  (acoustic_steps.map run_simulation_acoustic_iteration).flatten ++
  [ DriverStep.dynamics "emitter_inflow_injection" Body.fluid_block,
    DriverStep.dynamics "disposer_outflow_deletion" Body.fluid_block,
    DriverStep.updateCellLinkedList Body.fluid_block,
    DriverStep.dynamics "update_solid_volume" Body.solid,
    DriverStep.dynamics "solid_update_normal" Body.solid,
    DriverStep.updateCellLinkedList Body.solid,
    DriverStep.updateConfiguration Relation.solid_fluid_contact,
    DriverStep.updateConfiguration Relation.fluid_block_complex ]

/-- For each body, whether its cell linked list was rebuilt in this iteration with no
dynamics step (that counts) since. -/
structure Rebuilt where
  fluid_block : Bool
  solid : Bool
deriving DecidableEq

/-- No body rebuilt: the state at the start of an iteration. -/
def Rebuilt.none : Rebuilt := { fluid_block := false, solid := false }

/-- The flag of a body. -/
def Rebuilt.get (r : Rebuilt) : Body → Bool
  | Body.fluid_block => r.fluid_block
  | Body.solid => r.solid

/-- Setting the flag of a body. -/
def Rebuilt.set (r : Rebuilt) (b : Body) (v : Bool) : Rebuilt :=
  match b with
  | Body.fluid_block => { r with fluid_block := v }
  | Body.solid => { r with solid := v }

/-- One step of the order check. A rebuild sets the flag of its body; a dynamics step clears
the flag of its body, or of every body when `anyBody` is set; an update of a relation is
accepted only when the flag of the owning body is set. -/
def orderStep (anyBody : Bool) (r : Rebuilt) : DriverStep → Option Rebuilt
  | DriverStep.dynamics _ b => some (if anyBody then Rebuilt.none else r.set b false)
  | DriverStep.updateCellLinkedList b => some (r.set b true)
  | DriverStep.updateConfiguration rel => if r.get rel.owner then some r else Option.none
  | DriverStep.output _ => some r

/-- The order check of a sequence of statements: `some` when every update of a relation is
preceded by a rebuild of the owning body with no dynamics step that counts in between. -/
def orderCheck (anyBody : Bool) : Rebuilt → List DriverStep → Option Rebuilt
  | r, [] => some r
  | r, step :: rest =>
    match orderStep anyBody r step with
    | Option.none => Option.none
    | some r1 => orderCheck anyBody r1 rest

/-! ## Balloon test: `CheckKernelCompleteness` -/

/-- The C++ loop `for (size_t k = start; k < stop; ++k) body(k);` with a body that may fail,
run with a budget of `fuel` evaluations of the loop test. -/
def forLtM {σ : Type} (body : Nat → σ → Option σ) (stop : Nat) : Nat → Nat → σ → Option σ
  | 0, _, _ => none
  | fuel + 1, k, s =>
    if k < stop then
      match body k s with
      | none => none
      | some s1 => forLtM body stop fuel (k + 1) s1
    else some s

/-- The value of a 32-bit `int` holding the integer `x` (two's complement wrap-around). -/
def wrapInt32 (x : Int) : Int := (x + 2147483648) % 4294967296 - 2147483648

/-- A neighborhood with no storage, read where the configuration has no entry (the C++
behaviour is undefined there). -/
def Neighborhood.empty : Neighborhood :=
  { current_size_ := 0, allocated_size_ := 0, j_ := [], W_ij_ := [], dW_ijV_j_ := [], e_ij_ := [] }

/-- The members of `CheckKernelCompleteness` that `exec` reads: the number of particles, the
particle volumes, `kernel_->W(0, ZeroVecd)`, the volumes of the particles of the `k`-th contact
body, and the inner and contact configurations. -/
structure KernelCheckInputs where
  total_real_particles_ : Nat
  Vol_ : Nat → Real
  W0 : Real
  contact_Vol_ : Nat → Nat → Real
  inner_configuration_ : ParticleConfiguration
  contact_configuration_ : List ParticleConfiguration

/-- The five particle variables that `exec` writes (`TotalKernel`, `TotalKernelContact`,
`TotalKernelGrad`, `InnerNeighborNumber`, `ContactNeighborNumber`). -/
structure KernelCheckOutputs where
  W_ijV_j_ttl : Nat → Real
  W_ijV_j_ttl_contact : Nat → Real
  dW_ijV_je_ij_ttl : Nat → Vecd
  number_of_inner_neighbor : Nat → Int
  number_of_contact_neighbor : Nat → Int

/-- The local variables of the lambda of `exec`. -/
structure KernelSums where
  N_inner_number : Int
  N_contact_number : Int
  W_ijV_j_ttl_i : Real
  dW_ijV_je_ij_ttl_i : Vecd
  W_ijV_j_ttl_contact_i : Real

/-- The body of the loop over the inner neighbors (balloon test, lines 51-54). -/
def CheckKernelCompleteness.innerStep (Vol_ : Nat → Real) (inner_neighborhood : Neighborhood)
    (n : Nat) (s : KernelSums) : KernelSums :=
  let index_j := inner_neighborhood.j_.getD n 0
  { s with
    W_ijV_j_ttl_i := s.W_ijV_j_ttl_i + inner_neighborhood.W_ij_.getD n 0 * Vol_ index_j
    dW_ijV_je_ij_ttl_i := s.dW_ijV_je_ij_ttl_i +
      inner_neighborhood.dW_ijV_j_.getD n 0 • inner_neighborhood.e_ij_.getD n Vecd.Zero
    N_inner_number := wrapInt32 (s.N_inner_number + 1) }

/-- The body of the loop over the neighbors in one contact body (lines 63-66). -/
def CheckKernelCompleteness.contactStep (Vol_k : Nat → Real) (wall_neighborhood : Neighborhood)
    (n : Nat) (s : KernelSums) : KernelSums :=
  let index_j := wall_neighborhood.j_.getD n 0
  { s with
    W_ijV_j_ttl_contact_i :=
      s.W_ijV_j_ttl_contact_i + wall_neighborhood.W_ij_.getD n 0 * Vol_k index_j
    dW_ijV_je_ij_ttl_i := s.dW_ijV_je_ij_ttl_i +
      wall_neighborhood.dW_ijV_j_.getD n 0 • wall_neighborhood.e_ij_.getD n Vecd.Zero
    N_contact_number := wrapInt32 (s.N_contact_number + 1) }

/-- The sums of the lambda of `exec` for particle `index_i` (lines 43-68): the loop over the
inner neighbors, `n != current_size_`, then the loop over the contact bodies,
`k < contact_configuration_.size()`, with its loop over the neighbors. -/
def CheckKernelCompleteness.execParticle (inp : KernelCheckInputs) (index_i : Nat) :
    Option KernelSums :=
  let s0 : KernelSums :=
    { N_inner_number := 0, N_contact_number := 0,
      W_ijV_j_ttl_i := inp.Vol_ index_i * inp.W0,
      dW_ijV_je_ij_ttl_i := Vecd.Zero, W_ijV_j_ttl_contact_i := 0 }
  let inner_neighborhood := inp.inner_configuration_.getD index_i Neighborhood.empty
  match forNe (CheckKernelCompleteness.innerStep inp.Vol_ inner_neighborhood)
      inner_neighborhood.current_size_ (inner_neighborhood.current_size_ + 1) 0 s0 with
  | none => none
  | some s1 =>
    forLtM
      (fun k s =>
        let wall_neighborhood :=
          (inp.contact_configuration_.getD k []).getD index_i Neighborhood.empty
        forNe (CheckKernelCompleteness.contactStep (inp.contact_Vol_ k) wall_neighborhood)
          wall_neighborhood.current_size_ (wall_neighborhood.current_size_ + 1) 0 s)
      inp.contact_configuration_.length (inp.contact_configuration_.length + 1) 0 s1

/-- The five assignments at the end of the lambda of `exec` (lines 69-73). -/
def KernelCheckOutputs.write (out : KernelCheckOutputs) (index_i : Nat) (s : KernelSums) :
    KernelCheckOutputs :=
  { W_ijV_j_ttl :=
      Function.update out.W_ijV_j_ttl index_i (s.W_ijV_j_ttl_i + s.W_ijV_j_ttl_contact_i)
    W_ijV_j_ttl_contact :=
      Function.update out.W_ijV_j_ttl_contact index_i s.W_ijV_j_ttl_contact_i
    dW_ijV_je_ij_ttl := Function.update out.dW_ijV_je_ij_ttl index_i s.dW_ijV_je_ij_ttl_i
    number_of_inner_neighbor :=
      Function.update out.number_of_inner_neighbor index_i s.N_inner_number
    number_of_contact_neighbor :=
      Function.update out.number_of_contact_neighbor index_i s.N_contact_number }

/-- Method `CheckKernelCompleteness::exec` (balloon test, lines 37-75): `particle_for` over
`total_real_particles_`, run in ascending particle order. -/
def CheckKernelCompleteness.exec (inp : KernelCheckInputs) (out : KernelCheckOutputs) :
    Option KernelCheckOutputs :=
  forNeM
    (fun index_i o =>
      match CheckKernelCompleteness.execParticle inp index_i with
      | none => none
      | some s => some (o.write index_i s))
    inp.total_real_particles_ (inp.total_real_particles_ + 1) 0 out

/-- Two neighborhoods agree on what counts: the same `current_size_` and the same first
`current_size_` entries of `j_`, `W_ij_`, `dW_ijV_j_` and `e_ij_`. -/
def Neighborhood.AgreeOnCounted (a b : Neighborhood) : Prop :=
  a.current_size_ = b.current_size_ ∧
    ∀ n, n < a.current_size_ →
      a.j_.getD n 0 = b.j_.getD n 0 ∧ a.W_ij_.getD n 0 = b.W_ij_.getD n 0 ∧
      a.dW_ijV_j_.getD n 0 = b.dW_ijV_j_.getD n 0 ∧
      a.e_ij_.getD n Vecd.Zero = b.e_ij_.getD n Vecd.Zero

/-- One inner neighbor added to the sums. -/
def CheckKernelCompleteness.innerEntry (Vol_ : Nat → Real) (s : KernelSums) (e : NeighborEntry) :
    KernelSums :=
  { s with
    W_ijV_j_ttl_i := s.W_ijV_j_ttl_i + e.W_ij * Vol_ e.j
    dW_ijV_je_ij_ttl_i := s.dW_ijV_je_ij_ttl_i + e.dW_ijV_j • e.e_ij
    N_inner_number := wrapInt32 (s.N_inner_number + 1) }

/-- One contact neighbor added to the sums. -/
def CheckKernelCompleteness.contactEntry (Vol_k : Nat → Real) (s : KernelSums)
    (e : NeighborEntry) : KernelSums :=
  { s with
    W_ijV_j_ttl_contact_i := s.W_ijV_j_ttl_contact_i + e.W_ij * Vol_k e.j
    dW_ijV_je_ij_ttl_i := s.dW_ijV_je_ij_ttl_i + e.dW_ijV_j • e.e_ij
    N_contact_number := wrapInt32 (s.N_contact_number + 1) }

/-- The contact neighbors of the contact bodies `k, k + 1, ...` added to the sums. -/
def CheckKernelCompleteness.contactSums (contact_Vol_ : Nat → Nat → Real) :
    Nat → List (List NeighborEntry) → KernelSums → KernelSums
  | _, [], s => s
  | k, counted :: rest, s =>
    CheckKernelCompleteness.contactSums contact_Vol_ (k + 1) rest
      (counted.foldl (CheckKernelCompleteness.contactEntry (contact_Vol_ k)) s)

/-- The sums of particle `index_i` as a function of the counted neighbors only: `inner` are
the counted inner neighbors, `contacts` the counted neighbors in each contact body. -/
def CheckKernelCompleteness.countedSums (Vol_ : Nat → Real) (W0 : Real)
    (contact_Vol_ : Nat → Nat → Real) (index_i : Nat) (inner : List NeighborEntry)
    (contacts : List (List NeighborEntry)) : KernelSums :=
  CheckKernelCompleteness.contactSums contact_Vol_ 0 contacts
    (inner.foldl (CheckKernelCompleteness.innerEntry Vol_)
      { N_inner_number := 0, N_contact_number := 0,
        W_ijV_j_ttl_i := Vol_ index_i * W0,
        dW_ijV_je_ij_ttl_i := Vecd.Zero, W_ijV_j_ttl_contact_i := 0 })

instance (a b : Neighborhood) : Decidable (a.AgreeOnCounted b) := by
  unfold Neighborhood.AgreeOnCounted; infer_instance

/-- Method `BoundaryGeometry::tagManually` (balloon test, lines 201-208): the index is pushed
back when the particle lies before the distal fixed length or behind the proximal one. -/
def BoundaryGeometry.tagManually (pos_ : Nat → Vec3d) (index_i : Nat)
    (body_part_particles_ : List Nat) : List Nat :=
  if (pos_ index_i).1 < roundDouble (balloon_distal_end + balloon_fixed_length_distal) ∨
      (pos_ index_i).1 > roundDouble (roundDouble (balloon_distal_end + balloon_full_length) -
          balloon_fixed_length_proximal)
  then body_part_particles_ ++ [index_i]
  else body_part_particles_

/-- The constructor of `BoundaryGeometry` (balloon test, lines 193-198). -/
def BoundaryGeometry.construct (total_real_particles_ : Nat) (pos_ : Nat → Vec3d) :
    BodyPartByParticle :=
  { body_part_particles_ :=
      BodyPartByParticle.tagParticles total_real_particles_ (BoundaryGeometry.tagManually pos_) [] }

/-! ## Mesh output to VTU (io_vtk_mesh.cpp)

The stream `out_file` is modelled by the data entries written into a `DataArray`, in order;
the attributes of the XML headers are separate definitions. An element of
`elements_nodes_connection_` is the list of its node indices. -/

/-- The attribute `NumberOfCells` of the `Piece` header written by `FileNodeCoordinates`
(io_vtk_mesh.cpp, line 30): `elements_nodes_connection_.size()`. -/
def BodyStatesRecordingToMeshVtu.NumberOfCells (elements_nodes_connection_ : List (List Nat)) :
    Nat :=
  elements_nodes_connection_.length

/-- The entries of the `connectivity` array written by `FileCellConnectivity`
(io_vtk_mesh.cpp, lines 79-86): every vertex of every cell. -/
def BodyStatesRecordingToMeshVtu.FileCellConnectivity
    (elements_nodes_connection_ : List (List Nat)) : List Nat :=
  elements_nodes_connection_.foldl
    (fun out cell => cell.foldl (fun out1 vertex => out1 ++ [vertex]) out) []

/-- The loop of `FileOffsets` (io_vtk_mesh.cpp, lines 96-101) on the pair of the running
`offset` and the entries written so far. -/
def BodyStatesRecordingToMeshVtu.offsetsLoop (elements_nodes_connection_ : List (List Nat))
    (start : Nat × List Nat) : Nat × List Nat :=
  elements_nodes_connection_.foldl
    (fun state face =>
      let offset := state.1 + face.length
      (offset, state.2 ++ [offset])) start

/-- The entries of the `offsets` array written by `FileOffsets` (io_vtk_mesh.cpp,
lines 91-103). -/
def BodyStatesRecordingToMeshVtu.FileOffsets (elements_nodes_connection_ : List (List Nat)) :
    List Nat :=
  (BodyStatesRecordingToMeshVtu.offsetsLoop elements_nodes_connection_ (0, [])).2

/-- The attribute `RangeMin` of the `offsets` header (line 94). -/
def BodyStatesRecordingToMeshVtu.offsetsRangeMin : Nat := 4

/-- The attribute `RangeMax` of the `offsets` header (line 94):
`4 * elements_nodes_connection_.size()`. -/
def BodyStatesRecordingToMeshVtu.offsetsRangeMax (elements_nodes_connection_ : List (List Nat)) :
    Nat :=
  4 * elements_nodes_connection_.length

/-- The loops of `FileTypeOfCell` (io_vtk_mesh.cpp, lines 111-118): for every element the
inner loop `for (size_t i = 0; i < types.size(); ++i)` writes `type`. -/
def BodyStatesRecordingToMeshVtu.typesLoop (type : Nat) :
    List (List Nat) → List Nat → Option (List Nat)
  | [], out => some out
  | types :: rest, out =>
    match forLtM (fun _ o => some (o ++ [type])) types.length (types.length + 1) 0 out with
    | none => none
    | some out1 => BodyStatesRecordingToMeshVtu.typesLoop type rest out1

/-- The entries of the `types` array written by `FileTypeOfCell` (io_vtk_mesh.cpp,
lines 105-122), with `type = 10`, the VTK code of a tetrahedron. -/
def BodyStatesRecordingToMeshVtu.FileTypeOfCell (elements_nodes_connection_ : List (List Nat)) :
    Option (List Nat) :=
  BodyStatesRecordingToMeshVtu.typesLoop 10 elements_nodes_connection_ []

/-! ## Wavy channel case: reference resolution and offset distance -/

/-- The initializer of `resolution_ref` (2d_laminar_wavy_channel_VI_offset_model.h, line 34)
as a function of the constants it reads. -/
def resolutionRefOf (DH y_p_constant num_fluid_cross_section : Real) : Real :=
  (DH - 2.0 * y_p_constant) / (num_fluid_cross_section - 1.0)

/-- The initializer of `offset_distance` (line 35) as a function of the constants it reads. -/
def offsetDistanceOf (DH y_p_constant num_fluid_cross_section : Real) : Real :=
  y_p_constant - resolutionRefOf DH y_p_constant num_fluid_cross_section / 2.0

/-- The constant `DH`, the channel height. -/
def DH : Real := 1.0

/-- The constant `num_fluid_cross_section`. -/
def num_fluid_cross_section : Real := 60.0

/-- The constant `y_p_constant`. -/
def y_p_constant : Real := 0.025

/-- The constant `resolution_ref`. -/
def resolution_ref : Real := (DH - 2.0 * y_p_constant) / (num_fluid_cross_section - 1.0)

/-- The constant `offset_distance`. -/
def offset_distance : Real := y_p_constant - resolution_ref / 2.0

/-! ## Advection time step (fluid_time_step_ck.cpp)

`std::sqrt` and the constant `TinyReal` are parameters of the model: `Real` is exact here, so
the square root is any function `sqrt` and the claims state what they need of it. -/

/-- The helper `SMAX(a, b)`: the larger of two values, `a > b ? a : b`. -/
def SMAX (a b : Real) : Real := if a > b then a else b

/-- The members of `AdvectionTimeStepCK` read by the time step. -/
structure AdvectionTimeStepCK where
  h_min_ : Real
  speed_ref_ : Real
  advectionCFL_ : Real

/-- The constructor of `AdvectionTimeStepCK` (fluid_time_step_ck.cpp, lines 31-40), with
`MinimumSmoothingLength` the value of `sph_body.getSPHAdaptation().MinimumSmoothingLength()`. -/
def AdvectionTimeStepCK.construct (MinimumSmoothingLength U_ref advectionCFL : Real) :
    AdvectionTimeStepCK :=
  { h_min_ := MinimumSmoothingLength, speed_ref_ := U_ref, advectionCFL_ := advectionCFL }

/-- The members of `AdvectionTimeStepCK::FinishDynamics`. -/
structure AdvectionTimeStepCK.FinishDynamics where
  h_min_ : Real
  speed_ref_ : Real
  advectionCFL_ : Real

/-- The constructor of `AdvectionTimeStepCK::FinishDynamics` (lines 42-44). -/
def AdvectionTimeStepCK.FinishDynamics.construct (encloser : AdvectionTimeStepCK) :
    AdvectionTimeStepCK.FinishDynamics :=
  { h_min_ := encloser.h_min_, speed_ref_ := encloser.speed_ref_,
    advectionCFL_ := encloser.advectionCFL_ }

/-- Method `AdvectionTimeStepCK::FinishDynamics::Result` (lines 46-49). -/
def AdvectionTimeStepCK.FinishDynamics.Result (sqrt : Real → Real) (TinyReal : Real)
    (f : AdvectionTimeStepCK.FinishDynamics) (reduced_value : Real) : Real :=
  f.advectionCFL_ * f.h_min_ / (SMAX (sqrt reduced_value) f.speed_ref_ + TinyReal)

/-- The constructor of `AdvectionViscousTimeStepCK` (lines 51-58), with `ReferenceViscosity`
and `ReferenceDensity` the values returned by the material. -/
def AdvectionViscousTimeStepCK.construct
    (MinimumSmoothingLength ReferenceViscosity ReferenceDensity U_ref advectionCFL : Real) :
    AdvectionTimeStepCK :=
  let base := AdvectionTimeStepCK.construct MinimumSmoothingLength U_ref advectionCFL
  let viscous_speed := ReferenceViscosity / ReferenceDensity / base.h_min_
  { base with speed_ref_ := SMAX viscous_speed base.speed_ref_ }

/-! ## Time stepping of `run_simulation` (balloon test, lines 521-619)

The dynamics change the particles; the loop variables `relaxation_time`, `dt`, `dt_s_sum` and
`dt_s` depend on them only through the values returned by the time step `exec()` calls. Those
values are parameters: `dt_temp n` is returned by `fluid_acoustic_time_step.exec()` in
acoustic iteration `n`, and `dt_s_temp n m` by `solid_time_step_size.exec()` in solid
iteration `m` of acoustic iteration `n`. Values are exact rationals, every double is one;
the rounding of the program's arithmetic is the parameter `fl` of the loops. -/

/-- The helper `SMIN(a, b)`: the smaller of two values, `a < b ? a : b`. -/
def SMIN (a b : Real) : Real := if a < b then a else b

/-- How a loop is left: its condition became false, an exception was thrown in its body, or
the fuel of the model ran out before either. -/
inductive LoopExit where
  | finished
  | thrown
  | outOfFuel
  deriving DecidableEq, Repr

/-- The outcome of the solid loop: the exit, the final `dt_s_sum`, the number of iterations
entered, and for every iteration that passed the check the pair of `dt_s_sum` at its start
and its `dt_s`. -/
structure SolidLoopResult where
  exit : LoopExit
  dt_s_sum : Real
  iterations : Nat
  steps : List (Real × Real)

/-- The loop `while (dt_s_sum < dt)` (lines 563-589) from `dt_s_sum` on, `m` the number of
the next iteration. The result of every arithmetic operation goes through `fl`: `roundDouble`
for the program, the identity for exact arithmetic. -/
def run_simulation_solid_loop (fl : Real → Real) (dt_s_ref dt : Real) (dt_s_temp : Nat → Real) :
    Nat → Nat → Real → SolidLoopResult
  | 0, _, dt_s_sum => { exit := LoopExit.outOfFuel, dt_s_sum := dt_s_sum, iterations := 0,
                        steps := [] }
  | fuel + 1, m, dt_s_sum =>
    if dt_s_sum < dt then
      if dt_s_temp m < fl (dt_s_ref / 100) then
        { exit := LoopExit.thrown, dt_s_sum := dt_s_sum, iterations := 1, steps := [] }
      else
        let dt_s := min (dt_s_temp m) (fl (dt - dt_s_sum))
        let rest := run_simulation_solid_loop fl dt_s_ref dt dt_s_temp fuel (m + 1)
          (fl (dt_s_sum + dt_s))
        { exit := rest.exit, dt_s_sum := rest.dt_s_sum, iterations := rest.iterations + 1,
          steps := (dt_s_sum, dt_s) :: rest.steps }
    else
      { exit := LoopExit.finished, dt_s_sum := dt_s_sum, iterations := 0, steps := [] }

/-- One iteration of the acoustic loop that passed its check: `relaxation_time` at its
start, its `dt`, and the outcome of its solid loop. -/
structure AcousticStep where
  relaxation_time : Real
  dt : Real
  solid : SolidLoopResult

/-- The outcome of the acoustic loop: the exit, the final `relaxation_time`, the number of
iterations entered, and the iterations that passed the check. -/
structure AcousticLoopResult where
  exit : LoopExit
  relaxation_time : Real
  iterations : Nat
  steps : List AcousticStep

/-- The loop `while (relaxation_time < Dt)` (lines 545-596) from `relaxation_time` on, `n`
the number of the next iteration; the solid loop starts with `dt_s_sum = 0.0` and an exception
thrown in it leaves the acoustic loop as well. The result of every arithmetic operation goes
through `fl`: `roundDouble` for the program, the identity for exact arithmetic. -/
def run_simulation_acoustic_loop (fl : Real → Real) (dt_ref dt_s_ref Dt : Real)
    (dt_temp : Nat → Real) (dt_s_temp : Nat → Nat → Real) (solidFuel : Nat) :
    Nat → Nat → Real → AcousticLoopResult
  | 0, _, relaxation_time =>
    { exit := LoopExit.outOfFuel, relaxation_time := relaxation_time, iterations := 0,
      steps := [] }
  | fuel + 1, n, relaxation_time =>
    if relaxation_time < Dt then
      if dt_temp n < fl (dt_ref / 20) then
        { exit := LoopExit.thrown, relaxation_time := relaxation_time, iterations := 1,
          steps := [] }
      else
        let dt := SMIN (dt_temp n) (fl (Dt - relaxation_time))
        let solid := run_simulation_solid_loop fl dt_s_ref dt (dt_s_temp n) solidFuel 0 0
        match solid.exit with
        | LoopExit.finished =>
          let rest := run_simulation_acoustic_loop fl dt_ref dt_s_ref Dt dt_temp dt_s_temp
            solidFuel fuel (n + 1) (fl (relaxation_time + dt))
          { exit := rest.exit, relaxation_time := rest.relaxation_time,
            iterations := rest.iterations + 1,
            steps := { relaxation_time := relaxation_time, dt := dt, solid := solid } ::
              rest.steps }
        | stopped =>
          { exit := stopped, relaxation_time := relaxation_time, iterations := 1,
            steps := [{ relaxation_time := relaxation_time, dt := dt, solid := solid }] }
    else
      { exit := LoopExit.finished, relaxation_time := relaxation_time, iterations := 0,
        steps := [] }

/-! ## Concrete inputs -/

/-- A search over three particles: every particle meets the candidates 0, 1, 2 and admits
the ones that are not itself. -/
def exampleSearch : NeighborSearch Nat where
  candidates := fun _ => [0, 1, 2]
  admission := fun index_i index_j =>
    if index_i = index_j then none else some { j := index_j, W_ij := 1, dW_ijV_j := 2, e_ij := (1, 0) }

/-- A configuration of three particles left by an earlier step, with counted and stale
entries. -/
def exampleConfiguration : ParticleConfiguration :=
  [ { current_size_ := 2, allocated_size_ := 3, j_ := [7, 8, 9], W_ij_ := [1, 1, 1],
      dW_ijV_j_ := [1, 1, 1], e_ij_ := [(1, 0), (0, 1), (1, 1)] },
    { current_size_ := 0, allocated_size_ := 1, j_ := [5], W_ij_ := [3], dW_ijV_j_ := [3],
      e_ij_ := [(0, 1)] },
    { current_size_ := 0, allocated_size_ := 0, j_ := [], W_ij_ := [], dW_ijV_j_ := [],
      e_ij_ := [] } ]

/-- A base search method that admits every pair of distinct particles. -/
def exampleBase : Nat → Nat → Bool := fun index_i index_j => index_i != index_j

/-- A mask for part 1, to which particles 0 and 1 belong. -/
def exampleMask : TargetParticleMask where
  part_id_ := 1
  body_part_indicator_ := fun index_j => if index_j < 2 then 1 else 0

/-- A level set whose data are all zero. -/
def exampleLevelSet : LevelSet where
  phi_ := fun _ _ _ => 0
  near_interface_id_ := fun _ _ _ => 0
  phi_gradient_ := fun _ _ _ => (0, 0)
  kernel_weight_ := fun _ _ _ => 0
  kernel_gradient_ := fun _ _ _ => (0, 0)

/-- A mesh with unit spacing from the origin, packages of 4 x 4 cells, every cell covered by
package 2. -/
def exampleMesh : Mesh where
  mesh_lower_bound_ := (0, 0)
  data_spacing_ := 1
  pkg_size := 4
  cell_package_index_ := fun _ _ => 2

/-- The half plane `x < 100`: signed distance `x - 100`, gradient `(1, 0)`. -/
def exampleShape : Shape where
  findSignedDistance := fun position => position.1 - 100
  findNormalDirection := fun _ => (1, 0)

/-- An adaptive relation with two levels. -/
def exampleAdaptive : AdaptiveInnerRelation String Nat where
  total_levels_ := 2
  cell_linked_list_levels_ := ["coarse", "fine"]
  get_multi_level_search_depth_ := [3, 1]

/-- The searches of the two example levels: level "coarse" finds `exampleSearch`, level
"fine" finds one more neighbor, particle 5, for every particle. -/
def exampleLevelSearch : String → Nat → NeighborSearch Nat := fun grid _ =>
  if grid = "coarse" then exampleSearch
  else
    { candidates := fun _ => [5]
      admission := fun _ index_j => some { j := index_j, W_ij := 1, dW_ijV_j := 2, e_ij := (0, 1) } }

/-- Positions of four solid particles along the balloon axis, in metres. -/
def examplePositions : Nat → Vec3d := fun index_i =>
  if index_i = 0 then (0.037, 0, 0)
  else if index_i = 1 then (0.050, 0, 0)
  else if index_i = 2 then (0.060, 0, 0)
  else (0.080, 0, 0)

/-- A surface whose signed distance is 0 everywhere. -/
def exampleSurfaceDistance : Vec3d → Real := fun _ => 0

/-- The example configuration with other stale entries: particle 0 has lost its uncounted
third entry, particle 1 has another uncounted entry. -/
def exampleConfigurationStale : ParticleConfiguration :=
  [ { current_size_ := 2, allocated_size_ := 2, j_ := [7, 8], W_ij_ := [1, 1],
      dW_ijV_j_ := [1, 1], e_ij_ := [(1, 0), (0, 1)] },
    { current_size_ := 0, allocated_size_ := 1, j_ := [6], W_ij_ := [4], dW_ijV_j_ := [5],
      e_ij_ := [(1, 1)] },
    { current_size_ := 0, allocated_size_ := 0, j_ := [], W_ij_ := [], dW_ijV_j_ := [],
      e_ij_ := [] } ]

/-- Inputs of the kernel check for three particles with one contact body. -/
def exampleKernelCheckInputs : KernelCheckInputs where
  total_real_particles_ := 3
  Vol_ := fun _ => 1
  W0 := 2
  contact_Vol_ := fun _ _ => 1
  inner_configuration_ := exampleConfiguration
  contact_configuration_ := [exampleConfiguration]

/-- Outputs of the kernel check before `exec`: all zero. -/
def exampleKernelCheckOutputs : KernelCheckOutputs where
  W_ijV_j_ttl := fun _ => 0
  W_ijV_j_ttl_contact := fun _ => 0
  dW_ijV_je_ij_ttl := fun _ => (0, 0)
  number_of_inner_neighbor := fun _ => 0
  number_of_contact_neighbor := fun _ => 0

/-- A square root for the examples: the integer square root of the integer part, exact on
perfect squares and never negative. -/
def exampleSqrt (v : Real) : Real := ((Nat.sqrt (Int.toNat (Int.floor v)) : Nat) : Real)

/-- Acoustic time steps for the examples: `fluid_acoustic_time_step.exec()` returns 3/10 in
every iteration. -/
def exampleDtTemp : Nat → Real := fun _ => 3 / 10

/-- Solid time steps for the examples: `solid_time_step_size.exec()` returns 1/10 in every
iteration. -/
def exampleDtSTemp : Nat → Nat → Real := fun _ _ => 1 / 10

/-- Acoustic time steps, as doubles, for a run that passes `Dt`: 526.5009916186067 in the
first iteration, 1289.130911015274 afterwards. -/
def exampleDtTempLong : Nat → Real := fun n =>
  if n = 0 then roundDouble 526.5009916186067 else roundDouble 1289.130911015274

/-- Acoustic time steps for a run with one iteration too many: the double 0.1 in every
iteration. -/
def exampleDtTempTenth : Nat → Real := fun _ => roundDouble 0.1

/-- Solid time steps larger than every acoustic step of the examples, so that each solid loop
takes a single step. -/
def exampleDtSTempLarge : Nat → Nat → Real := fun _ _ => 2000

/-! ## Loop lemmas -/

theorem forNe_eq_foldl {σ : Type} (body : Nat → σ → σ) (n : Nat) :
    ∀ (k : Nat) (s : σ),
      forNe body (k + n) (n + 1) k s = some ((List.range' k n).foldl (fun acc i => body i acc) s) := by
  induction n with
  | zero => intro k s; simp [forNe]
  | succ n ih =>
    intro k s
    have hne : k ≠ k + (n + 1) := by omega
    have hstop : k + (n + 1) = (k + 1) + n := by omega
    rw [forNe, if_neg hne, hstop, ih (k + 1) (body k s)]
    simp [List.range'_succ]

theorem forNe_zero_eq_foldl {σ : Type} (body : Nat → σ → σ) (n : Nat) (s : σ) :
    forNe body n (n + 1) 0 s = some ((List.range n).foldl (fun acc i => body i acc) s) := by
  have h := forNe_eq_foldl body n 0 s
  rw [Nat.zero_add] at h
  rw [h, List.range_eq_range']

/-- A fold of `getD` reads over the indices of a list is a fold over the list. -/
theorem foldl_range_getD {σ : Type} (f : σ → Nat → σ) (l : List Nat) (d : Nat) (s : σ) :
    (List.range l.length).foldl (fun acc num => f acc (l.getD num d)) s = l.foldl f s := by
  have h : (List.range l.length).map (fun num => l.getD num d) = l := by
    apply List.ext_getElem
    · simp
    · intro n h1 h2
      simp at h1
      simp [List.getD_eq_getElem, h1]
  conv_rhs => rw [← h]
  rw [List.foldl_map]

/-! ## Configuration lemmas -/

/-- Writing through `modify` at the indices of a duplicate-free list: each listed particle
is transformed once, the others are untouched. -/
theorem foldl_modify_getElem? {α : Type} (f : Nat → α → α) (indices : List Nat)
    (hnodup : indices.Nodup) :
    ∀ (cfg : List α) (k : Nat),
      (indices.foldl (fun acc i => acc.modify (f i) i) cfg)[k]? =
        if k ∈ indices then (cfg[k]?).map (f k) else cfg[k]? := by
  induction indices with
  | nil => intro cfg k; simp
  | cons a rest ih =>
    intro cfg k
    rw [List.nodup_cons] at hnodup
    rw [List.foldl_cons, ih hnodup.2]
    by_cases hka : k = a
    · subst hka
      simp [hnodup.1, List.getElem?_modify_eq]
    · have hak : a ≠ k := fun h => hka h.symm
      simp [hka, List.getElem?_modify_ne _ _ hak]

/-- Writing an idempotent update at the indices of any list. -/
theorem foldl_modify_idem_getElem? {α : Type} (f : α → α) (hf : ∀ x, f (f x) = f x)
    (indices : List Nat) :
    ∀ (cfg : List α) (k : Nat),
      (indices.foldl (fun acc i => acc.modify f i) cfg)[k]? =
        if k ∈ indices then (cfg[k]?).map f else cfg[k]? := by
  induction indices with
  | nil => intro cfg k; simp
  | cons a rest ih =>
    intro cfg k
    rw [List.foldl_cons, ih]
    by_cases hka : k = a
    · subst hka
      by_cases hmem : k ∈ rest
      · cases hk : cfg[k]? <;> simp [hmem, List.getElem?_modify_eq, hk, hf]
      · simp [hmem, List.getElem?_modify_eq]
    · have hak : a ≠ k := fun h => hka h.symm
      simp [hka, List.getElem?_modify_ne _ _ hak]

theorem foldl_modify_length {α : Type} (f : Nat → α → α) (indices : List Nat) :
    ∀ (cfg : List α), (indices.foldl (fun acc i => acc.modify (f i) i) cfg).length = cfg.length := by
  induction indices with
  | nil => intro cfg; rfl
  | cons a rest ih => intro cfg; rw [List.foldl_cons, ih]; simp

/-! ## Neighborhood lemmas -/

theorem getD_append_singleton_lt {α : Type} (l : List α) (x d : α) (n : Nat) (h : n < l.length) :
    (l ++ [x]).getD n d = l.getD n d := by
  simp [List.getD_eq_getElem?_getD, List.getElem?_append_left h]

theorem getD_append_singleton_length {α : Type} (l : List α) (x d : α) :
    (l ++ [x]).getD l.length d = x := by
  simp [List.getD_eq_getElem?_getD]

theorem getD_set_ne {α : Type} (l : List α) (x d : α) (c n : Nat) (h : n ≠ c) :
    (l.set c x).getD n d = l.getD n d := by
  have hc : c ≠ n := fun e => h e.symm
  simp [List.getD_eq_getElem?_getD, List.getElem?_set_ne hc]

theorem getD_set_self {α : Type} (l : List α) (x d : α) (c : Nat) (h : c < l.length) :
    (l.set c x).getD c d = x := by
  simp [List.getD_eq_getElem?_getD, List.getElem?_set_self h]

theorem Neighborhood.append_wellFormed (nb : Neighborhood) (e : NeighborEntry)
    (h : nb.WellFormed) : (nb.append e).WellFormed := by
  obtain ⟨h1, h2, h3, h4, h5⟩ := h
  unfold Neighborhood.append
  split
  · refine ⟨?_, ?_, ?_, ?_, ?_⟩ <;> simp <;> omega
  · refine ⟨?_, ?_, ?_, ?_, ?_⟩ <;> simp <;> omega

theorem Neighborhood.append_current_size (nb : Neighborhood) (e : NeighborEntry) :
    (nb.append e).current_size_ = nb.current_size_ + 1 := by
  unfold Neighborhood.append
  split <;> rfl

theorem Neighborhood.append_entry_lt (nb : Neighborhood) (e : NeighborEntry)
    (h : nb.WellFormed) (n : Nat) (hn : n < nb.current_size_) :
    (nb.append e).entry n = nb.entry n := by
  obtain ⟨h1, h2, h3, h4, h5⟩ := h
  unfold Neighborhood.append
  split
  · simp only [Neighborhood.entry]
    rw [getD_append_singleton_lt _ _ _ _ (by omega), getD_append_singleton_lt _ _ _ _ (by omega),
      getD_append_singleton_lt _ _ _ _ (by omega), getD_append_singleton_lt _ _ _ _ (by omega)]
  · simp only [Neighborhood.entry]
    rw [getD_set_ne _ _ _ _ _ (by omega), getD_set_ne _ _ _ _ _ (by omega),
      getD_set_ne _ _ _ _ _ (by omega), getD_set_ne _ _ _ _ _ (by omega)]

theorem Neighborhood.append_entry_self (nb : Neighborhood) (e : NeighborEntry)
    (h : nb.WellFormed) : (nb.append e).entry nb.current_size_ = e := by
  obtain ⟨h1, h2, h3, h4, h5⟩ := h
  unfold Neighborhood.append
  split
  · rename_i hge
    have hc : nb.current_size_ = nb.allocated_size_ := by omega
    simp only [Neighborhood.entry]
    have e1 := getD_append_singleton_length nb.j_ e.j 0
    have e2 := getD_append_singleton_length nb.W_ij_ e.W_ij 0
    have e3 := getD_append_singleton_length nb.dW_ijV_j_ e.dW_ijV_j 0
    have e4 := getD_append_singleton_length nb.e_ij_ e.e_ij Vecd.Zero
    rw [h1, ← hc] at e1
    rw [h2, ← hc] at e2
    rw [h3, ← hc] at e3
    rw [h4, ← hc] at e4
    rw [e1, e2, e3, e4]
  · simp only [Neighborhood.entry]
    rw [getD_set_self _ _ _ _ (by omega), getD_set_self _ _ _ _ (by omega),
      getD_set_self _ _ _ _ (by omega), getD_set_self _ _ _ _ (by omega)]

theorem Neighborhood.append_neighbors (nb : Neighborhood) (e : NeighborEntry)
    (h : nb.WellFormed) : (nb.append e).neighbors = nb.neighbors ++ [e] := by
  unfold Neighborhood.neighbors
  rw [Neighborhood.append_current_size, List.range_succ, List.map_append, List.map_singleton,
    Neighborhood.append_entry_self nb e h]
  congr 1
  apply List.map_congr_left
  intro n hn
  exact Neighborhood.append_entry_lt nb e h n (List.mem_range.mp hn)

theorem NeighborSearch.searchParticle_spec {Cand : Type} (S : NeighborSearch Cand) (index_i : Nat)
    (nb : Neighborhood) (h : nb.WellFormed) :
    (S.searchParticle index_i nb).WellFormed ∧
      (S.searchParticle index_i nb).neighbors = nb.neighbors ++ S.admitted index_i := by
  unfold NeighborSearch.searchParticle NeighborSearch.admitted
  generalize S.candidates index_i = cands
  induction cands generalizing nb with
  | nil => simp [h]
  | cons c rest ih =>
    rw [List.foldl_cons, List.filterMap_cons]
    cases hc : S.admission index_i c with
    | none => simpa using ih nb h
    | some e =>
      have h1 := ih (nb.append e) (Neighborhood.append_wellFormed nb e h)
      refine ⟨h1.1, ?_⟩
      rw [h1.2, Neighborhood.append_neighbors nb e h]
      simp

theorem Neighborhood.neighbors_length (nb : Neighborhood) :
    nb.neighbors.length = nb.current_size_ := by
  simp [Neighborhood.neighbors]

theorem BaseInnerRelation.resetNeighborhoodCurrentSize_getElem? (total_real_particles_ : Nat)
    (cfg : ParticleConfiguration) (k : Nat) :
    (BaseInnerRelation.resetNeighborhoodCurrentSize total_real_particles_ cfg)[k]? =
      if k < total_real_particles_ then (cfg[k]?).map (fun nb => { nb with current_size_ := 0 })
      else cfg[k]? := by
  have h := foldl_modify_getElem? (fun (_ : Nat) (nb : Neighborhood) => { nb with current_size_ := 0 })
    (List.range total_real_particles_) (List.nodup_range _) cfg k
  simp only [List.mem_range] at h
  exact h

theorem searchNeighborsByParticles_getElem? {Cand : Type} (S : NeighborSearch Cand)
    (range : List Nat) (hnodup : range.Nodup) (cfg : ParticleConfiguration) (k : Nat) :
    (searchNeighborsByParticles S range cfg)[k]? =
      if k ∈ range then (cfg[k]?).map (S.searchParticle k) else cfg[k]? :=
  foldl_modify_getElem? (fun i nb => S.searchParticle i nb) range hnodup cfg k

/-! ## Claims on the relations -/

/-- Claim C1. `InnerRelation::updateConfiguration` rebuilds every list from scratch: for every
configuration that existed before the call (with its stale entries and counters) and every
particle of the body, the neighbor count after the call is the number of neighbors the
search of this call appended, and the counted neighbors are exactly those, in order. The
right-hand sides do not mention the previous configuration. -/
theorem InnerRelation.updateConfiguration_rebuilds {Cand : Type} (total_real_particles_ : Nat)
    (S : NeighborSearch Cand) (cfg : ParticleConfiguration)
    (hsize : total_real_particles_ ≤ cfg.length) (hwf : ∀ nb ∈ cfg, nb.WellFormed)
    (index_i : Nat) (hi : index_i < total_real_particles_) :
    ∃ nb, (InnerRelation.updateConfiguration total_real_particles_ S cfg)[index_i]? = some nb ∧
      nb.current_size_ = (S.admitted index_i).length ∧ nb.neighbors = S.admitted index_i := by
  have hlt : index_i < cfg.length := by omega
  have hget : cfg[index_i]? = some cfg[index_i] := List.getElem?_eq_getElem hlt
  have hmem : cfg[index_i] ∈ cfg := List.getElem_mem hlt
  have hwf0 : ({ cfg[index_i] with current_size_ := 0 } : Neighborhood).WellFormed := by
    obtain ⟨h1, h2, h3, h4, _⟩ := hwf _ hmem
    exact ⟨h1, h2, h3, h4, Nat.zero_le _⟩
  have hspec := S.searchParticle_spec index_i _ hwf0
  refine ⟨S.searchParticle index_i { cfg[index_i] with current_size_ := 0 }, ?_, ?_, ?_⟩
  · unfold InnerRelation.updateConfiguration
    rw [searchNeighborsByParticles_getElem? S _ (List.nodup_range _),
      BaseInnerRelation.resetNeighborhoodCurrentSize_getElem?]
    simp [hi, hget]
  · rw [← Neighborhood.neighbors_length, hspec.2]
    simp [Neighborhood.neighbors]
  · rw [hspec.2]
    simp [Neighborhood.neighbors]

/-- Claim C2. `SelfSurfaceContactRelation::resetNeighborhoodCurrentSize` returns, keeps the number
of neighborhoods, and changes the configuration only by setting `current_size_` to 0 for
the particles listed in the body part: a listed particle keeps its capacity and its four
stored arrays, a particle that is not listed keeps its whole neighborhood. -/
theorem SelfSurfaceContactRelation.resetNeighborhoodCurrentSize_frame
    (body_surface_layer_ : BodyPartByParticle) (cfg : ParticleConfiguration) :
    ∃ cfg1, SelfSurfaceContactRelation.resetNeighborhoodCurrentSize body_surface_layer_ cfg
        = some cfg1 ∧
      cfg1.length = cfg.length ∧
      ∀ index_i, cfg1[index_i]? =
        (cfg[index_i]?).map (fun nb =>
          if index_i ∈ body_surface_layer_.body_part_particles_ then
            { current_size_ := 0
              allocated_size_ := nb.allocated_size_
              j_ := nb.j_
              W_ij_ := nb.W_ij_
              dW_ijV_j_ := nb.dW_ijV_j_
              e_ij_ := nb.e_ij_ }
          else nb) := by
  unfold SelfSurfaceContactRelation.resetNeighborhoodCurrentSize
  rw [forNe_zero_eq_foldl]
  refine ⟨_, rfl, ?_, ?_⟩
  · unfold BodyPartByParticle.getParticleIndex
    rw [foldl_range_getD (fun acc i => resetCurrentSize acc i)]
    exact foldl_modify_length (fun _ nb => { nb with current_size_ := 0 }) _ cfg
  · intro index_i
    unfold BodyPartByParticle.getParticleIndex
    rw [foldl_range_getD (fun acc i => resetCurrentSize acc i)]
    have h := foldl_modify_idem_getElem? (fun (nb : Neighborhood) => { nb with current_size_ := 0 })
      (fun _ => rfl) body_surface_layer_.body_part_particles_ cfg index_i
    unfold resetCurrentSize
    rw [h]
    by_cases hmem : index_i ∈ body_surface_layer_.body_part_particles_
    · simp [hmem]
    · simp [hmem]

/-- The result of `SelfSurfaceContactRelation::resetNeighborhoodCurrentSize` does not depend on
how `parallel_for` schedules the block: visiting the positions `num` of the part in any order,
each at least once, gives the configuration of the ascending pass. -/
theorem SelfSurfaceContactRelation.resetNeighborhoodCurrentSize_schedule
    (body_surface_layer_ : BodyPartByParticle) (cfg : ParticleConfiguration)
    (schedule : List Nat)
    (hschedule : ∀ num, num ∈ schedule ↔ num < body_surface_layer_.body_part_particles_.length) :
    some (schedule.foldl
        (fun acc num => resetCurrentSize acc (body_surface_layer_.getParticleIndex num)) cfg) =
      SelfSurfaceContactRelation.resetNeighborhoodCurrentSize body_surface_layer_ cfg := by
  unfold SelfSurfaceContactRelation.resetNeighborhoodCurrentSize
  rw [forNe_zero_eq_foldl]
  congr 1
  have hmap : ∀ (nums : List Nat) (c : ParticleConfiguration),
      nums.foldl (fun acc num => resetCurrentSize acc (body_surface_layer_.getParticleIndex num)) c =
        (nums.map body_surface_layer_.getParticleIndex).foldl
          (fun acc i => acc.modify (fun nb => { nb with current_size_ := 0 }) i) c := by
    intro nums c
    rw [List.foldl_map]
    rfl
  rw [hmap, hmap]
  apply List.ext_getElem?
  intro k
  have hidem := foldl_modify_idem_getElem?
    (fun (nb : Neighborhood) => { nb with current_size_ := 0 }) (fun _ => rfl)
  rw [hidem, hidem]
  have hiff : k ∈ schedule.map body_surface_layer_.getParticleIndex ↔
      k ∈ (List.range body_surface_layer_.body_part_particles_.length).map
        body_surface_layer_.getParticleIndex := by
    simp only [List.mem_map, List.mem_range, hschedule]
  by_cases hk : k ∈ schedule.map body_surface_layer_.getParticleIndex
  · rw [if_pos hk, if_pos (hiff.mp hk)]
  · rw [if_neg hk, if_neg (fun h => hk (hiff.mpr h))]

/-- Claim C3. The masked predicate admits `(index_i, index_j)` if and only if `index_j` carries the
part id and the base search method admits the pair, for every base method, part id and
indicator array. Both consequences of the claim (the base predicate also admits the pair,
the neighbor is in the tagged subset) are the two halves of the right-hand side. -/
theorem TargetParticleMask.isInRange_iff (base : Nat → Nat → Bool) (m : TargetParticleMask)
    (index_i index_j : Nat) :
    m.isInRange base index_i index_j = true ↔
      (m.body_part_indicator_ index_j = m.part_id_ ∧ base index_i index_j = true) := by
  simp [TargetParticleMask.isInRange]

/-- Claim C4. Masking preserves no-self-neighboring: when the base search method admits no particle
as its own neighbor, neither does the masked predicate, for every part id and indicator
array, and no particle is in its own neighbor list built through the mask. -/
theorem TargetParticleMask.isInRange_self (base : Nat → Nat → Bool)
    (hbase : ∀ i, base i i = false) (m : TargetParticleMask) (index_i : Nat)
    (candidates : List Nat) :
    m.isInRange base index_i index_i = false ∧
      index_i ∉ m.neighborList base index_i candidates := by
  have h : m.isInRange base index_i index_i = false := by
    simp [TargetParticleMask.isInRange, hbase]
  refine ⟨h, ?_⟩
  intro hmem
  have h2 := (List.mem_filter.mp hmem).2
  rw [h] at h2
  exact Bool.false_ne_true h2

/-! ## Level-set lemmas -/

theorem foldl_preserve {σ ι : Type} (g : ι → σ → σ) (Q : σ → Prop) (l : List ι)
    (hpres : ∀ y s, Q s → Q (g y s)) :
    ∀ s, Q s → Q (l.foldl (fun acc y => g y acc) s) := by
  induction l with
  | nil => intro s hs; exact hs
  | cons y ys ih => intro s hs; exact ih _ (hpres y s hs)

theorem foldl_establish {σ ι : Type} (g : ι → σ → σ) (Q : σ → Prop) (l : List ι) (x : ι)
    (hx : x ∈ l) (hest : ∀ s, Q (g x s)) (hpres : ∀ y s, Q s → Q (g y s)) :
    ∀ s, Q (l.foldl (fun acc y => g y acc) s) := by
  induction l with
  | nil => exact absurd hx (List.not_mem_nil _)
  | cons y ys ih =>
    intro s
    rw [List.foldl_cons]
    rcases List.mem_cons.mp hx with hxy | hxys
    · subst hxy
      exact foldl_preserve g Q ys hpres _ (hest s)
    · exact ih hxys _

/-- A property established by the visit of cell `(i, j)` and preserved by every visit holds
after a row-by-row pass over a block of cells containing `(i, j)`. -/
theorem nested_foldl_establish {σ : Type} (f : Nat → Nat → σ → σ) (Q : σ → Prop)
    (rows cols : List Nat) (i j : Nat) (hi : i ∈ rows) (hj : j ∈ cols)
    (hest : ∀ s, Q (f i j s)) (hpres : ∀ a b s, Q s → Q (f a b s)) (s : σ) :
    Q (rows.foldl (fun s1 a => cols.foldl (fun s2 b => f a b s2) s1) s) :=
  foldl_establish (fun a s1 => cols.foldl (fun s2 b => f a b s2) s1) Q rows i hi
    (fun s1 => foldl_establish (fun b s2 => f i b s2) Q cols j hj hest (hpres i) s1)
    (fun a s1 hs1 => foldl_preserve (fun b s2 => f a b s2) Q cols (hpres a) s1 hs1) s

theorem writeCell_same {α : Type} (field : Nat → PackageDataMatrix α) (p i j : Nat) (v : α) :
    writeCell field p i j v p i j = v := by
  simp [writeCell, PackageDataMatrix.set]

theorem writeCell_const {α : Type} (field : Nat → PackageDataMatrix α) (p i j a b : Nat) (v : α)
    (h : field p i j = v) : writeCell field p a b v p i j = v := by
  simp only [writeCell, PackageDataMatrix.set, Function.update_same]
  split
  · rfl
  · exact h

/-- Every cell of the package holds the five values written by the lambda. -/
theorem LevelSet.initializeDataForSingularPackage_cell (pkg_size : Nat) (ls : LevelSet)
    (package_index : Nat) (far_field_level_set : Real) (i j : Nat)
    (hi : i < pkg_size) (hj : j < pkg_size) :
    let ls1 := ls.initializeDataForSingularPackage pkg_size package_index far_field_level_set
    ls1.phi_ package_index i j = far_field_level_set ∧
      ls1.near_interface_id_ package_index i j = (if far_field_level_set < 0 then -2 else 2) ∧
      ls1.phi_gradient_ package_index i j = Vecd.Ones ∧
      ls1.kernel_weight_ package_index i j = (if far_field_level_set < 0 then 0 else 1) ∧
      ls1.kernel_gradient_ package_index i j = Vecd.Zero := by
  intro ls1
  exact nested_foldl_establish (initializeSingularCell package_index far_field_level_set)
    (fun s => s.phi_ package_index i j = far_field_level_set ∧
      s.near_interface_id_ package_index i j = (if far_field_level_set < 0 then -2 else 2) ∧
      s.phi_gradient_ package_index i j = Vecd.Ones ∧
      s.kernel_weight_ package_index i j = (if far_field_level_set < 0 then 0 else 1) ∧
      s.kernel_gradient_ package_index i j = Vecd.Zero)
    (List.range pkg_size) (List.range pkg_size) i j
    (List.mem_range.mpr hi) (List.mem_range.mpr hj)
    (fun s => ⟨writeCell_same _ _ _ _ _, writeCell_same _ _ _ _ _, writeCell_same _ _ _ _ _,
      writeCell_same _ _ _ _ _, writeCell_same _ _ _ _ _⟩)
    (fun a b s hs => ⟨writeCell_const _ _ _ _ _ _ _ hs.1, writeCell_const _ _ _ _ _ _ _ hs.2.1,
      writeCell_const _ _ _ _ _ _ _ hs.2.2.1, writeCell_const _ _ _ _ _ _ _ hs.2.2.2.1,
      writeCell_const _ _ _ _ _ _ _ hs.2.2.2.2⟩) ls

theorem writeCell_apply {α : Type} (field : Nat → PackageDataMatrix α) (p a b i j : Nat) (v : α) :
    writeCell field p a b v p i j = if i = a ∧ j = b then v else field p i j := by
  simp [writeCell, PackageDataMatrix.set]

/-- Every cell of a resolved package holds the shape's distance and gradient at its node. -/
theorem LevelSet.initializeDataForResolvedPackage_cell (M : Mesh) (shape : Shape) (ls : LevelSet)
    (package_index cell_i cell_j i j : Nat) (hi : i < M.pkg_size) (hj : j < M.pkg_size) :
    let ls1 := ls.initializeDataForResolvedPackage M shape package_index cell_i cell_j
    let position := M.GridPositionFromIndex (cell_i * M.pkg_size + i) (cell_j * M.pkg_size + j)
    ls1.phi_ package_index i j = shape.findSignedDistance position ∧
      ls1.phi_gradient_ package_index i j = shape.findNormalDirection position := by
  intro ls1 position
  refine nested_foldl_establish
    (fun a b (s : LevelSet) =>
      ({ s with
        phi_ := writeCell s.phi_ package_index a b (shape.findSignedDistance
          (M.GridPositionFromIndex (cell_i * M.pkg_size + a) (cell_j * M.pkg_size + b)))
        phi_gradient_ := writeCell s.phi_gradient_ package_index a b (shape.findNormalDirection
          (M.GridPositionFromIndex (cell_i * M.pkg_size + a) (cell_j * M.pkg_size + b))) } : LevelSet))
    (fun s => s.phi_ package_index i j = shape.findSignedDistance position ∧
      s.phi_gradient_ package_index i j = shape.findNormalDirection position)
    (List.range M.pkg_size) (List.range M.pkg_size) i j
    (List.mem_range.mpr hi) (List.mem_range.mpr hj) ?_ ?_ ls
  · intro s
    exact ⟨writeCell_same _ _ _ _ _, writeCell_same _ _ _ _ _⟩
  · intro a b s hs
    constructor
    · show writeCell s.phi_ package_index a b _ package_index i j = _
      rw [writeCell_apply]
      split
      · rename_i h; rw [← h.1, ← h.2]
      · exact hs.1
    · show writeCell s.phi_gradient_ package_index a b _ package_index i j = _
      rw [writeCell_apply]
      split
      · rename_i h; rw [← h.1, ← h.2]
      · exact hs.2

theorem bilinear_const (d a b : Real) : bilinear d d d d a b = d := by
  unfold bilinear; ring

theorem bilinear_node (f00 f10 f01 f11 : Real) : bilinear f00 f10 f01 f11 0 0 = f00 := by
  unfold bilinear; ring

/-- A query at a grid node returns the value stored for that node. -/
theorem Mesh.probe_node (M : Mesh) (hspacing : M.data_spacing_ ≠ 0)
    (field : Nat → PackageDataMatrix Real) (I J : Nat) :
    M.probe field (M.GridPositionFromIndex I J) = M.DataValueFromGlobalIndex field I J := by
  have hx : M.gridCoordinate M.mesh_lower_bound_.1 (M.GridPositionFromIndex I J).1 = (I : Real) := by
    simp [Mesh.gridCoordinate, Mesh.GridPositionFromIndex, hspacing]
  have hy : M.gridCoordinate M.mesh_lower_bound_.2 (M.GridPositionFromIndex I J).2 = (J : Real) := by
    simp [Mesh.gridCoordinate, Mesh.GridPositionFromIndex, hspacing]
  have hI : M.lowerNode M.mesh_lower_bound_.1 (M.GridPositionFromIndex I J).1 = I := by
    unfold Mesh.lowerNode; rw [hx]; simp
  have hJ : M.lowerNode M.mesh_lower_bound_.2 (M.GridPositionFromIndex I J).2 = J := by
    unfold Mesh.lowerNode; rw [hy]; simp
  unfold Mesh.probe
  simp only [hI, hJ, hx, hy, sub_self]
  exact bilinear_node _ _ _ _

/-! ## Claims on the level set -/

/-- Claim C5. After `initializeDataForSingularPackage(p, d)` every cell `(i, j)` of package `p`
stores `phi = d`, for every package index and every far-field value. -/
theorem LevelSet.initializeDataForSingularPackage_phi (pkg_size : Nat) (ls : LevelSet)
    (package_index : Nat) (far_field_level_set : Real) (i j : Nat)
    (hi : i < pkg_size) (hj : j < pkg_size) :
    (ls.initializeDataForSingularPackage pkg_size package_index far_field_level_set).phi_
      package_index i j = far_field_level_set :=
  (LevelSet.initializeDataForSingularPackage_cell pkg_size ls package_index far_field_level_set
    i j hi hj).1

/-- Witness of C5: cell `(1, 2)` of package 3 of a 4 x 4 package with far field `-5/2`. -/
theorem LevelSet.initializeDataForSingularPackage_phi_witness :
    (1 < 4 ∧ 2 < 4) ∧
      (exampleLevelSet.initializeDataForSingularPackage 4 3 (-5 / 2)).phi_ 3 1 2 = -5 / 2 :=
  ⟨by decide,
    LevelSet.initializeDataForSingularPackage_phi 4 exampleLevelSet 3 (-5 / 2) 1 2
      (by decide) (by decide)⟩

/-- Claim C6, as stated, fails at the far-field value 0: the cell stores distance 0, whose sign
is 0, and the near-interface id 2, whose sign is 1. -/
theorem LevelSet.initializeDataForSingularPackage_sign_counterexample :
    (exampleLevelSet.initializeDataForSingularPackage 4 0 0).phi_ 0 0 0 = 0 ∧
      (exampleLevelSet.initializeDataForSingularPackage 4 0 0).near_interface_id_ 0 0 0 = 2 ∧
      signOf ((exampleLevelSet.initializeDataForSingularPackage 4 0 0).near_interface_id_ 0 0 0) ≠
        signOf ((exampleLevelSet.initializeDataForSingularPackage 4 0 0).phi_ 0 0 0) := by
  have h := LevelSet.initializeDataForSingularPackage_cell 4 exampleLevelSet 0 0 0 0
    (by decide) (by decide)
  simp only [lt_self_iff_false, if_false] at h
  refine ⟨h.1, h.2.1, ?_⟩
  rw [h.1, h.2.1]
  simp [signOf]

/-- Claim C6, amended. Every cell of the package gets the near-interface id `-2` when `d < 0` and
`2` otherwise: its magnitude is 2, it is `-2` exactly when `d` is negative, and its sign is
the sign of `d` for every `d` other than 0, where the sign of the id is 1. -/
theorem LevelSet.initializeDataForSingularPackage_near_interface_id (pkg_size : Nat)
    (ls : LevelSet) (package_index : Nat) (far_field_level_set : Real) (i j : Nat)
    (hi : i < pkg_size) (hj : j < pkg_size) :
    let id := (ls.initializeDataForSingularPackage pkg_size package_index
      far_field_level_set).near_interface_id_ package_index i j
    id.natAbs = 2 ∧ (id = -2 ↔ far_field_level_set < 0) ∧
      signOf id = (if far_field_level_set = 0 then 1 else signOf far_field_level_set) := by
  intro id
  have h : id = (if far_field_level_set < 0 then -2 else 2) :=
    (LevelSet.initializeDataForSingularPackage_cell pkg_size ls package_index
      far_field_level_set i j hi hj).2.1
  rw [h]
  by_cases hneg : far_field_level_set < 0
  · have hne : far_field_level_set ≠ 0 := ne_of_lt hneg
    simp [hneg, hne, signOf]
  · by_cases hz : far_field_level_set = 0
    · simp [hz, signOf]
    · have hpos : 0 < far_field_level_set := lt_of_le_of_ne (not_lt.mp hneg) (Ne.symm hz)
      simp [hneg, hz, hpos, signOf]

/-- Witness of amended C6: a negative far field in a 4 x 4 package. -/
theorem LevelSet.initializeDataForSingularPackage_near_interface_id_witness :
    (3 < 4 ∧ 0 < 4) ∧
      (((exampleLevelSet.initializeDataForSingularPackage 4 1 (-7)).near_interface_id_ 1 3 0).natAbs
          = 2 ∧
        ((exampleLevelSet.initializeDataForSingularPackage 4 1 (-7)).near_interface_id_ 1 3 0 = -2 ↔
          (-7 : Real) < 0) ∧
        signOf ((exampleLevelSet.initializeDataForSingularPackage 4 1 (-7)).near_interface_id_ 1 3 0)
          = (if (-7 : Real) = 0 then 1 else signOf (-7 : Real))) :=
  ⟨by decide,
    LevelSet.initializeDataForSingularPackage_near_interface_id 4 exampleLevelSet 1 (-7) 3 0
      (by decide) (by decide)⟩

theorem exampleMesh_node (I J : Nat) :
    exampleMesh.GridPositionFromIndex I J = ((I : Real), (J : Real)) := by
  simp [Mesh.GridPositionFromIndex, exampleMesh]

/-- Claim C7, as stated, fails. Package 2 of the example mesh covers the nodes of the half plane
`x < 100`. Stored as a singular package with far field `-100` it answers `-100` at the
node `(1, 0)`, stored as a resolved package it answers the sampled distance `-99`; and at
the node `(0, 0)` the gradient queries answer `(1, 1)` and `(1, 0)`. -/
theorem LevelSet.singular_resolved_queries_counterexample :
    (exampleLevelSet.initializeDataForSingularPackage 4 2 (-100)).valueAt exampleMesh (1, 0) ≠
        (exampleLevelSet.initializeDataForResolvedPackage exampleMesh exampleShape 2 0 0).valueAt
          exampleMesh (1, 0) ∧
      (exampleLevelSet.initializeDataForSingularPackage 4 2 (-100)).gradientAt exampleMesh (0, 0) ≠
        (exampleLevelSet.initializeDataForResolvedPackage exampleMesh exampleShape 2 0 0).gradientAt
          exampleMesh (0, 0) := by
  have hspacing : exampleMesh.data_spacing_ ≠ 0 := by simp [exampleMesh]
  have hp1 : ((1 : Real), (0 : Real)) = exampleMesh.GridPositionFromIndex 1 0 := by
    rw [exampleMesh_node]; simp
  have hp0 : ((0 : Real), (0 : Real)) = exampleMesh.GridPositionFromIndex 0 0 := by
    rw [exampleMesh_node]; simp
  have hA1 := LevelSet.initializeDataForSingularPackage_cell 4 exampleLevelSet 2 (-100) 1 0
    (by decide) (by decide)
  have hA0 := LevelSet.initializeDataForSingularPackage_cell 4 exampleLevelSet 2 (-100) 0 0
    (by decide) (by decide)
  have hB1 := LevelSet.initializeDataForResolvedPackage_cell exampleMesh exampleShape
    exampleLevelSet 2 0 0 1 0 (by decide) (by decide)
  have hB0 := LevelSet.initializeDataForResolvedPackage_cell exampleMesh exampleShape
    exampleLevelSet 2 0 0 0 0 (by decide) (by decide)
  constructor
  · unfold LevelSet.valueAt
    rw [hp1, Mesh.probe_node _ hspacing, Mesh.probe_node _ hspacing]
    have e1 : exampleMesh.DataValueFromGlobalIndex
        (exampleLevelSet.initializeDataForSingularPackage 4 2 (-100)).phi_ 1 0 = -100 := hA1.1
    have e2 : exampleMesh.DataValueFromGlobalIndex
        (exampleLevelSet.initializeDataForResolvedPackage exampleMesh exampleShape 2 0 0).phi_ 1 0
          = exampleShape.findSignedDistance (exampleMesh.GridPositionFromIndex 1 0) := hB1.1
    rw [e1, e2, exampleMesh_node]
    simp [exampleShape]
    norm_num
  · intro h
    have h2 := congrArg Prod.snd h
    unfold LevelSet.gradientAt at h2
    simp only [] at h2
    rw [hp0, Mesh.probe_node _ hspacing, Mesh.probe_node _ hspacing] at h2
    have e1 : exampleMesh.DataValueFromGlobalIndex
        (fun p i j => ((exampleLevelSet.initializeDataForSingularPackage 4 2 (-100)).phi_gradient_
          p i j).2) 0 0 = 1 := by
      show ((exampleLevelSet.initializeDataForSingularPackage 4 2 (-100)).phi_gradient_ 2 0 0).2 = 1
      rw [hA0.2.2.1]; rfl
    have e2 : exampleMesh.DataValueFromGlobalIndex
        (fun p i j => ((exampleLevelSet.initializeDataForResolvedPackage exampleMesh exampleShape
          2 0 0).phi_gradient_ p i j).2) 0 0 = 0 := by
      show ((exampleLevelSet.initializeDataForResolvedPackage exampleMesh exampleShape
          2 0 0).phi_gradient_ 2 0 0).2 = 0
      rw [hB0.2]; rfl
    rw [e1, e2] at h2
    exact one_ne_zero h2

/-- Claim C7, amended. At every position whose interpolation stencil is covered by a singular
package filled by `initializeDataForSingularPackage(p, d)`, the value query returns the
far-field constant `d` and the gradient query returns the all-ones vector, whatever the
shape is. -/
theorem LevelSet.singular_queries (M : Mesh) (ls : LevelSet) (package_index : Nat)
    (far_field_level_set : Real) (position : Vecd) (hpkg : 0 < M.pkg_size)
    (hcover : ∀ dI dJ : Nat, dI ≤ 1 → dJ ≤ 1 →
      M.cell_package_index_
        ((M.lowerNode M.mesh_lower_bound_.1 position.1 + dI) / M.pkg_size)
        ((M.lowerNode M.mesh_lower_bound_.2 position.2 + dJ) / M.pkg_size) = package_index) :
    (ls.initializeDataForSingularPackage M.pkg_size package_index far_field_level_set).valueAt
        M position = far_field_level_set ∧
      (ls.initializeDataForSingularPackage M.pkg_size package_index far_field_level_set).gradientAt
        M position = Vecd.Ones := by
  have hcell := fun (I J : Nat) =>
    LevelSet.initializeDataForSingularPackage_cell M.pkg_size ls package_index
      far_field_level_set (I % M.pkg_size) (J % M.pkg_size)
      (Nat.mod_lt _ hpkg) (Nat.mod_lt _ hpkg)
  have hphi : ∀ dI dJ : Nat, dI ≤ 1 → dJ ≤ 1 →
      M.DataValueFromGlobalIndex
        (ls.initializeDataForSingularPackage M.pkg_size package_index far_field_level_set).phi_
        (M.lowerNode M.mesh_lower_bound_.1 position.1 + dI)
        (M.lowerNode M.mesh_lower_bound_.2 position.2 + dJ) = far_field_level_set := by
    intro dI dJ h1 h2
    unfold Mesh.DataValueFromGlobalIndex
    rw [hcover dI dJ h1 h2]
    exact (hcell _ _).1
  have hgrad : ∀ dI dJ : Nat, dI ≤ 1 → dJ ≤ 1 →
      (ls.initializeDataForSingularPackage M.pkg_size package_index
        far_field_level_set).phi_gradient_
        (M.cell_package_index_
          ((M.lowerNode M.mesh_lower_bound_.1 position.1 + dI) / M.pkg_size)
          ((M.lowerNode M.mesh_lower_bound_.2 position.2 + dJ) / M.pkg_size))
        ((M.lowerNode M.mesh_lower_bound_.1 position.1 + dI) % M.pkg_size)
        ((M.lowerNode M.mesh_lower_bound_.2 position.2 + dJ) % M.pkg_size) = Vecd.Ones := by
    intro dI dJ h1 h2
    rw [hcover dI dJ h1 h2]
    exact (hcell _ _).2.2.1
  constructor
  · unfold LevelSet.valueAt Mesh.probe
    have h00 := hphi 0 0 (by decide) (by decide)
    have h10 := hphi 1 0 (by decide) (by decide)
    have h01 := hphi 0 1 (by decide) (by decide)
    have h11 := hphi 1 1 (by decide) (by decide)
    simp only [Nat.add_zero] at h00 h10 h01
    simp only [h00, h10, h01, h11]
    exact bilinear_const _ _ _
  · unfold LevelSet.gradientAt Mesh.probe Mesh.DataValueFromGlobalIndex
    have h00 := hgrad 0 0 (by decide) (by decide)
    have h10 := hgrad 1 0 (by decide) (by decide)
    have h01 := hgrad 0 1 (by decide) (by decide)
    have h11 := hgrad 1 1 (by decide) (by decide)
    simp only [Nat.add_zero] at h00 h10 h01
    simp only [h00, h10, h01, h11, Vecd.Ones]
    rw [bilinear_const]

/-- Witness of amended C7: a position between the nodes of the example mesh. -/
theorem LevelSet.singular_queries_witness :
    0 < exampleMesh.pkg_size ∧
      ((exampleLevelSet.initializeDataForSingularPackage exampleMesh.pkg_size 2 (-100)).valueAt
          exampleMesh (1 / 2, 3 / 2) = -100 ∧
        (exampleLevelSet.initializeDataForSingularPackage exampleMesh.pkg_size 2 (-100)).gradientAt
          exampleMesh (1 / 2, 3 / 2) = Vecd.Ones) :=
  ⟨by decide,
    LevelSet.singular_queries exampleMesh exampleLevelSet 2 (-100) (1 / 2, 3 / 2) (by decide)
      (fun _ _ _ _ => rfl)⟩

/-! ## Claims on refinement -/

theorem foldl_log {ι ε : Type} (g : ι → ε) (l : List ι) :
    ∀ init : List ε, l.foldl (fun acc x => acc ++ [g x]) init = init ++ l.map g := by
  induction l with
  | nil => intro init; simp
  | cons x xs ih => intro init; rw [List.foldl_cons, ih]; simp

theorem nested_foldl_log {ε : Type} (g : Nat × Nat → ε) (rows cols : List Nat) :
    ∀ init : List ε,
      rows.foldl (fun s1 i => cols.foldl (fun s2 j => s2 ++ [g (i, j)]) s1) init =
        init ++ (rows ×ˢ cols).map g := by
  induction rows with
  | nil => intro init; simp
  | cons r rs ih =>
    intro init
    rw [List.foldl_cons, ih, foldl_log (fun j => g (r, j)), List.product_cons, List.map_append,
      List.map_map, List.append_assoc]
    rfl

theorem RefinedLevelSet.constructLog_eq (all_cells_ : Nat × Nat) :
    RefinedLevelSet.constructLog all_cells_ =
      ((List.range all_cells_.1) ×ˢ (List.range all_cells_.2)).map
        RefineEvent.cellFromCoarse ++ [RefineEvent.finish] := by
  unfold RefinedLevelSet.constructLog RefinedLevelSet.construct mesh_parallel_for
  rw [nested_foldl_log RefineEvent.cellFromCoarse]
  simp

/-- Claim C9. In the log of the `RefinedLevelSet` constructor, `initializeDataInACellFromCoarse` is
recorded exactly once for every cell index `(i, j)` with `i < all_cells_[0]` and
`j < all_cells_[1]` and never for another index; `finishDataPackages` is recorded once, as
the last entry; and the log has one entry per cell plus one, so there is a single pass. -/
theorem RefinedLevelSet.constructLog_spec (all_cells_ : Nat × Nat) (i j : Nat) :
    (RefinedLevelSet.constructLog all_cells_).count (RefineEvent.cellFromCoarse (i, j)) =
        (if i < all_cells_.1 ∧ j < all_cells_.2 then 1 else 0) ∧
      (RefinedLevelSet.constructLog all_cells_).count RefineEvent.finish = 1 ∧
      (RefinedLevelSet.constructLog all_cells_).getLast? = some RefineEvent.finish ∧
      (RefinedLevelSet.constructLog all_cells_).length = all_cells_.1 * all_cells_.2 + 1 := by
  rw [RefinedLevelSet.constructLog_eq]
  have hinj : Function.Injective RefineEvent.cellFromCoarse := by
    intro x y h; injection h
  have hnodup : (((List.range all_cells_.1) ×ˢ (List.range all_cells_.2)).map
      RefineEvent.cellFromCoarse).Nodup :=
    List.Nodup.map hinj (List.Nodup.product (List.nodup_range _) (List.nodup_range _))
  refine ⟨?_, ?_, ?_, ?_⟩
  · rw [List.count_append]
    have h0 : List.count (RefineEvent.cellFromCoarse (i, j)) [RefineEvent.finish] = 0 := by
      simp
    rw [h0, Nat.add_zero]
    by_cases hin : i < all_cells_.1 ∧ j < all_cells_.2
    · rw [if_pos hin]
      apply List.count_eq_one_of_mem hnodup
      apply List.mem_map.mpr
      refine ⟨(i, j), ?_, rfl⟩
      rw [List.mem_product]
      exact ⟨List.mem_range.mpr hin.1, List.mem_range.mpr hin.2⟩
    · rw [if_neg hin]
      apply List.count_eq_zero.mpr
      intro h
      obtain ⟨c, hc, hcij⟩ := List.mem_map.mp h
      have hc2 : c = (i, j) := hinj hcij
      rw [hc2, List.mem_product] at hc
      exact hin ⟨List.mem_range.mp hc.1, List.mem_range.mp hc.2⟩
  · rw [List.count_append]
    have h0 : List.count RefineEvent.finish
        (((List.range all_cells_.1) ×ˢ (List.range all_cells_.2)).map
          RefineEvent.cellFromCoarse) = 0 := by
      apply List.count_eq_zero.mpr
      intro h
      obtain ⟨c, _, hc⟩ := List.mem_map.mp h
      cases hc
    rw [h0]
    simp
  · exact List.getLast?_concat _
  · simp [List.length_product]

/-! ## Claims on the adaptive relation -/

/-- The level loop started at level `k` with `n` levels left: it searches the remaining
levels in order, each with the policy of the same index. -/
theorem AdaptiveInnerRelation.loop_eq {Grid Depth σ : Type} (rel : AdaptiveInnerRelation Grid Depth)
    (search : Grid → Depth → σ → σ)
    (hlevels : rel.cell_linked_list_levels_.length = rel.total_levels_)
    (hdepth : rel.get_multi_level_search_depth_.length = rel.total_levels_) (n : Nat) :
    ∀ (k : Nat) (s : σ), k + n = rel.total_levels_ →
      forNeM (rel.searchLevel search) rel.total_levels_ (n + 1) k s =
        some ((List.zip (rel.cell_linked_list_levels_.drop k)
          (rel.get_multi_level_search_depth_.drop k)).foldl
            (fun acc gd => search gd.1 gd.2 acc) s) := by
  induction n with
  | zero =>
    intro k s hk
    have hk2 : k = rel.total_levels_ := by omega
    have hdrop : rel.cell_linked_list_levels_.drop k = [] :=
      List.drop_eq_nil_of_le (by omega)
    simp [forNeM, hk2, hdrop]
    rw [← hlevels]; simp
  | succ n ih =>
    intro k s hk
    have hne : k ≠ rel.total_levels_ := by omega
    have hkg : k < rel.cell_linked_list_levels_.length := by omega
    have hkd : k < rel.get_multi_level_search_depth_.length := by omega
    have hstep : rel.searchLevel search k s =
        some (search rel.cell_linked_list_levels_[k] rel.get_multi_level_search_depth_[k] s) := by
      unfold AdaptiveInnerRelation.searchLevel
      rw [List.getElem?_eq_getElem hkg, List.getElem?_eq_getElem hkd]
    rw [forNeM, if_neg hne, hstep]
    simp only []
    rw [ih (k + 1) _ (by omega), List.drop_eq_getElem_cons hkg, List.drop_eq_getElem_cons hkd]
    simp only [List.zip_cons_cons, List.foldl_cons]

/-- Claim C10. `AdaptiveInnerRelation::updateConfiguration` returns, and its result is the reset
state with the search applied once per level, in increasing level index
`0, 1, ..., total_levels_ - 1`, the search of level `l` being given the `l`-th cell linked
list and the `l`-th search-depth policy: the calls are the pairs of
`zip cell_linked_list_levels_ get_multi_level_search_depth_`, in that order, and there are
`total_levels_` of them. This holds for every state type and every callee, so also for a
callee that only records its arguments. -/
theorem AdaptiveInnerRelation.updateConfiguration_levels {Grid Depth σ : Type}
    (rel : AdaptiveInnerRelation Grid Depth) (reset : σ → σ) (search : Grid → Depth → σ → σ)
    (s : σ) (hlevels : rel.cell_linked_list_levels_.length = rel.total_levels_)
    (hdepth : rel.get_multi_level_search_depth_.length = rel.total_levels_) :
    rel.updateConfiguration reset search s =
        some ((List.zip rel.cell_linked_list_levels_ rel.get_multi_level_search_depth_).foldl
          (fun acc gd => search gd.1 gd.2 acc) (reset s)) ∧
      (List.zip rel.cell_linked_list_levels_ rel.get_multi_level_search_depth_).length =
        rel.total_levels_ ∧
      ∀ l, l < rel.total_levels_ →
        (List.zip rel.cell_linked_list_levels_ rel.get_multi_level_search_depth_)[l]? =
          (rel.cell_linked_list_levels_[l]?).bind (fun grid =>
            (rel.get_multi_level_search_depth_[l]?).map (fun depth => (grid, depth))) := by
  refine ⟨?_, ?_, ?_⟩
  · unfold AdaptiveInnerRelation.updateConfiguration
    have h := AdaptiveInnerRelation.loop_eq rel search hlevels hdepth rel.total_levels_ 0
      (reset s) (by omega)
    simpa using h
  · simp [hlevels, hdepth]
  · intro l hl
    have hkg : l < rel.cell_linked_list_levels_.length := by omega
    have hkd : l < rel.get_multi_level_search_depth_.length := by omega
    rw [List.getElem?_eq_getElem hkg, List.getElem?_eq_getElem hkd]
    simp [List.getElem?_zip_eq_some, hkg, hkd]

/-- Witness of C10: the two-level example with a callee that records its arguments; the log
is level 0 with policy 0, then level 1 with policy 1. -/
theorem AdaptiveInnerRelation.updateConfiguration_levels_witness :
    (exampleAdaptive.cell_linked_list_levels_.length = exampleAdaptive.total_levels_ ∧
      exampleAdaptive.get_multi_level_search_depth_.length = exampleAdaptive.total_levels_) ∧
      exampleAdaptive.updateConfiguration (fun _ => [])
          (fun grid depth log => log ++ [(grid, depth)]) [("stale", 0)] =
        some [("coarse", 3), ("fine", 1)] :=
  ⟨⟨rfl, rfl⟩,
    (AdaptiveInnerRelation.updateConfiguration_levels exampleAdaptive (fun _ => [])
      (fun grid depth log => log ++ [(grid, depth)]) [("stale", 0)] rfl rfl).1⟩

/-- Witness of C1: particle 0 of the example configuration had two counted neighbors (7, 8)
and a stale third entry; after the update it counts the two neighbors the search found. -/
theorem InnerRelation.updateConfiguration_rebuilds_witness :
    (3 ≤ exampleConfiguration.length ∧ (∀ nb ∈ exampleConfiguration, nb.WellFormed) ∧ 0 < 3) ∧
      ∃ nb, (InnerRelation.updateConfiguration 3 exampleSearch exampleConfiguration)[0]? = some nb ∧
        nb.current_size_ = (exampleSearch.admitted 0).length ∧
        nb.neighbors = exampleSearch.admitted 0 :=
  ⟨⟨by decide, by decide, by decide⟩,
    InnerRelation.updateConfiguration_rebuilds 3 exampleSearch exampleConfiguration
      (by decide) (by decide) 0 (by decide)⟩

/-- Witness of C4: the example base method admits no particle as its own neighbor, and
particle 0 is not in its masked neighbor list. -/
theorem TargetParticleMask.isInRange_self_witness :
    (∀ i, exampleBase i i = false) ∧
      (exampleMask.isInRange exampleBase 0 0 = false ∧
        0 ∉ exampleMask.neighborList exampleBase 0 [0, 1, 2]) :=
  ⟨fun i => by simp [exampleBase],
    TargetParticleMask.isInRange_self exampleBase (fun i => by simp [exampleBase]) exampleMask 0
      [0, 1, 2]⟩

/-! ## Further claims on the singular package -/

/-- Claim C17. No cell of a singular package is near the surface: for every far-field value,
after `initializeDataForSingularPackage` the near-interface id of every cell of the package
has absolute value 2, so the near-surface test (absolute value at most 1) fails for the
cell, and `isNearSurface` is false at every position whose covering cell lies in the
package. -/
theorem LevelSet.initializeDataForSingularPackage_not_near (M : Mesh) (ls : LevelSet)
    (package_index : Nat) (far_field_level_set : Real) (i j : Nat)
    (hi : i < M.pkg_size) (hj : j < M.pkg_size) (position : Vecd)
    (hcover : M.cell_package_index_
      (M.lowerNode M.mesh_lower_bound_.1 position.1 / M.pkg_size)
      (M.lowerNode M.mesh_lower_bound_.2 position.2 / M.pkg_size) = package_index) :
    ((ls.initializeDataForSingularPackage M.pkg_size package_index
        far_field_level_set).near_interface_id_ package_index i j).natAbs = 2 ∧
      ¬ ((ls.initializeDataForSingularPackage M.pkg_size package_index
        far_field_level_set).near_interface_id_ package_index i j).natAbs ≤ 1 ∧
      (ls.initializeDataForSingularPackage M.pkg_size package_index
        far_field_level_set).isNearSurface M position = false := by
  have hcell : ∀ a b, a < M.pkg_size → b < M.pkg_size →
      ((ls.initializeDataForSingularPackage M.pkg_size package_index
        far_field_level_set).near_interface_id_ package_index a b).natAbs = 2 := by
    intro a b ha hb
    rw [(LevelSet.initializeDataForSingularPackage_cell M.pkg_size ls package_index
      far_field_level_set a b ha hb).2.1]
    split <;> rfl
  have hpkg : 0 < M.pkg_size := Nat.lt_of_le_of_lt (Nat.zero_le _) hi
  refine ⟨hcell i j hi hj, ?_, ?_⟩
  · rw [hcell i j hi hj]; decide
  · unfold LevelSet.isNearSurface Mesh.DataValueFromGlobalIndex
    rw [hcover, hcell _ _ (Nat.mod_lt _ hpkg) (Nat.mod_lt _ hpkg)]
    rfl

/-- Witness of C17: a position inside the example mesh, whose cells all lie in package 2. -/
theorem LevelSet.initializeDataForSingularPackage_not_near_witness :
    (1 < exampleMesh.pkg_size ∧ 3 < exampleMesh.pkg_size ∧
      exampleMesh.cell_package_index_
        (exampleMesh.lowerNode exampleMesh.mesh_lower_bound_.1 ((5 / 2, 1 / 3) : Vecd).1 /
          exampleMesh.pkg_size)
        (exampleMesh.lowerNode exampleMesh.mesh_lower_bound_.2 ((5 / 2, 1 / 3) : Vecd).2 /
          exampleMesh.pkg_size) = 2) ∧
      (((exampleLevelSet.initializeDataForSingularPackage exampleMesh.pkg_size 2
          7).near_interface_id_ 2 1 3).natAbs = 2 ∧
        ¬ ((exampleLevelSet.initializeDataForSingularPackage exampleMesh.pkg_size 2
          7).near_interface_id_ 2 1 3).natAbs ≤ 1 ∧
        (exampleLevelSet.initializeDataForSingularPackage exampleMesh.pkg_size 2
          7).isNearSurface exampleMesh (5 / 2, 1 / 3) = false) :=
  ⟨⟨by decide, by decide, rfl⟩,
    LevelSet.initializeDataForSingularPackage_not_near exampleMesh exampleLevelSet 2 7 1 3
      (by decide) (by decide) (5 / 2, 1 / 3) rfl⟩

/-- Claim C20. For every far-field value `d`, every cell of the package gets
`kernel_weight = 0` when `d < 0` and `1` otherwise, `kernel_gradient` the zero vector and
`phi_gradient` the all-ones vector `(1, 1)` whatever `d` is; and the kernel weight is 0
exactly in the cells whose near-interface id is `-2`. -/
theorem LevelSet.initializeDataForSingularPackage_kernel (pkg_size : Nat) (ls : LevelSet)
    (package_index : Nat) (far_field_level_set : Real) (i j : Nat)
    (hi : i < pkg_size) (hj : j < pkg_size) :
    (ls.initializeDataForSingularPackage pkg_size package_index
        far_field_level_set).kernel_weight_ package_index i j =
        (if far_field_level_set < 0 then 0 else 1) ∧
      (ls.initializeDataForSingularPackage pkg_size package_index
        far_field_level_set).kernel_gradient_ package_index i j = ((0, 0) : Vecd) ∧
      (ls.initializeDataForSingularPackage pkg_size package_index
        far_field_level_set).phi_gradient_ package_index i j = ((1, 1) : Vecd) ∧
      ((ls.initializeDataForSingularPackage pkg_size package_index
        far_field_level_set).kernel_weight_ package_index i j = 0 ↔
        (ls.initializeDataForSingularPackage pkg_size package_index
          far_field_level_set).near_interface_id_ package_index i j = -2) := by
  have h := LevelSet.initializeDataForSingularPackage_cell pkg_size ls package_index
    far_field_level_set i j hi hj
  refine ⟨h.2.2.2.1, h.2.2.2.2, h.2.2.1, ?_⟩
  rw [h.2.2.2.1, h.2.1]
  by_cases hneg : far_field_level_set < 0
  · simp [hneg]
  · simp [hneg]

/-- Witness of C20: a positive far field in a 4 x 4 package. -/
theorem LevelSet.initializeDataForSingularPackage_kernel_witness :
    (2 < 4 ∧ 0 < 4) ∧
      ((exampleLevelSet.initializeDataForSingularPackage 4 1 3).kernel_weight_ 1 2 0 =
          (if (3 : Real) < 0 then 0 else 1) ∧
        (exampleLevelSet.initializeDataForSingularPackage 4 1 3).kernel_gradient_ 1 2 0 =
          ((0, 0) : Vecd) ∧
        (exampleLevelSet.initializeDataForSingularPackage 4 1 3).phi_gradient_ 1 2 0 =
          ((1, 1) : Vecd) ∧
        ((exampleLevelSet.initializeDataForSingularPackage 4 1 3).kernel_weight_ 1 2 0 = 0 ↔
          (exampleLevelSet.initializeDataForSingularPackage 4 1 3).near_interface_id_ 1 2 0
            = -2)) :=
  ⟨by decide,
    LevelSet.initializeDataForSingularPackage_kernel 4 exampleLevelSet 1 3 2 0
      (by decide) (by decide)⟩

theorem foldl_preserve_mem {σ ι : Type} (g : ι → σ → σ) (Q : σ → Prop) (l : List ι)
    (hpres : ∀ y, y ∈ l → ∀ s, Q s → Q (g y s)) :
    ∀ s, Q s → Q (l.foldl (fun acc y => g y acc) s) := by
  induction l with
  | nil => intro s hs; exact hs
  | cons y ys ih =>
    intro s hs
    exact ih (fun z hz => hpres z (List.mem_cons_of_mem _ hz)) _
      (hpres y (List.mem_cons_self _ _) s hs)

/-- A property preserved by the visit of every cell of a block holds after the pass over the
block when it held before. -/
theorem nested_foldl_preserve_mem {σ : Type} (f : Nat → Nat → σ → σ) (Q : σ → Prop)
    (rows cols : List Nat)
    (hpres : ∀ a, a ∈ rows → ∀ b, b ∈ cols → ∀ s, Q s → Q (f a b s)) (s : σ) (hs : Q s) :
    Q (rows.foldl (fun s1 a => cols.foldl (fun s2 b => f a b s2) s1) s) :=
  foldl_preserve_mem (fun a s1 => cols.foldl (fun s2 b => f a b s2) s1) Q rows
    (fun a ha s1 hs1 =>
      foldl_preserve_mem (fun b s2 => f a b s2) Q cols (fun b hb s2 hs2 => hpres a ha b hb s2 hs2)
        s1 hs1) s hs

theorem writeCell_other {α : Type} (field : Nat → PackageDataMatrix α) (p a b q i j : Nat) (v : α)
    (h : ¬ (q = p ∧ i = a ∧ j = b)) : writeCell field p a b v q i j = field q i j := by
  unfold writeCell
  by_cases hq : q = p
  · subst hq
    have hij : ¬ (i = a ∧ j = b) := fun hc => h ⟨rfl, hc⟩
    simp [PackageDataMatrix.set, hij]
  · rw [Function.update_noteq hq]

/-- The data that `initializeDataForSingularPackage(p, d)` does not visit are unchanged. -/
theorem LevelSet.initializeDataForSingularPackage_frame_cell (pkg_size : Nat) (ls : LevelSet)
    (package_index : Nat) (far_field_level_set : Real) (q i j : Nat)
    (h : ¬ (q = package_index ∧ i < pkg_size ∧ j < pkg_size)) :
    let ls1 := ls.initializeDataForSingularPackage pkg_size package_index far_field_level_set
    ls1.phi_ q i j = ls.phi_ q i j ∧
      ls1.near_interface_id_ q i j = ls.near_interface_id_ q i j ∧
      ls1.phi_gradient_ q i j = ls.phi_gradient_ q i j ∧
      ls1.kernel_weight_ q i j = ls.kernel_weight_ q i j ∧
      ls1.kernel_gradient_ q i j = ls.kernel_gradient_ q i j := by
  intro ls1
  refine nested_foldl_preserve_mem (initializeSingularCell package_index far_field_level_set)
    (fun s => s.phi_ q i j = ls.phi_ q i j ∧
      s.near_interface_id_ q i j = ls.near_interface_id_ q i j ∧
      s.phi_gradient_ q i j = ls.phi_gradient_ q i j ∧
      s.kernel_weight_ q i j = ls.kernel_weight_ q i j ∧
      s.kernel_gradient_ q i j = ls.kernel_gradient_ q i j)
    (List.range pkg_size) (List.range pkg_size) ?_ ls ⟨rfl, rfl, rfl, rfl, rfl⟩
  intro a ha b hb s hs
  have hne : ¬ (q = package_index ∧ i = a ∧ j = b) := by
    intro hc
    apply h
    refine ⟨hc.1, ?_, ?_⟩
    · rw [hc.2.1]; exact List.mem_range.mp ha
    · rw [hc.2.2]; exact List.mem_range.mp hb
  unfold initializeSingularCell
  simp only [writeCell_other _ _ _ _ _ _ _ _ hne]
  exact hs

/-- The five mesh variables after `initializeDataForSingularPackage(p, d)`, at every package
and cell. -/
theorem LevelSet.initializeDataForSingularPackage_apply (pkg_size : Nat) (ls : LevelSet)
    (package_index : Nat) (far_field_level_set : Real) (q i j : Nat) :
    let ls1 := ls.initializeDataForSingularPackage pkg_size package_index far_field_level_set
    ls1.phi_ q i j =
        (if q = package_index ∧ i < pkg_size ∧ j < pkg_size then far_field_level_set
          else ls.phi_ q i j) ∧
      ls1.near_interface_id_ q i j =
        (if q = package_index ∧ i < pkg_size ∧ j < pkg_size then
          (if far_field_level_set < 0 then -2 else 2) else ls.near_interface_id_ q i j) ∧
      ls1.phi_gradient_ q i j =
        (if q = package_index ∧ i < pkg_size ∧ j < pkg_size then Vecd.Ones
          else ls.phi_gradient_ q i j) ∧
      ls1.kernel_weight_ q i j =
        (if q = package_index ∧ i < pkg_size ∧ j < pkg_size then
          (if far_field_level_set < 0 then 0 else 1) else ls.kernel_weight_ q i j) ∧
      ls1.kernel_gradient_ q i j =
        (if q = package_index ∧ i < pkg_size ∧ j < pkg_size then Vecd.Zero
          else ls.kernel_gradient_ q i j) := by
  intro ls1
  by_cases h : q = package_index ∧ i < pkg_size ∧ j < pkg_size
  · simp only [if_pos h]
    obtain ⟨hq, hi, hj⟩ := h
    subst hq
    exact LevelSet.initializeDataForSingularPackage_cell pkg_size ls q far_field_level_set
      i j hi hj
  · simp only [if_neg h]
    exact LevelSet.initializeDataForSingularPackage_frame_cell pkg_size ls package_index
      far_field_level_set q i j h

theorem ite_swap_of_not_both {α : Type} (A B : Prop) [Decidable A] [Decidable B]
    (h : ¬ (A ∧ B)) (x y z : α) :
    (if A then x else if B then y else z) = (if B then y else if A then x else z) := by
  by_cases hA : A
  · by_cases hB : B
    · exact absurd ⟨hA, hB⟩ h
    · rw [if_pos hA, if_neg hB, if_pos hA]
  · by_cases hB : B
    · rw [if_neg hA, if_pos hB, if_pos hB]
    · rw [if_neg hA, if_neg hB, if_neg hB, if_neg hA]

theorem LevelSet.eq_of_fields (x y : LevelSet) (h1 : x.phi_ = y.phi_)
    (h2 : x.near_interface_id_ = y.near_interface_id_) (h3 : x.phi_gradient_ = y.phi_gradient_)
    (h4 : x.kernel_weight_ = y.kernel_weight_) (h5 : x.kernel_gradient_ = y.kernel_gradient_) :
    x = y := by
  cases x
  cases y
  simp only [LevelSet.mk.injEq]
  exact ⟨h1, h2, h3, h4, h5⟩

/-- Claim C19. `initializeDataForSingularPackage(p, d)` writes only to package `p`: for every
package index `q` different from `p` the five mesh variables of `q` are the same after the
call as before it, and initializing two distinct packages in either order gives the same
level set. -/
theorem LevelSet.initializeDataForSingularPackage_frame (pkg_size : Nat) (ls : LevelSet)
    (p q : Nat) (d e : Real) (hpq : q ≠ p) :
    ((ls.initializeDataForSingularPackage pkg_size p d).phi_ q = ls.phi_ q ∧
      (ls.initializeDataForSingularPackage pkg_size p d).near_interface_id_ q =
        ls.near_interface_id_ q ∧
      (ls.initializeDataForSingularPackage pkg_size p d).phi_gradient_ q = ls.phi_gradient_ q ∧
      (ls.initializeDataForSingularPackage pkg_size p d).kernel_weight_ q = ls.kernel_weight_ q ∧
      (ls.initializeDataForSingularPackage pkg_size p d).kernel_gradient_ q =
        ls.kernel_gradient_ q) ∧
      (ls.initializeDataForSingularPackage pkg_size p d).initializeDataForSingularPackage
          pkg_size q e =
        (ls.initializeDataForSingularPackage pkg_size q e).initializeDataForSingularPackage
          pkg_size p d := by
  constructor
  · have h := fun i j => LevelSet.initializeDataForSingularPackage_frame_cell pkg_size ls p d
      q i j (fun hc => hpq hc.1)
    refine ⟨?_, ?_, ?_, ?_, ?_⟩
    · funext i j; exact (h i j).1
    · funext i j; exact (h i j).2.1
    · funext i j; exact (h i j).2.2.1
    · funext i j; exact (h i j).2.2.2.1
    · funext i j; exact (h i j).2.2.2.2
  · have key : ∀ r i j,
        ¬ ((r = q ∧ i < pkg_size ∧ j < pkg_size) ∧ (r = p ∧ i < pkg_size ∧ j < pkg_size)) := by
      intro r i j hc
      exact hpq (hc.1.1.symm.trans hc.2.1)
    apply LevelSet.eq_of_fields
    · funext r i j
      rw [(LevelSet.initializeDataForSingularPackage_apply pkg_size _ q e r i j).1,
        (LevelSet.initializeDataForSingularPackage_apply pkg_size _ p d r i j).1,
        (LevelSet.initializeDataForSingularPackage_apply pkg_size _ p d r i j).1,
        (LevelSet.initializeDataForSingularPackage_apply pkg_size _ q e r i j).1]
      exact ite_swap_of_not_both _ _ (key r i j) _ _ _
    · funext r i j
      rw [(LevelSet.initializeDataForSingularPackage_apply pkg_size _ q e r i j).2.1,
        (LevelSet.initializeDataForSingularPackage_apply pkg_size _ p d r i j).2.1,
        (LevelSet.initializeDataForSingularPackage_apply pkg_size _ p d r i j).2.1,
        (LevelSet.initializeDataForSingularPackage_apply pkg_size _ q e r i j).2.1]
      exact ite_swap_of_not_both _ _ (key r i j) _ _ _
    · funext r i j
      rw [(LevelSet.initializeDataForSingularPackage_apply pkg_size _ q e r i j).2.2.1,
        (LevelSet.initializeDataForSingularPackage_apply pkg_size _ p d r i j).2.2.1,
        (LevelSet.initializeDataForSingularPackage_apply pkg_size _ p d r i j).2.2.1,
        (LevelSet.initializeDataForSingularPackage_apply pkg_size _ q e r i j).2.2.1]
      exact ite_swap_of_not_both _ _ (key r i j) _ _ _
    · funext r i j
      rw [(LevelSet.initializeDataForSingularPackage_apply pkg_size _ q e r i j).2.2.2.1,
        (LevelSet.initializeDataForSingularPackage_apply pkg_size _ p d r i j).2.2.2.1,
        (LevelSet.initializeDataForSingularPackage_apply pkg_size _ p d r i j).2.2.2.1,
        (LevelSet.initializeDataForSingularPackage_apply pkg_size _ q e r i j).2.2.2.1]
      exact ite_swap_of_not_both _ _ (key r i j) _ _ _
    · funext r i j
      rw [(LevelSet.initializeDataForSingularPackage_apply pkg_size _ q e r i j).2.2.2.2,
        (LevelSet.initializeDataForSingularPackage_apply pkg_size _ p d r i j).2.2.2.2,
        (LevelSet.initializeDataForSingularPackage_apply pkg_size _ p d r i j).2.2.2.2,
        (LevelSet.initializeDataForSingularPackage_apply pkg_size _ q e r i j).2.2.2.2]
      exact ite_swap_of_not_both _ _ (key r i j) _ _ _

/-- Witness of C19: packages 1 and 3 of the example level set. -/
theorem LevelSet.initializeDataForSingularPackage_frame_witness :
    (3 ≠ 1) ∧
      (((exampleLevelSet.initializeDataForSingularPackage 4 1 (-2)).phi_ 3 = exampleLevelSet.phi_ 3 ∧
        (exampleLevelSet.initializeDataForSingularPackage 4 1 (-2)).near_interface_id_ 3 =
          exampleLevelSet.near_interface_id_ 3 ∧
        (exampleLevelSet.initializeDataForSingularPackage 4 1 (-2)).phi_gradient_ 3 =
          exampleLevelSet.phi_gradient_ 3 ∧
        (exampleLevelSet.initializeDataForSingularPackage 4 1 (-2)).kernel_weight_ 3 =
          exampleLevelSet.kernel_weight_ 3 ∧
        (exampleLevelSet.initializeDataForSingularPackage 4 1 (-2)).kernel_gradient_ 3 =
          exampleLevelSet.kernel_gradient_ 3) ∧
        (exampleLevelSet.initializeDataForSingularPackage 4 1
            (-2)).initializeDataForSingularPackage 4 3 5 =
          (exampleLevelSet.initializeDataForSingularPackage 4 3
            5).initializeDataForSingularPackage 4 1 (-2)) :=
  ⟨by decide,
    LevelSet.initializeDataForSingularPackage_frame 4 exampleLevelSet 1 3 (-2) 5 (by decide)⟩

/-! ## Claims on construction and on the tree relation -/

/-- The constructor loop started at level `k`: the policies of the levels below `k` are in
place, the loop adds those of the remaining levels. -/
theorem AdaptiveInnerRelation.construct_loop {Grid Depth : Type} (levels : List Grid)
    (createPtr : Grid → Depth) (n : Nat) :
    ∀ (k : Nat) (rel : AdaptiveInnerRelation Grid Depth), k + n = levels.length →
      rel.total_levels_ = levels.length → rel.cell_linked_list_levels_ = levels →
      rel.get_multi_level_search_depth_ = (levels.take k).map createPtr →
      forNeM (AdaptiveInnerRelation.pushSearchDepth createPtr) levels.length (n + 1) k rel =
        some { total_levels_ := levels.length, cell_linked_list_levels_ := levels,
               get_multi_level_search_depth_ := levels.map createPtr } := by
  induction n with
  | zero =>
    intro k rel hk ht hl hd
    have hk2 : k = levels.length := by omega
    rw [forNeM, if_pos hk2]
    rw [hk2, List.take_length] at hd
    cases rel
    simp only [] at ht hl hd
    rw [ht, hl, hd]
  | succ n ih =>
    intro k rel hk ht hl hd
    have hne : k ≠ levels.length := by omega
    have hkl : k < levels.length := by omega
    have hstep : AdaptiveInnerRelation.pushSearchDepth createPtr k rel =
        some { rel with get_multi_level_search_depth_ :=
          rel.get_multi_level_search_depth_ ++ [createPtr levels[k]] } := by
      unfold AdaptiveInnerRelation.pushSearchDepth
      rw [hl, List.getElem?_eq_getElem hkl]
    rw [forNeM, if_neg hne, hstep]
    simp only []
    refine ih (k + 1) _ (by omega) ?_ ?_ ?_
    · exact ht
    · exact hl
    · show rel.get_multi_level_search_depth_ ++ [createPtr levels[k]] = _
      rw [hd, List.take_succ, List.getElem?_eq_getElem hkl, List.map_append]
      rfl

/-- Claim C18. The constructor of `AdaptiveInnerRelation` returns a relation whose
`total_levels_` is the number of levels returned by `getMeshLevels` and the number of
search-depth policies, the `l`-th policy being created from the grid of level `l`; so for
every `l < total_levels_` both `cell_linked_list_levels_[l]` and
`get_multi_level_search_depth_[l]` exist, and `updateConfiguration` of the constructed
relation never reads out of bounds (it returns a result for every callee and state). -/
theorem AdaptiveInnerRelation.construct_levels {Grid Depth σ : Type} (getMeshLevels : List Grid)
    (createPtr : Grid → Depth) (reset : σ → σ) (search : Grid → Depth → σ → σ) (s : σ) :
    ∃ rel, AdaptiveInnerRelation.construct getMeshLevels createPtr = some rel ∧
      rel.total_levels_ = getMeshLevels.length ∧
      rel.cell_linked_list_levels_ = getMeshLevels ∧
      rel.get_multi_level_search_depth_ = getMeshLevels.map createPtr ∧
      rel.get_multi_level_search_depth_.length = rel.total_levels_ ∧
      (∀ l, l < rel.total_levels_ →
        (rel.cell_linked_list_levels_[l]?).isSome = true ∧
        rel.get_multi_level_search_depth_[l]? = (rel.cell_linked_list_levels_[l]?).map createPtr) ∧
      (rel.updateConfiguration reset search s).isSome = true := by
  refine ⟨{ total_levels_ := getMeshLevels.length, cell_linked_list_levels_ := getMeshLevels,
            get_multi_level_search_depth_ := getMeshLevels.map createPtr }, ?_, rfl, rfl, rfl,
    ?_, ?_, ?_⟩
  · unfold AdaptiveInnerRelation.construct
    exact AdaptiveInnerRelation.construct_loop getMeshLevels createPtr getMeshLevels.length 0
      _ (by omega) rfl rfl (by simp)
  · simp
  · intro l hl
    have hl2 : l < getMeshLevels.length := hl
    simp [hl2]
  · unfold AdaptiveInnerRelation.updateConfiguration
    rw [AdaptiveInnerRelation.loop_eq _ search rfl (by simp) getMeshLevels.length 0 (reset s)
      (by simp)]
    rfl

/-- Claim C12. `TreeInnerRelation::updateConfiguration` delegates entirely to the generative
tree: for every prior configuration `c` (and every state type and builder) the state after
the call is `buildParticleConfiguration c`; in particular, with a builder that only records
its call, the log of the update is that one call, with no reset and no search. -/
theorem TreeInnerRelation.updateConfiguration_delegates {σ : Type}
    (buildParticleConfiguration : σ → σ) (c : σ) :
    TreeInnerRelation.updateConfiguration buildParticleConfiguration c =
        buildParticleConfiguration c ∧
      TreeInnerRelation.updateConfiguration (fun log : List String => log ++ ["build"]) [] =
        ["build"] :=
  ⟨rfl, rfl⟩

/-- Searches applied one after the other to a configuration: the neighborhood of a particle
of the range keeps its counted neighbors and gains, in order, those admitted by each
search. -/
theorem foldl_search_getElem? {Cand : Type} (n : Nat) (searches : List (NeighborSearch Cand))
    (index_i : Nat) (hi : index_i < n) :
    ∀ (cfg : ParticleConfiguration) (nb0 : Neighborhood), cfg[index_i]? = some nb0 →
      nb0.WellFormed →
      ∃ nb, (searches.foldl (fun acc S => searchNeighborsByParticles S (List.range n) acc)
          cfg)[index_i]? = some nb ∧ nb.WellFormed ∧
        nb.neighbors = nb0.neighbors ++ searches.flatMap (fun S => S.admitted index_i) := by
  induction searches with
  | nil =>
    intro cfg nb0 h0 hwf
    exact ⟨nb0, h0, hwf, by simp⟩
  | cons S rest ih =>
    intro cfg nb0 h0 hwf
    have hspec := S.searchParticle_spec index_i nb0 hwf
    have hstep : (searchNeighborsByParticles S (List.range n) cfg)[index_i]? =
        some (S.searchParticle index_i nb0) := by
      rw [searchNeighborsByParticles_getElem? S _ (List.nodup_range _), h0]
      simp [hi]
    obtain ⟨nb, h1, h2, h3⟩ := ih _ _ hstep hspec.1
    refine ⟨nb, ?_, h2, ?_⟩
    · rw [List.foldl_cons]; exact h1
    · rw [h3, hspec.2, List.flatMap_cons, List.append_assoc]

/-- After the reset a particle of the body has a well-formed neighborhood with no counted
neighbor. -/
theorem BaseInnerRelation.resetNeighborhoodCurrentSize_neighbors (total_real_particles_ : Nat)
    (cfg : ParticleConfiguration) (hsize : total_real_particles_ ≤ cfg.length)
    (hwf : ∀ nb ∈ cfg, nb.WellFormed) (index_i : Nat) (hi : index_i < total_real_particles_) :
    ∃ nb0, (BaseInnerRelation.resetNeighborhoodCurrentSize total_real_particles_ cfg)[index_i]? =
        some nb0 ∧ nb0.WellFormed ∧ nb0.neighbors = [] := by
  have hlt : index_i < cfg.length := by omega
  have hget : cfg[index_i]? = some cfg[index_i] := List.getElem?_eq_getElem hlt
  have hmem : cfg[index_i] ∈ cfg := List.getElem_mem hlt
  refine ⟨{ cfg[index_i] with current_size_ := 0 }, ?_, ?_, ?_⟩
  · rw [BaseInnerRelation.resetNeighborhoodCurrentSize_getElem?]
    simp [hi, hget]
  · obtain ⟨h1, h2, h3, h4, _⟩ := hwf _ hmem
    exact ⟨h1, h2, h3, h4, Nat.zero_le _⟩
  · simp [Neighborhood.neighbors]

/-- Claim C11. In `AdaptiveInnerRelation::updateConfiguration` the counts are reset once,
before the first level: the call returns, and for every particle of the body the counted
neighbors after the call are the concatenation, in level order, of the neighbors admitted by
the search of each level, with none from before the call. After the first `k` levels have
been searched the particle counts exactly the neighbors of those `k` levels, so the
neighbors found on a level are still there after the next level. -/
theorem AdaptiveInnerRelation.updateConfiguration_concatenates {Grid Depth Cand : Type}
    (rel : AdaptiveInnerRelation Grid Depth) (total_real_particles_ : Nat)
    (searchOf : Grid → Depth → NeighborSearch Cand) (cfg : ParticleConfiguration)
    (hlevels : rel.cell_linked_list_levels_.length = rel.total_levels_)
    (hdepth : rel.get_multi_level_search_depth_.length = rel.total_levels_)
    (hsize : total_real_particles_ ≤ cfg.length) (hwf : ∀ nb ∈ cfg, nb.WellFormed)
    (index_i : Nat) (hi : index_i < total_real_particles_) :
    (∃ cfg1 nb,
        rel.updateConfiguration
            (BaseInnerRelation.resetNeighborhoodCurrentSize total_real_particles_)
            (fun grid depth =>
              searchNeighborsByParticles (searchOf grid depth) (List.range total_real_particles_))
            cfg = some cfg1 ∧
          cfg1[index_i]? = some nb ∧
          nb.neighbors =
            (List.zip rel.cell_linked_list_levels_ rel.get_multi_level_search_depth_).flatMap
              (fun gd => (searchOf gd.1 gd.2).admitted index_i) ∧
          nb.current_size_ =
            ((List.zip rel.cell_linked_list_levels_ rel.get_multi_level_search_depth_).flatMap
              (fun gd => (searchOf gd.1 gd.2).admitted index_i)).length) ∧
      ∀ k, ∃ nbk,
        (((List.zip rel.cell_linked_list_levels_ rel.get_multi_level_search_depth_).take k).foldl
            (fun acc gd =>
              searchNeighborsByParticles (searchOf gd.1 gd.2) (List.range total_real_particles_)
                acc)
            (BaseInnerRelation.resetNeighborhoodCurrentSize total_real_particles_
              cfg))[index_i]? = some nbk ∧
          nbk.neighbors =
            ((List.zip rel.cell_linked_list_levels_ rel.get_multi_level_search_depth_).take
              k).flatMap (fun gd => (searchOf gd.1 gd.2).admitted index_i) := by
  obtain ⟨nb0, hget0, hwf0, hnb0⟩ :=
    BaseInnerRelation.resetNeighborhoodCurrentSize_neighbors total_real_particles_ cfg hsize hwf
      index_i hi
  have hfold : ∀ pairs : List (Grid × Depth), ∃ nb,
      (pairs.foldl
          (fun acc gd =>
            searchNeighborsByParticles (searchOf gd.1 gd.2) (List.range total_real_particles_) acc)
          (BaseInnerRelation.resetNeighborhoodCurrentSize total_real_particles_
            cfg))[index_i]? = some nb ∧
        nb.neighbors = pairs.flatMap (fun gd => (searchOf gd.1 gd.2).admitted index_i) := by
    intro pairs
    obtain ⟨nb, h1, _, h3⟩ := foldl_search_getElem? total_real_particles_
      (pairs.map (fun gd => searchOf gd.1 gd.2)) index_i hi _ nb0 hget0 hwf0
    refine ⟨nb, ?_, ?_⟩
    · rw [List.foldl_map] at h1; exact h1
    · rw [h3, hnb0, List.nil_append, List.flatMap_map]
  constructor
  · obtain ⟨nb, h1, h2⟩ :=
      hfold (List.zip rel.cell_linked_list_levels_ rel.get_multi_level_search_depth_)
    refine ⟨_, nb, ?_, h1, h2, ?_⟩
    · unfold AdaptiveInnerRelation.updateConfiguration
      have h := AdaptiveInnerRelation.loop_eq rel
        (fun grid depth =>
          searchNeighborsByParticles (searchOf grid depth) (List.range total_real_particles_))
        hlevels hdepth rel.total_levels_ 0
        (BaseInnerRelation.resetNeighborhoodCurrentSize total_real_particles_ cfg) (by omega)
      simpa using h
    · rw [← Neighborhood.neighbors_length, h2]
  · intro k
    exact hfold _

/-- Witness of C11: the two-level example on the example configuration; particle 0 counts
particles 1 and 2 from the coarse level, then particle 5 from the fine level. -/
theorem AdaptiveInnerRelation.updateConfiguration_concatenates_witness :
    (exampleAdaptive.cell_linked_list_levels_.length = exampleAdaptive.total_levels_ ∧
      exampleAdaptive.get_multi_level_search_depth_.length = exampleAdaptive.total_levels_ ∧
      3 ≤ exampleConfiguration.length ∧ (∀ nb ∈ exampleConfiguration, nb.WellFormed) ∧ 0 < 3) ∧
      ∃ cfg1 nb,
        exampleAdaptive.updateConfiguration (BaseInnerRelation.resetNeighborhoodCurrentSize 3)
            (fun grid depth =>
              searchNeighborsByParticles (exampleLevelSearch grid depth) (List.range 3))
            exampleConfiguration = some cfg1 ∧
          cfg1[0]? = some nb ∧
          nb.neighbors =
            (List.zip exampleAdaptive.cell_linked_list_levels_
              exampleAdaptive.get_multi_level_search_depth_).flatMap
              (fun gd => (exampleLevelSearch gd.1 gd.2).admitted 0) ∧
          nb.current_size_ =
            ((List.zip exampleAdaptive.cell_linked_list_levels_
              exampleAdaptive.get_multi_level_search_depth_).flatMap
              (fun gd => (exampleLevelSearch gd.1 gd.2).admitted 0)).length :=
  ⟨⟨rfl, rfl, by decide, by decide, by decide⟩,
    (AdaptiveInnerRelation.updateConfiguration_concatenates exampleAdaptive 3 exampleLevelSearch
      exampleConfiguration rfl rfl (by decide) (by decide) 0 (by decide)).1⟩

theorem foldl_push_if (p : Nat → Prop) [DecidablePred p] (l : List Nat) :
    ∀ init : List Nat,
      l.foldl (fun acc i => if p i then acc ++ [i] else acc) init =
        init ++ l.filter (fun i => decide (p i)) := by
  induction l with
  | nil => intro init; simp
  | cons x xs ih =>
    intro init
    rw [List.foldl_cons, ih]
    by_cases hx : p x
    · simp [hx, List.filter_cons]
    · simp [hx, List.filter_cons]

/-- Claim C15. With `tagParticles` applying the tagging method once to each particle index,
after construction of `ForceBoundaryGeometry` a particle index `i` occurs in
`body_part_particles_` exactly once when the three conditions hold together (signed
distance below `0.7 * resolution_solid`, `x` above
`balloon_distal_end + balloon_fixed_length_distal`, `x` below
`balloon_distal_end + balloon_full_length - balloon_fixed_length_proximal`), and does not
occur otherwise. The three bounds are the doubles the program computes, every literal and
every operation rounded. -/
theorem ForceBoundaryGeometry.construct_tags (total_real_particles_ : Nat)
    (findSignedDistance : Vec3d → Real) (pos_ : Nat → Vec3d) (index_i : Nat)
    (hi : index_i < total_real_particles_) :
    (ForceBoundaryGeometry.construct total_real_particles_ findSignedDistance
        pos_).body_part_particles_.count index_i =
      if findSignedDistance (pos_ index_i) < roundDouble (roundDouble 0.7 * resolution_solid) ∧
          (pos_ index_i).1 > roundDouble (balloon_distal_end + balloon_fixed_length_distal) ∧
          (pos_ index_i).1 <
            roundDouble (roundDouble (balloon_distal_end + balloon_full_length) -
                balloon_fixed_length_proximal)
      then 1 else 0 := by
  unfold ForceBoundaryGeometry.construct BodyPartByParticle.tagParticles
  simp only []
  have h := foldl_push_if
    (fun i => findSignedDistance (pos_ i) < roundDouble (roundDouble 0.7 * resolution_solid) ∧
      (pos_ i).1 > roundDouble (balloon_distal_end + balloon_fixed_length_distal) ∧
      (pos_ i).1 < roundDouble (roundDouble (balloon_distal_end + balloon_full_length) -
          balloon_fixed_length_proximal))
    (List.range total_real_particles_) []
  unfold ForceBoundaryGeometry.tagManually
  simp only [] at h ⊢
  rw [h, List.nil_append]
  have hnodup : ((List.range total_real_particles_).filter (fun i =>
      decide (findSignedDistance (pos_ i) < roundDouble (roundDouble 0.7 * resolution_solid) ∧
        (pos_ i).1 > roundDouble (balloon_distal_end + balloon_fixed_length_distal) ∧
        (pos_ i).1 <
          roundDouble (roundDouble (balloon_distal_end + balloon_full_length) -
              balloon_fixed_length_proximal)))).Nodup :=
    List.Nodup.filter _ (List.nodup_range _)
  split
  · rename_i hc
    apply List.count_eq_one_of_mem hnodup
    rw [List.mem_filter]
    exact ⟨List.mem_range.mpr hi, decide_eq_true hc⟩
  · rename_i hc
    apply List.count_eq_zero.mpr
    intro hmem
    rw [List.mem_filter] at hmem
    exact hc (of_decide_eq_true hmem.2)

/-- Witness of C15: particle 1 of the example positions, at `x = 0.050`, is tagged once. -/
theorem ForceBoundaryGeometry.construct_tags_witness :
    1 < 4 ∧
      (ForceBoundaryGeometry.construct 4 exampleSurfaceDistance
          examplePositions).body_part_particles_.count 1 =
        if exampleSurfaceDistance (examplePositions 1) <
            roundDouble (roundDouble 0.7 * resolution_solid) ∧
            (examplePositions 1).1 > roundDouble (balloon_distal_end + balloon_fixed_length_distal) ∧
            (examplePositions 1).1 <
              roundDouble (roundDouble (balloon_distal_end + balloon_full_length) -
                  balloon_fixed_length_proximal)
        then 1 else 0 :=
  ⟨by decide,
    ForceBoundaryGeometry.construct_tags 4 exampleSurfaceDistance examplePositions 1 (by decide)⟩

/-- Values of `roundDouble`: the double nearest to 0.1, numbers that are doubles already, and
ties going to the even significand at `2^53 + 1` and `2^53 + 3`. -/
theorem roundDouble_values :
    roundDouble 0.1 = 3602879701896397 / 36028797018963968 ∧
      roundDouble 1 = 1 ∧ roundDouble (-5.5) = -5.5 ∧ roundDouble 0 = 0 ∧
      roundDouble (roundDouble 0.1) = roundDouble 0.1 ∧
      roundDouble (roundDouble 0.1 + roundDouble 0.2) = roundDouble 0.30000000000000004 ∧
      roundDouble 9007199254740993 = 9007199254740992 ∧
      roundDouble 9007199254740995 = 9007199254740996 := by
  decide!

/-- The three thresholds of the tagging conditions as the program's doubles hold them: the
lower bound is the double printed as 0.038650000000000004, above the exact 773/20000. -/
theorem ForceBoundaryGeometry.thresholds_value :
    roundDouble (balloon_distal_end + balloon_fixed_length_distal) =
        2785026009565915 / 72057594037927936 ∧
      roundDouble (balloon_distal_end + balloon_fixed_length_distal) =
        roundDouble 0.038650000000000004 ∧
      (773 / 20000 : Real) < roundDouble (balloon_distal_end + balloon_fixed_length_distal) ∧
      roundDouble (roundDouble (balloon_distal_end + balloon_full_length) -
          balloon_fixed_length_proximal) = 5800636320053199 / 72057594037927936 ∧
      roundDouble (roundDouble 0.7 * resolution_solid) =
        2582544170319337 / 9223372036854775808 := by
  decide!

/-- A particle whose `x` is the lower bound itself is not tagged, and the next double above
it is. -/
theorem ForceBoundaryGeometry.construct_at_bound :
    (ForceBoundaryGeometry.construct 1 exampleSurfaceDistance
        (fun _ => (roundDouble 0.038650000000000004, 0, 0))).body_part_particles_ = [] ∧
      (ForceBoundaryGeometry.construct 1 exampleSurfaceDistance
        (fun _ => (2785026009565916 / 72057594037927936, 0, 0))).body_part_particles_ = [0] := by
  decide!

/-! ## Claims on the driver loops -/

theorem orderCheck_append (anyBody : Bool) (t1 t2 : List DriverStep) :
    ∀ r, orderCheck anyBody r (t1 ++ t2) =
      (orderCheck anyBody r t1).bind (fun r1 => orderCheck anyBody r1 t2) := by
  induction t1 with
  | nil => intro r; rfl
  | cons step rest ih =>
    intro r
    rw [List.cons_append, orderCheck, orderCheck]
    cases orderStep anyBody r step with
    | none => rfl
    | some r1 => exact ih r1

/-- An accepted sequence has only accepted initial parts: an iteration cut short by a `throw`
is accepted when the whole iteration is. -/
theorem orderCheck_take (anyBody : Bool) (t : List DriverStep) :
    ∀ (r : Rebuilt) (m : Nat), (orderCheck anyBody r t).isSome = true →
      (orderCheck anyBody r (t.take m)).isSome = true := by
  induction t with
  | nil => intro r m h; simpa using h
  | cons step rest ih =>
    intro r m h
    cases m with
    | zero => rfl
    | succ m =>
      rw [List.take_succ_cons, orderCheck]
      rw [orderCheck] at h
      cases hs : orderStep anyBody r step with
      | none => rw [hs] at h; exact h
      | some r1 =>
        rw [hs] at h
        exact ih r1 m h

theorem orderCheck_solid_iteration (anyBody : Bool) (r : Rebuilt) :
    ∃ r1, orderCheck anyBody r run_simulation_solid_iteration = some r1 := by
  cases anyBody <;> exact ⟨_, rfl⟩

theorem orderCheck_solid_iterations (anyBody : Bool) (solid_steps : Nat) :
    ∀ r, ∃ r1, orderCheck anyBody r
      (List.replicate solid_steps run_simulation_solid_iteration).flatten = some r1 := by
  induction solid_steps with
  | zero => intro r; exact ⟨r, rfl⟩
  | succ n ih =>
    intro r
    obtain ⟨r1, h1⟩ := orderCheck_solid_iteration anyBody r
    obtain ⟨r2, h2⟩ := ih r1
    refine ⟨r2, ?_⟩
    rw [List.replicate_succ, List.flatten_cons, orderCheck_append, h1]
    exact h2

theorem orderCheck_acoustic_iteration (anyBody : Bool) (solid_steps : Nat) (r : Rebuilt) :
    ∃ r1, orderCheck anyBody r (run_simulation_acoustic_iteration solid_steps) = some r1 := by
  unfold run_simulation_acoustic_iteration
  have h1 : ∃ r1, orderCheck anyBody r
      [ DriverStep.dynamics "fluid_acoustic_time_step" Body.fluid_block,
        DriverStep.dynamics "fluid_pressure_relaxation" Body.fluid_block,
        DriverStep.dynamics "emitter_buffer_inflow_condition" Body.fluid_block,
        DriverStep.dynamics "fluid_density_relaxation" Body.fluid_block,
        DriverStep.dynamics "initialize_displacement_" Body.solid ] = some r1 := ⟨_, rfl⟩
  obtain ⟨r1, e1⟩ := h1
  obtain ⟨r2, e2⟩ := orderCheck_solid_iterations anyBody solid_steps r1
  refine ⟨(if anyBody then Rebuilt.none else r2.set Body.solid false), ?_⟩
  rw [orderCheck_append, orderCheck_append, e1]
  simp only [Option.some_bind, e2]
  rfl

theorem orderCheck_acoustic_iterations (anyBody : Bool) (acoustic_steps : List Nat) :
    ∀ r, ∃ r1, orderCheck anyBody r
      (acoustic_steps.map run_simulation_acoustic_iteration).flatten = some r1 := by
  induction acoustic_steps with
  | nil => intro r; exact ⟨r, rfl⟩
  | cons n rest ih =>
    intro r
    obtain ⟨r1, h1⟩ := orderCheck_acoustic_iteration anyBody n r
    obtain ⟨r2, h2⟩ := ih r1
    refine ⟨r2, ?_⟩
    rw [List.map_cons, List.flatten_cons, orderCheck_append, h1]
    exact h2

/-- The statements of an iteration of `run_simulation` before its last one. -/
theorem run_simulation_iteration_dropLast (acoustic_steps : List Nat) :
    (run_simulation_iteration acoustic_steps).dropLast =
      [ DriverStep.dynamics "fluid_step_initialization" Body.fluid_block,
        DriverStep.dynamics "fluid_advection_time_step" Body.fluid_block,
        DriverStep.dynamics "inlet_outlet_surface_particle_indicator" Body.fluid_block,
        DriverStep.dynamics "update_fluid_density_by_summation" Body.fluid_block,
        DriverStep.dynamics "viscous_acceleration" Body.fluid_block,
        DriverStep.dynamics "transport_velocity_correction" Body.fluid_block ] ++
      (acoustic_steps.map run_simulation_acoustic_iteration).flatten ++
      [ DriverStep.dynamics "emitter_inflow_injection" Body.fluid_block,
        DriverStep.dynamics "disposer_outflow_deletion" Body.fluid_block,
        DriverStep.updateCellLinkedList Body.fluid_block,
        DriverStep.dynamics "update_solid_volume" Body.solid,
        DriverStep.dynamics "solid_update_normal" Body.solid,
        DriverStep.updateCellLinkedList Body.solid,
        DriverStep.updateConfiguration Relation.solid_fluid_contact ] := by
  unfold run_simulation_iteration
  rw [List.dropLast_append_of_ne_nil _ (by simp)]
  rfl

/-- Claim C16, as stated, fails for `fluid_block_complex`: in an iteration of `run_simulation`
(here with one acoustic step holding one solid step) the rebuild of the fluid cell linked
list is followed by the dynamics steps `update_solid_volume` and `solid_update_normal`
before `fluid_block_complex.updateConfiguration()`, so with every dynamics step counting the
check rejects the iteration; it accepts everything before that last statement. -/
theorem run_simulation_iteration_order_counterexample :
    orderCheck true Rebuilt.none (run_simulation_iteration [1]) = none ∧
      (orderCheck true Rebuilt.none (run_simulation_iteration [1]).dropLast).isSome = true ∧
      (run_simulation_iteration [1]).getLast? =
        some (DriverStep.updateConfiguration Relation.fluid_block_complex) ∧
      (run_simulation_iteration [1]).drop 28 =
        [ DriverStep.updateCellLinkedList Body.fluid_block,
          DriverStep.dynamics "update_solid_volume" Body.solid,
          DriverStep.dynamics "solid_update_normal" Body.solid,
          DriverStep.updateCellLinkedList Body.solid,
          DriverStep.updateConfiguration Relation.solid_fluid_contact,
          DriverStep.updateConfiguration Relation.fluid_block_complex ] := by
  refine ⟨by decide, by decide, by decide, by decide⟩

/-- Claim C16, amended. In every iteration of the driver loops, cut short by a `throw` or
not, each `updateConfiguration` of a relation is preceded in the same iteration by
`updateCellLinkedList` of the body that owns the relation, with no dynamics step on that
body in between. For `solid_self_contact` (both loops) and `solid_fluid_contact` no dynamics
step at all lies in between; `fluid_block_complex.updateConfiguration()` is the last
statement of the iteration of `run_simulation`. -/
theorem run_loops_order (acoustic_steps : List Nat) (m : Nat) :
    (orderCheck false Rebuilt.none ((run_simulation_iteration acoustic_steps).take m)).isSome
        = true ∧
      (orderCheck true Rebuilt.none (run_self_contact_iteration.take m)).isSome = true ∧
      (orderCheck true Rebuilt.none (run_simulation_solid_iteration.take m)).isSome = true ∧
      (orderCheck true Rebuilt.none
        ((run_simulation_iteration acoustic_steps).dropLast.take m)).isSome = true ∧
      (run_simulation_iteration acoustic_steps).getLast? =
        some (DriverStep.updateConfiguration Relation.fluid_block_complex) := by
  refine ⟨?_, ?_, ?_, ?_, ?_⟩
  · apply orderCheck_take
    unfold run_simulation_iteration
    obtain ⟨r1, e1⟩ := orderCheck_acoustic_iterations false acoustic_steps
      { fluid_block := false, solid := false }
    rw [orderCheck_append, orderCheck_append]
    have e0 : orderCheck false Rebuilt.none
        [ DriverStep.dynamics "fluid_step_initialization" Body.fluid_block,
          DriverStep.dynamics "fluid_advection_time_step" Body.fluid_block,
          DriverStep.dynamics "inlet_outlet_surface_particle_indicator" Body.fluid_block,
          DriverStep.dynamics "update_fluid_density_by_summation" Body.fluid_block,
          DriverStep.dynamics "viscous_acceleration" Body.fluid_block,
          DriverStep.dynamics "transport_velocity_correction" Body.fluid_block ] =
        some { fluid_block := false, solid := false } := rfl
    rw [e0]
    simp only [Option.some_bind, e1]
    rfl
  · apply orderCheck_take
    decide
  · apply orderCheck_take
    decide
  · apply orderCheck_take
    rw [run_simulation_iteration_dropLast]
    obtain ⟨r1, e1⟩ := orderCheck_acoustic_iterations true acoustic_steps
      { fluid_block := false, solid := false }
    rw [orderCheck_append, orderCheck_append]
    have e0 : orderCheck true Rebuilt.none
        [ DriverStep.dynamics "fluid_step_initialization" Body.fluid_block,
          DriverStep.dynamics "fluid_advection_time_step" Body.fluid_block,
          DriverStep.dynamics "inlet_outlet_surface_particle_indicator" Body.fluid_block,
          DriverStep.dynamics "update_fluid_density_by_summation" Body.fluid_block,
          DriverStep.dynamics "viscous_acceleration" Body.fluid_block,
          DriverStep.dynamics "transport_velocity_correction" Body.fluid_block ] =
        some { fluid_block := false, solid := false } := rfl
    rw [e0]
    simp only [Option.some_bind, e1]
    rfl
  · unfold run_simulation_iteration
    rw [List.getLast?_append_of_ne_nil _ (by simp)]
    rfl

/-! ## Claims on `CheckKernelCompleteness` -/

theorem forNeM_eq_foldl {σ : Type} (body : Nat → σ → Option σ) (g : Nat → σ → σ)
    (hbody : ∀ k s, body k s = some (g k s)) (n : Nat) :
    ∀ (k : Nat) (s : σ),
      forNeM body (k + n) (n + 1) k s =
        some ((List.range' k n).foldl (fun acc i => g i acc) s) := by
  induction n with
  | zero => intro k s; simp [forNeM]
  | succ n ih =>
    intro k s
    have hne : k ≠ k + (n + 1) := by omega
    have hstop : k + (n + 1) = (k + 1) + n := by omega
    rw [forNeM, if_neg hne, hbody]
    simp only []
    rw [hstop, ih (k + 1) (g k s)]
    simp [List.range'_succ]

theorem forLtM_eq_foldl {σ : Type} (body : Nat → σ → Option σ) (g : Nat → σ → σ)
    (hbody : ∀ k s, body k s = some (g k s)) (n : Nat) :
    ∀ (k : Nat) (s : σ),
      forLtM body (k + n) (n + 1) k s =
        some ((List.range' k n).foldl (fun acc i => g i acc) s) := by
  induction n with
  | zero => intro k s; simp [forLtM]
  | succ n ih =>
    intro k s
    have hlt : k < k + (n + 1) := by omega
    have hstop : k + (n + 1) = (k + 1) + n := by omega
    rw [forLtM, if_pos hlt, hbody]
    simp only []
    rw [hstop, ih (k + 1) (g k s)]
    simp [List.range'_succ]

theorem wrapInt32_succ (x : Int) : wrapInt32 (wrapInt32 x + 1) = wrapInt32 (x + 1) := by
  unfold wrapInt32
  omega

theorem wrapInt32_of_lt (n : Nat) (h : n < 2147483648) : wrapInt32 (n : Int) = (n : Int) := by
  unfold wrapInt32
  omega

/-- The loop over the counted entries of a neighborhood is a fold over its counted
neighbors. -/
theorem CheckKernelCompleteness.inner_loop (Vol_ : Nat → Real) (nb : Neighborhood)
    (s : KernelSums) :
    forNe (CheckKernelCompleteness.innerStep Vol_ nb) nb.current_size_ (nb.current_size_ + 1) 0 s =
      some (nb.neighbors.foldl (CheckKernelCompleteness.innerEntry Vol_) s) := by
  rw [forNe_zero_eq_foldl]
  unfold Neighborhood.neighbors
  rw [List.foldl_map]
  rfl

theorem CheckKernelCompleteness.contact_loop (Vol_k : Nat → Real) (nb : Neighborhood)
    (s : KernelSums) :
    forNe (CheckKernelCompleteness.contactStep Vol_k nb) nb.current_size_
        (nb.current_size_ + 1) 0 s =
      some (nb.neighbors.foldl (CheckKernelCompleteness.contactEntry Vol_k) s) := by
  rw [forNe_zero_eq_foldl]
  unfold Neighborhood.neighbors
  rw [List.foldl_map]
  rfl

/-- The loop over the contact bodies from body `pre.length` on is `contactSums` of the
counted neighbors of the remaining bodies. -/
theorem CheckKernelCompleteness.contact_bodies_loop (contact_Vol_ : Nat → Nat → Real)
    (index_i : Nat) (rest : List ParticleConfiguration) :
    ∀ (pre : List ParticleConfiguration) (s : KernelSums),
      (List.range' pre.length rest.length).foldl
          (fun acc k =>
            (((pre ++ rest).getD k []).getD index_i Neighborhood.empty).neighbors.foldl
              (CheckKernelCompleteness.contactEntry (contact_Vol_ k)) acc) s =
        CheckKernelCompleteness.contactSums contact_Vol_ pre.length
          (rest.map (fun cfg => (cfg.getD index_i Neighborhood.empty).neighbors)) s := by
  induction rest with
  | nil => intro pre s; rfl
  | cons cfg rest ih =>
    intro pre s
    have hget : (pre ++ cfg :: rest).getD pre.length [] = cfg := by
      rw [List.getD_eq_getElem?_getD, List.getElem?_append_right (Nat.le_refl _), Nat.sub_self]
      simp
    have hih := ih (pre ++ [cfg])
    simp only [List.length_append, List.length_singleton, List.append_assoc,
      List.singleton_append] at hih
    rw [List.length_cons, List.range'_succ, List.foldl_cons, hget, List.map_cons,
      CheckKernelCompleteness.contactSums, hih]

/-- The sums computed by the lambda of `exec` depend on the configurations only through the
counted neighbors. -/
theorem CheckKernelCompleteness.execParticle_eq (inp : KernelCheckInputs) (index_i : Nat) :
    CheckKernelCompleteness.execParticle inp index_i =
      some (CheckKernelCompleteness.countedSums inp.Vol_ inp.W0 inp.contact_Vol_ index_i
        (inp.inner_configuration_.getD index_i Neighborhood.empty).neighbors
        (inp.contact_configuration_.map
          (fun cfg => (cfg.getD index_i Neighborhood.empty).neighbors))) := by
  unfold CheckKernelCompleteness.execParticle
  simp only [CheckKernelCompleteness.inner_loop]
  have h := forLtM_eq_foldl
    (fun k s =>
      forNe
        (CheckKernelCompleteness.contactStep (inp.contact_Vol_ k)
          ((inp.contact_configuration_.getD k []).getD index_i Neighborhood.empty))
        ((inp.contact_configuration_.getD k []).getD index_i Neighborhood.empty).current_size_
        (((inp.contact_configuration_.getD k []).getD index_i Neighborhood.empty).current_size_ + 1)
        0 s)
    (fun k s =>
      ((inp.contact_configuration_.getD k []).getD index_i Neighborhood.empty).neighbors.foldl
        (CheckKernelCompleteness.contactEntry (inp.contact_Vol_ k)) s)
    (fun k s => CheckKernelCompleteness.contact_loop _ _ s)
    inp.contact_configuration_.length 0
  rw [Nat.zero_add] at h
  rw [h]
  have h2 := CheckKernelCompleteness.contact_bodies_loop inp.contact_Vol_ index_i
    inp.contact_configuration_ []
  simp only [List.length_nil, List.nil_append] at h2
  rw [h2]
  rfl

theorem Neighborhood.AgreeOnCounted.neighbors_eq {a b : Neighborhood}
    (h : a.AgreeOnCounted b) : a.neighbors = b.neighbors := by
  unfold Neighborhood.neighbors
  rw [← h.1]
  apply List.map_congr_left
  intro n hn
  obtain ⟨h1, h2, h3, h4⟩ := h.2 n (List.mem_range.mp hn)
  simp only [Neighborhood.entry, h1, h2, h3, h4]

theorem CheckKernelCompleteness.innerEntry_counts (Vol_ : Nat → Real)
    (counted : List NeighborEntry) :
    ∀ (s : KernelSums) (m : Int), s.N_inner_number = wrapInt32 m →
      (counted.foldl (CheckKernelCompleteness.innerEntry Vol_) s).N_inner_number =
          wrapInt32 (m + counted.length) ∧
        (counted.foldl (CheckKernelCompleteness.innerEntry Vol_) s).N_contact_number =
          s.N_contact_number := by
  induction counted with
  | nil => intro s m hs; simp [hs]
  | cons e rest ih =>
    intro s m hs
    have h1 : (CheckKernelCompleteness.innerEntry Vol_ s e).N_inner_number =
        wrapInt32 (m + 1) := by
      show wrapInt32 (s.N_inner_number + 1) = _
      rw [hs, wrapInt32_succ]
    obtain ⟨h2, h3⟩ := ih _ _ h1
    rw [List.foldl_cons, h2, h3]
    refine ⟨?_, rfl⟩
    congr 1
    simp only [List.length_cons, Nat.cast_add, Nat.cast_one]
    omega

theorem CheckKernelCompleteness.contactEntry_counts (Vol_k : Nat → Real)
    (counted : List NeighborEntry) :
    ∀ (s : KernelSums) (m : Int), s.N_contact_number = wrapInt32 m →
      (counted.foldl (CheckKernelCompleteness.contactEntry Vol_k) s).N_contact_number =
          wrapInt32 (m + counted.length) ∧
        (counted.foldl (CheckKernelCompleteness.contactEntry Vol_k) s).N_inner_number =
          s.N_inner_number := by
  induction counted with
  | nil => intro s m hs; simp [hs]
  | cons e rest ih =>
    intro s m hs
    have h1 : (CheckKernelCompleteness.contactEntry Vol_k s e).N_contact_number =
        wrapInt32 (m + 1) := by
      show wrapInt32 (s.N_contact_number + 1) = _
      rw [hs, wrapInt32_succ]
    obtain ⟨h2, h3⟩ := ih _ _ h1
    rw [List.foldl_cons, h2, h3]
    refine ⟨?_, rfl⟩
    congr 1
    simp only [List.length_cons, Nat.cast_add, Nat.cast_one]
    omega

theorem CheckKernelCompleteness.contactSums_counts (contact_Vol_ : Nat → Nat → Real)
    (contacts : List (List NeighborEntry)) :
    ∀ (k : Nat) (s : KernelSums) (m : Int), s.N_contact_number = wrapInt32 m →
      (CheckKernelCompleteness.contactSums contact_Vol_ k contacts s).N_contact_number =
          wrapInt32 (m + ((contacts.map List.length).sum : Nat)) ∧
        (CheckKernelCompleteness.contactSums contact_Vol_ k contacts s).N_inner_number =
          s.N_inner_number := by
  induction contacts with
  | nil => intro k s m hs; simp [CheckKernelCompleteness.contactSums, hs]
  | cons counted rest ih =>
    intro k s m hs
    obtain ⟨h1, h2⟩ := CheckKernelCompleteness.contactEntry_counts (contact_Vol_ k) counted s m hs
    obtain ⟨h3, h4⟩ := ih (k + 1) _ _ h1
    rw [CheckKernelCompleteness.contactSums, h3, h4, h2]
    refine ⟨?_, rfl⟩
    congr 1
    simp only [List.map_cons, List.sum_cons, Nat.cast_add]
    omega

theorem CheckKernelCompleteness.countedSums_counts (Vol_ : Nat → Real) (W0 : Real)
    (contact_Vol_ : Nat → Nat → Real) (index_i : Nat) (inner : List NeighborEntry)
    (contacts : List (List NeighborEntry)) :
    (CheckKernelCompleteness.countedSums Vol_ W0 contact_Vol_ index_i inner
        contacts).N_inner_number = wrapInt32 (inner.length : Nat) ∧
      (CheckKernelCompleteness.countedSums Vol_ W0 contact_Vol_ index_i inner
        contacts).N_contact_number = wrapInt32 ((contacts.map List.length).sum : Nat) := by
  unfold CheckKernelCompleteness.countedSums
  have h0 : (0 : Int) = wrapInt32 0 := by decide
  obtain ⟨h1, h2⟩ := CheckKernelCompleteness.innerEntry_counts Vol_ inner
    { N_inner_number := 0, N_contact_number := 0, W_ijV_j_ttl_i := Vol_ index_i * W0,
      dW_ijV_je_ij_ttl_i := Vecd.Zero, W_ijV_j_ttl_contact_i := 0 } 0 h0
  obtain ⟨h3, h4⟩ := CheckKernelCompleteness.contactSums_counts contact_Vol_ contacts 0 _ 0
    (h2.trans h0)
  rw [h3, h4, h1]
  simp

/-- The result of `exec`: every particle below `total_real_particles_` gets the sums of its
counted neighbors written, in ascending order. -/
theorem CheckKernelCompleteness.exec_eq (inp : KernelCheckInputs) (out : KernelCheckOutputs) :
    CheckKernelCompleteness.exec inp out =
      some ((List.range inp.total_real_particles_).foldl
        (fun o index_i =>
          o.write index_i
            (CheckKernelCompleteness.countedSums inp.Vol_ inp.W0 inp.contact_Vol_ index_i
              (inp.inner_configuration_.getD index_i Neighborhood.empty).neighbors
              (inp.contact_configuration_.map
                (fun cfg => (cfg.getD index_i Neighborhood.empty).neighbors)))) out) := by
  unfold CheckKernelCompleteness.exec
  have h := forNeM_eq_foldl
    (fun index_i (o : KernelCheckOutputs) =>
      match CheckKernelCompleteness.execParticle inp index_i with
      | none => none
      | some s => some (o.write index_i s))
    (fun index_i o =>
      o.write index_i
        (CheckKernelCompleteness.countedSums inp.Vol_ inp.W0 inp.contact_Vol_ index_i
          (inp.inner_configuration_.getD index_i Neighborhood.empty).neighbors
          (inp.contact_configuration_.map
            (fun cfg => (cfg.getD index_i Neighborhood.empty).neighbors))))
    (fun k s => by simp only [CheckKernelCompleteness.execParticle_eq])
    inp.total_real_particles_ 0 out
  rw [Nat.zero_add] at h
  rw [h, List.range_eq_range']

/-- The neighbor numbers written for a particle below `total_real_particles_`. -/
theorem CheckKernelCompleteness.foldl_write_counts (total_real_particles_ : Nat)
    (sums : Nat → KernelSums) (out : KernelCheckOutputs) (index_i : Nat)
    (hi : index_i < total_real_particles_) :
    ((List.range total_real_particles_).foldl (fun o i => o.write i (sums i))
        out).number_of_inner_neighbor index_i = (sums index_i).N_inner_number ∧
      ((List.range total_real_particles_).foldl (fun o i => o.write i (sums i))
        out).number_of_contact_neighbor index_i = (sums index_i).N_contact_number := by
  refine foldl_establish (fun i (o : KernelCheckOutputs) => o.write i (sums i))
    (fun o => o.number_of_inner_neighbor index_i = (sums index_i).N_inner_number ∧
      o.number_of_contact_neighbor index_i = (sums index_i).N_contact_number)
    (List.range total_real_particles_) index_i (List.mem_range.mpr hi) ?_ ?_ out
  · intro o
    simp [KernelCheckOutputs.write]
  · intro y o ho
    by_cases hy : y = index_i
    · subst hy
      simp [KernelCheckOutputs.write]
    · have hne : index_i ≠ y := fun h => hy h.symm
      simp only [KernelCheckOutputs.write, Function.update_noteq hne]
      exact ho

/-- Claim C14. Entries beyond `current_size_` are absent for `CheckKernelCompleteness::exec`:
`exec` returns, and for any second inner and contact configurations that agree with the
first ones, for every particle, on `current_size_` and on the first `current_size_` entries
of `j_`, `W_ij_`, `dW_ijV_j_` and `e_ij_`, it writes the same five variables, whatever is
stored at positions from `current_size_` on. `InnerNeighborNumber[i]` is the inner
`current_size_` of `i` and `ContactNeighborNumber[i]` the sum of the `current_size_` of `i`
over the contact configurations, as long as these fit the 32-bit `int` counters. -/
theorem CheckKernelCompleteness.exec_counted (inp : KernelCheckInputs)
    (inner2 : ParticleConfiguration) (contacts2 : List ParticleConfiguration)
    (out : KernelCheckOutputs)
    (hinner : ∀ i, i < inp.total_real_particles_ →
      (inp.inner_configuration_.getD i Neighborhood.empty).AgreeOnCounted
        (inner2.getD i Neighborhood.empty))
    (hlen : contacts2.length = inp.contact_configuration_.length)
    (hcontact : ∀ k, k < inp.contact_configuration_.length →
      ∀ i, i < inp.total_real_particles_ →
      ((inp.contact_configuration_.getD k []).getD i Neighborhood.empty).AgreeOnCounted
        ((contacts2.getD k []).getD i Neighborhood.empty)) :
    ∃ o, CheckKernelCompleteness.exec inp out = some o ∧
      CheckKernelCompleteness.exec
        { inp with inner_configuration_ := inner2, contact_configuration_ := contacts2 } out =
        some o ∧
      ∀ i, i < inp.total_real_particles_ →
        ((inp.inner_configuration_.getD i Neighborhood.empty).current_size_ < 2147483648 →
          o.number_of_inner_neighbor i =
            ((inp.inner_configuration_.getD i Neighborhood.empty).current_size_ : Int)) ∧
        ((inp.contact_configuration_.map
            (fun cfg => (cfg.getD i Neighborhood.empty).current_size_)).sum < 2147483648 →
          o.number_of_contact_neighbor i =
            (((inp.contact_configuration_.map
              (fun cfg => (cfg.getD i Neighborhood.empty).current_size_)).sum : Nat) : Int)) := by
  refine ⟨_, CheckKernelCompleteness.exec_eq inp out, ?_, ?_⟩
  · rw [CheckKernelCompleteness.exec_eq]
    congr 1
    apply List.foldl_ext
    intro o i hi
    have hi2 : i < inp.total_real_particles_ := List.mem_range.mp hi
    have e1 : (inner2.getD i Neighborhood.empty).neighbors =
        (inp.inner_configuration_.getD i Neighborhood.empty).neighbors :=
      (hinner i hi2).neighbors_eq.symm
    have e2 : contacts2.map (fun cfg => (cfg.getD i Neighborhood.empty).neighbors) =
        inp.contact_configuration_.map
          (fun cfg => (cfg.getD i Neighborhood.empty).neighbors) := by
      apply List.ext_getElem
      · simp [hlen]
      · intro k h1 h2
        simp only [List.length_map] at h1 h2
        simp only [List.getElem_map]
        have hk := (hcontact k h2 i hi2).neighbors_eq
        rw [List.getD_eq_getElem _ _ h2, List.getD_eq_getElem _ _ h1] at hk
        exact hk.symm
    simp only [e1, e2]
  · intro i hi
    obtain ⟨h1, h2⟩ := CheckKernelCompleteness.foldl_write_counts inp.total_real_particles_
      (fun index_i =>
        CheckKernelCompleteness.countedSums inp.Vol_ inp.W0 inp.contact_Vol_ index_i
          (inp.inner_configuration_.getD index_i Neighborhood.empty).neighbors
          (inp.contact_configuration_.map
            (fun cfg => (cfg.getD index_i Neighborhood.empty).neighbors))) out i hi
    obtain ⟨h3, h4⟩ := CheckKernelCompleteness.countedSums_counts inp.Vol_ inp.W0
      inp.contact_Vol_ i (inp.inner_configuration_.getD i Neighborhood.empty).neighbors
      (inp.contact_configuration_.map (fun cfg => (cfg.getD i Neighborhood.empty).neighbors))
    have hsum : ((inp.contact_configuration_.map
        (fun cfg => (cfg.getD i Neighborhood.empty).neighbors)).map List.length) =
        inp.contact_configuration_.map
          (fun cfg => (cfg.getD i Neighborhood.empty).current_size_) := by
      rw [List.map_map]
      apply List.map_congr_left
      intro cfg _
      exact Neighborhood.neighbors_length _
    constructor
    · intro hb
      rw [h1]
      simp only [] at h3
      rw [h3, Neighborhood.neighbors_length]
      exact wrapInt32_of_lt _ hb
    · intro hb
      rw [h2]
      simp only [] at h4
      rw [h4, hsum]
      exact wrapInt32_of_lt _ hb

/-- Witness of C14: the example inputs, and the same counted neighbors with other stale
entries. -/
theorem CheckKernelCompleteness.exec_counted_witness :
    ((∀ i, i < exampleKernelCheckInputs.total_real_particles_ →
        (exampleKernelCheckInputs.inner_configuration_.getD i Neighborhood.empty).AgreeOnCounted
          (exampleConfigurationStale.getD i Neighborhood.empty)) ∧
      [exampleConfigurationStale].length =
        exampleKernelCheckInputs.contact_configuration_.length ∧
      (∀ k, k < exampleKernelCheckInputs.contact_configuration_.length →
        ∀ i, i < exampleKernelCheckInputs.total_real_particles_ →
        ((exampleKernelCheckInputs.contact_configuration_.getD k []).getD i
            Neighborhood.empty).AgreeOnCounted
          (([exampleConfigurationStale].getD k []).getD i Neighborhood.empty))) ∧
      ∃ o, CheckKernelCompleteness.exec exampleKernelCheckInputs exampleKernelCheckOutputs =
          some o ∧
        CheckKernelCompleteness.exec
          { exampleKernelCheckInputs with
            inner_configuration_ := exampleConfigurationStale,
            contact_configuration_ := [exampleConfigurationStale] }
          exampleKernelCheckOutputs = some o ∧
        ∀ i, i < exampleKernelCheckInputs.total_real_particles_ →
          ((exampleKernelCheckInputs.inner_configuration_.getD i
              Neighborhood.empty).current_size_ < 2147483648 →
            o.number_of_inner_neighbor i =
              ((exampleKernelCheckInputs.inner_configuration_.getD i
                Neighborhood.empty).current_size_ : Int)) ∧
          ((exampleKernelCheckInputs.contact_configuration_.map
              (fun cfg => (cfg.getD i Neighborhood.empty).current_size_)).sum < 2147483648 →
            o.number_of_contact_neighbor i =
              (((exampleKernelCheckInputs.contact_configuration_.map
                (fun cfg => (cfg.getD i Neighborhood.empty).current_size_)).sum : Nat) : Int)) :=
  ⟨⟨by decide, rfl, by decide⟩,
    CheckKernelCompleteness.exec_counted exampleKernelCheckInputs exampleConfigurationStale
      [exampleConfigurationStale] exampleKernelCheckOutputs (by decide) rfl (by decide)⟩

/-! ## Claims on the target particle mask, candidate side -/

/-- Claim C21. For `i` different from `j` the result of `TargetParticleMask::isInRange(i, j)`
stays the same whatever value `v` is stored in `body_part_indicator_[i]`; and when the base
predicate agrees on `(i, j)` and `(j, i)` and admits the pair, `j` carries the tag of the part
and `i` does not, then `i` admits `j` while `j` does not admit `i`. -/
theorem TargetParticleMask.isInRange_candidate_only (base : Nat → Nat → Bool)
    (m : TargetParticleMask) (index_i index_j : Nat) (h : index_i ≠ index_j) :
    (∀ v : Int,
        TargetParticleMask.isInRange base
            { m with body_part_indicator_ := Function.update m.body_part_indicator_ index_i v }
            index_i index_j =
          TargetParticleMask.isInRange base m index_i index_j) ∧
      (base index_i index_j = base index_j index_i →
        base index_i index_j = true →
        m.body_part_indicator_ index_j = m.part_id_ →
        m.body_part_indicator_ index_i ≠ m.part_id_ →
        TargetParticleMask.isInRange base m index_i index_j = true ∧
          TargetParticleMask.isInRange base m index_j index_i = false) := by
  constructor
  · intro v
    unfold TargetParticleMask.isInRange
    simp only []
    rw [Function.update_noteq (Ne.symm h)]
  · intro hsym hb hj hi
    unfold TargetParticleMask.isInRange
    constructor
    · simp [hj, hb]
    · simp [hi]

/-- Witness of C21: with the symmetric example predicate, particle 2 (outside the part) admits
the tagged particle 0, and particle 0 does not admit particle 2. -/
theorem TargetParticleMask.isInRange_candidate_only_witness :
    (2 : Nat) ≠ 0 ∧
      (∀ v : Int,
        TargetParticleMask.isInRange exampleBase
            { exampleMask with
              body_part_indicator_ := Function.update exampleMask.body_part_indicator_ 2 v }
            2 0 =
          TargetParticleMask.isInRange exampleBase exampleMask 2 0) ∧
      TargetParticleMask.isInRange exampleBase exampleMask 2 0 = true ∧
      TargetParticleMask.isInRange exampleBase exampleMask 0 2 = false :=
  ⟨by decide,
    (TargetParticleMask.isInRange_candidate_only exampleBase exampleMask 2 0 (by decide)).1,
    (TargetParticleMask.isInRange_candidate_only exampleBase exampleMask 2 0 (by decide)).2
      (by decide) (by decide) (by decide) (by decide)⟩

/-! ## Claims on the two body parts of the balloon test -/

theorem BoundaryGeometry.construct_fixed_filter (total_real_particles_ : Nat) (pos_ : Nat → Vec3d) :
    (BoundaryGeometry.construct total_real_particles_ pos_).body_part_particles_ =
      (List.range total_real_particles_).filter (fun i =>
        decide ((pos_ i).1 < roundDouble (balloon_distal_end + balloon_fixed_length_distal) ∨
          (pos_ i).1 >
            roundDouble (roundDouble (balloon_distal_end + balloon_full_length) -
                balloon_fixed_length_proximal))) := by
  unfold BoundaryGeometry.construct BodyPartByParticle.tagParticles
  simp only []
  have h := foldl_push_if
    (fun i => (pos_ i).1 < roundDouble (balloon_distal_end + balloon_fixed_length_distal) ∨
      (pos_ i).1 > roundDouble (roundDouble (balloon_distal_end + balloon_full_length) -
          balloon_fixed_length_proximal))
    (List.range total_real_particles_) []
  unfold BoundaryGeometry.tagManually
  simp only [] at h ⊢
  rw [h, List.nil_append]

theorem ForceBoundaryGeometry.construct_force_filter (total_real_particles_ : Nat)
    (findSignedDistance : Vec3d → Real) (pos_ : Nat → Vec3d) :
    (ForceBoundaryGeometry.construct total_real_particles_ findSignedDistance
        pos_).body_part_particles_ =
      (List.range total_real_particles_).filter (fun i =>
        decide (findSignedDistance (pos_ i) < roundDouble (roundDouble 0.7 * resolution_solid) ∧
          (pos_ i).1 > roundDouble (balloon_distal_end + balloon_fixed_length_distal) ∧
          (pos_ i).1 <
            roundDouble (roundDouble (balloon_distal_end + balloon_full_length) -
                balloon_fixed_length_proximal))) := by
  unfold ForceBoundaryGeometry.construct BodyPartByParticle.tagParticles
  simp only []
  have h := foldl_push_if
    (fun i => findSignedDistance (pos_ i) < roundDouble (roundDouble 0.7 * resolution_solid) ∧
      (pos_ i).1 > roundDouble (balloon_distal_end + balloon_fixed_length_distal) ∧
      (pos_ i).1 < roundDouble (roundDouble (balloon_distal_end + balloon_full_length) -
          balloon_fixed_length_proximal))
    (List.range total_real_particles_) []
  unfold ForceBoundaryGeometry.tagManually
  simp only [] at h ⊢
  rw [h, List.nil_append]

/-- Claim C22. For every particle position and every signed distance the tagging condition
of `BoundaryGeometry` and the tagging condition of `ForceBoundaryGeometry` never hold
together: `tagManually` of the two parts never both push the same index, and after
construction no particle index is in both `body_part_particles_`. The bounds are the doubles
the program computes. -/
theorem BoundaryGeometry.disjoint_ForceBoundaryGeometry (total_real_particles_ : Nat)
    (findSignedDistance : Vec3d → Real) (pos_ : Nat → Vec3d) (index_i : Nat) :
    ¬ (((pos_ index_i).1 < roundDouble (balloon_distal_end + balloon_fixed_length_distal) ∨
          (pos_ index_i).1 >
            roundDouble (roundDouble (balloon_distal_end + balloon_full_length) -
                balloon_fixed_length_proximal)) ∧
        (findSignedDistance (pos_ index_i) < roundDouble (roundDouble 0.7 * resolution_solid) ∧
          (pos_ index_i).1 > roundDouble (balloon_distal_end + balloon_fixed_length_distal) ∧
          (pos_ index_i).1 <
            roundDouble (roundDouble (balloon_distal_end + balloon_full_length) -
                balloon_fixed_length_proximal))) ∧
      (∀ fixed loaded : List Nat,
        ¬ (BoundaryGeometry.tagManually pos_ index_i fixed = fixed ++ [index_i] ∧
          ForceBoundaryGeometry.tagManually findSignedDistance pos_ index_i loaded =
            loaded ++ [index_i])) ∧
      ¬ (index_i ∈ (BoundaryGeometry.construct total_real_particles_ pos_).body_part_particles_ ∧
        index_i ∈ (ForceBoundaryGeometry.construct total_real_particles_ findSignedDistance
          pos_).body_part_particles_) := by
  have hcond : ¬ (((pos_ index_i).1 < roundDouble (balloon_distal_end + balloon_fixed_length_distal) ∨
          (pos_ index_i).1 >
            roundDouble (roundDouble (balloon_distal_end + balloon_full_length) -
                balloon_fixed_length_proximal)) ∧
        (findSignedDistance (pos_ index_i) < roundDouble (roundDouble 0.7 * resolution_solid) ∧
          (pos_ index_i).1 > roundDouble (balloon_distal_end + balloon_fixed_length_distal) ∧
          (pos_ index_i).1 <
            roundDouble (roundDouble (balloon_distal_end + balloon_full_length) -
                balloon_fixed_length_proximal))) := by
    rintro ⟨h1 | h1, -, h2, h3⟩
    · exact absurd h1 (not_lt.mpr (le_of_lt h2))
    · exact absurd h1 (not_lt.mpr (le_of_lt h3))
  refine ⟨hcond, ?_, ?_⟩
  · intro fixed loaded hboth
    apply hcond
    unfold BoundaryGeometry.tagManually ForceBoundaryGeometry.tagManually at hboth
    constructor
    · by_contra hc
      have h1 := hboth.1
      rw [if_neg hc] at h1
      have := congrArg List.length h1
      simp at this
    · by_contra hc
      have h2 := hboth.2
      rw [if_neg hc] at h2
      have := congrArg List.length h2
      simp at this
  · rw [BoundaryGeometry.construct_fixed_filter, ForceBoundaryGeometry.construct_force_filter]
    rintro ⟨h1, h2⟩
    rw [List.mem_filter] at h1 h2
    exact hcond ⟨of_decide_eq_true h1.2, of_decide_eq_true h2.2⟩

/-! ## Claims on the wavy channel constants -/

/-- Claim C28. The constants of the wavy channel case are the general initializers at
`DH = 1`, `y_p_constant = 0.025`, `num_fluid_cross_section = 60`; they give
`offset_distance = 1/59`, which is not negative; and for every `num_fluid_cross_section > 1`
the offset distance is not negative exactly when
`2 * num_fluid_cross_section * y_p_constant >= DH`. -/
theorem offset_distance_nonneg :
    DH = 1 ∧ y_p_constant = 25 / 1000 ∧ num_fluid_cross_section = 60 ∧
      resolution_ref = resolutionRefOf DH y_p_constant num_fluid_cross_section ∧
      offset_distance = offsetDistanceOf DH y_p_constant num_fluid_cross_section ∧
      offset_distance = 1 / 59 ∧ 0 ≤ offset_distance ∧
      ∀ height y_p number : Real, 1 < number →
        (0 ≤ offsetDistanceOf height y_p number ↔ 2 * number * y_p ≥ height) := by
  refine ⟨by norm_num [DH], by norm_num [y_p_constant], by norm_num [num_fluid_cross_section],
    rfl, rfl, ?_, ?_, ?_⟩
  · norm_num [offset_distance, resolution_ref, DH, y_p_constant, num_fluid_cross_section]
  · norm_num [offset_distance, resolution_ref, DH, y_p_constant, num_fluid_cross_section]
  · intro height y_p number hn
    unfold offsetDistanceOf resolutionRefOf
    have hpos : (0 : Real) < number - 1 := by linarith
    have h1 : (height - 2.0 * y_p) / (number - 1.0) / 2.0 =
        (height - 2 * y_p) / (2 * (number - 1)) := by
      norm_num
      field_simp
      left
      ring
    rw [h1, sub_nonneg, div_le_iff₀ (by linarith)]
    constructor
    · intro h; nlinarith
    · intro h; nlinarith

/-- Witness of C28: the general equivalence at the configured constants. -/
theorem offset_distance_nonneg_witness :
    (1 : Real) < 60 ∧
      (0 ≤ offsetDistanceOf 1 (25 / 1000) 60 ↔ 2 * (60 : Real) * (25 / 1000) ≥ 1) :=
  ⟨by norm_num, offset_distance_nonneg.2.2.2.2.2.2.2 1 (25 / 1000) 60 (by norm_num)⟩

/-! ## Claims on the mesh output to VTU -/

theorem foldl_push_const (type : Nat) (n k : Nat) :
    ∀ out : List Nat,
      (List.range' k n).foldl (fun acc _ => acc ++ [type]) out =
        out ++ List.replicate n type := by
  induction n generalizing k with
  | zero => intro out; simp
  | succ n ih =>
    intro out
    rw [List.range'_succ, List.foldl_cons, ih (k + 1), List.replicate_succ]
    simp

/-- The loops of `FileTypeOfCell` return, and write `type` once for every node index of every
element. -/
theorem BodyStatesRecordingToMeshVtu.typesLoop_eq (type : Nat)
    (elements_nodes_connection_ : List (List Nat)) :
    ∀ out : List Nat,
      BodyStatesRecordingToMeshVtu.typesLoop type elements_nodes_connection_ out =
        some (out ++
          List.replicate (elements_nodes_connection_.map List.length).sum type) := by
  induction elements_nodes_connection_ with
  | nil => intro out; simp [BodyStatesRecordingToMeshVtu.typesLoop]
  | cons types rest ih =>
    intro out
    have h := forLtM_eq_foldl (fun _ (o : List Nat) => some (o ++ [type]))
      (fun _ o => o ++ [type]) (fun _ _ => rfl) types.length 0 out
    rw [Nat.zero_add] at h
    rw [BodyStatesRecordingToMeshVtu.typesLoop, h]
    simp only []
    rw [ih, foldl_push_const, List.map_cons, List.sum_cons, List.replicate_add]
    simp

theorem BodyStatesRecordingToMeshVtu.offsetsLoop_eq
    (elements_nodes_connection_ : List (List Nat)) :
    ∀ (offset : Nat) (out : List Nat),
      BodyStatesRecordingToMeshVtu.offsetsLoop elements_nodes_connection_ (offset, out) =
        (offset + (elements_nodes_connection_.map List.length).sum,
          out ++ (List.range elements_nodes_connection_.length).map (fun k =>
            offset + ((elements_nodes_connection_.take (k + 1)).map List.length).sum)) := by
  induction elements_nodes_connection_ with
  | nil => intro offset out; simp [BodyStatesRecordingToMeshVtu.offsetsLoop]
  | cons face rest ih =>
    intro offset out
    have hstep : BodyStatesRecordingToMeshVtu.offsetsLoop (face :: rest) (offset, out) =
        BodyStatesRecordingToMeshVtu.offsetsLoop rest
          (offset + face.length, out ++ [offset + face.length]) := rfl
    rw [hstep, ih, List.length_cons, List.range_succ_eq_map]
    simp [Nat.add_assoc, List.map_map, Function.comp_def]

theorem BodyStatesRecordingToMeshVtu.FileOffsets_eq
    (elements_nodes_connection_ : List (List Nat)) :
    BodyStatesRecordingToMeshVtu.FileOffsets elements_nodes_connection_ =
      (List.range elements_nodes_connection_.length).map (fun k =>
        ((elements_nodes_connection_.take (k + 1)).map List.length).sum) := by
  unfold BodyStatesRecordingToMeshVtu.FileOffsets
  rw [BodyStatesRecordingToMeshVtu.offsetsLoop_eq]
  simp

theorem BodyStatesRecordingToMeshVtu.connectivityLoop_length
    (elements_nodes_connection_ : List (List Nat)) :
    ∀ out : List Nat,
      (elements_nodes_connection_.foldl
        (fun out0 cell => cell.foldl (fun out1 vertex => out1 ++ [vertex]) out0) out).length =
        out.length + (elements_nodes_connection_.map List.length).sum := by
  have hinner : ∀ (cell out : List Nat),
      cell.foldl (fun out1 vertex => out1 ++ [vertex]) out = out ++ cell := by
    intro cell
    induction cell with
    | nil => intro out; simp
    | cons v vs ihc => intro out; rw [List.foldl_cons, ihc]; simp
  induction elements_nodes_connection_ with
  | nil => intro out; simp
  | cons cell rest ih =>
    intro out
    rw [List.foldl_cons, ih, hinner]
    simp [Nat.add_assoc]

theorem sum_take_le_sum_take (l : List Nat) (a b : Nat) (hab : a ≤ b) :
    (l.take a).sum ≤ (l.take b).sum := by
  induction l generalizing a b with
  | nil => simp
  | cons x xs ih =>
    cases a with
    | zero => simp
    | succ a =>
      cases b with
      | zero => omega
      | succ b =>
        rw [List.take_succ_cons, List.take_succ_cons, List.sum_cons, List.sum_cons]
        exact Nat.add_le_add_left (ih a b (by omega)) x

theorem BodyStatesRecordingToMeshVtu.FileOffsets_getElem?
    (elements_nodes_connection_ : List (List Nat)) (k : Nat)
    (hk : k < elements_nodes_connection_.length) :
    (BodyStatesRecordingToMeshVtu.FileOffsets elements_nodes_connection_)[k]? =
      some (((elements_nodes_connection_.take (k + 1)).map List.length).sum) := by
  rw [BodyStatesRecordingToMeshVtu.FileOffsets_eq, List.getElem?_map,
    List.getElem?_range hk]
  rfl

theorem BodyStatesRecordingToMeshVtu.FileOffsets_getLast?
    (elements_nodes_connection_ : List (List Nat)) (hne : elements_nodes_connection_ ≠ []) :
    (BodyStatesRecordingToMeshVtu.FileOffsets elements_nodes_connection_).getLast? =
      some ((elements_nodes_connection_.map List.length).sum) := by
  have hpos : 0 < elements_nodes_connection_.length := List.length_pos.mpr hne
  have hlen : (BodyStatesRecordingToMeshVtu.FileOffsets elements_nodes_connection_).length =
      elements_nodes_connection_.length := by
    rw [BodyStatesRecordingToMeshVtu.FileOffsets_eq]; simp
  rw [List.getLast?_eq_getElem?, hlen,
    BodyStatesRecordingToMeshVtu.FileOffsets_getElem? _ _ (by omega)]
  have h1 : elements_nodes_connection_.length - 1 + 1 = elements_nodes_connection_.length := by
    omega
  rw [h1, List.take_length]

/-- Claim C26, as the code behaves: for every element connection list `FileTypeOfCell`
writes the value 10 once for every node index of every element, not once per element; on the
single tetrahedron `[0, 1, 2, 3]` the `types` array gets four entries while `NumberOfCells`
is 1 and the `offsets` array has one entry. -/
theorem BodyStatesRecordingToMeshVtu.FileTypeOfCell_entries :
    (∀ elements_nodes_connection_ : List (List Nat),
        BodyStatesRecordingToMeshVtu.FileTypeOfCell elements_nodes_connection_ =
          some (List.replicate (elements_nodes_connection_.map List.length).sum 10)) ∧
      BodyStatesRecordingToMeshVtu.FileTypeOfCell [[0, 1, 2, 3]] = some [10, 10, 10, 10] ∧
      BodyStatesRecordingToMeshVtu.NumberOfCells [[0, 1, 2, 3]] = 1 ∧
      (BodyStatesRecordingToMeshVtu.FileOffsets [[0, 1, 2, 3]]).length = 1 := by
  refine ⟨?_, by decide, by decide, by decide⟩
  intro elements_nodes_connection_
  unfold BodyStatesRecordingToMeshVtu.FileTypeOfCell
  rw [BodyStatesRecordingToMeshVtu.typesLoop_eq, List.nil_append]

/-- Claim C27. For every element connection list `FileOffsets` writes one offset per
element; the entry at position `k` (counted from 0) is the number of node indices of the
first `k + 1` elements; the sequence is non-decreasing; on a list that is not empty its last
value is the number of indices written by `FileCellConnectivity`; and when moreover every
element has 4 nodes, the first value is the declared `RangeMin` and the last value the
declared `RangeMax`. -/
theorem BodyStatesRecordingToMeshVtu.FileOffsets_prefix_sums
    (elements_nodes_connection_ : List (List Nat)) :
    (BodyStatesRecordingToMeshVtu.FileOffsets elements_nodes_connection_).length =
        elements_nodes_connection_.length ∧
      (∀ k, k < elements_nodes_connection_.length →
        (BodyStatesRecordingToMeshVtu.FileOffsets elements_nodes_connection_)[k]? =
          some (((elements_nodes_connection_.take (k + 1)).map List.length).sum)) ∧
      List.Pairwise (fun a b => a ≤ b)
        (BodyStatesRecordingToMeshVtu.FileOffsets elements_nodes_connection_) ∧
      (elements_nodes_connection_ ≠ [] →
        (BodyStatesRecordingToMeshVtu.FileOffsets elements_nodes_connection_).getLast? =
          some (BodyStatesRecordingToMeshVtu.FileCellConnectivity
            elements_nodes_connection_).length) ∧
      (elements_nodes_connection_ ≠ [] →
        (∀ face, face ∈ elements_nodes_connection_ → face.length = 4) →
        (BodyStatesRecordingToMeshVtu.FileOffsets elements_nodes_connection_).head? =
            some BodyStatesRecordingToMeshVtu.offsetsRangeMin ∧
          (BodyStatesRecordingToMeshVtu.FileOffsets elements_nodes_connection_).getLast? =
            some (BodyStatesRecordingToMeshVtu.offsetsRangeMax elements_nodes_connection_)) := by
  refine ⟨?_, ?_, ?_, ?_, ?_⟩
  · rw [BodyStatesRecordingToMeshVtu.FileOffsets_eq]; simp
  · intro k hk
    exact BodyStatesRecordingToMeshVtu.FileOffsets_getElem? _ k hk
  · rw [BodyStatesRecordingToMeshVtu.FileOffsets_eq, List.pairwise_map]
    refine List.Pairwise.imp ?_ (List.pairwise_lt_range _)
    intro a b hab
    rw [List.map_take, List.map_take]
    exact sum_take_le_sum_take _ _ _ (by omega)
  · intro hne
    rw [BodyStatesRecordingToMeshVtu.FileOffsets_getLast? _ hne]
    unfold BodyStatesRecordingToMeshVtu.FileCellConnectivity
    rw [BodyStatesRecordingToMeshVtu.connectivityLoop_length]
    simp
  · intro hne hfour
    have hsum : ∀ l : List (List Nat), (∀ face, face ∈ l → face.length = 4) →
        (l.map List.length).sum = 4 * l.length := by
      intro l
      induction l with
      | nil => intro _; rfl
      | cons x xs ih =>
        intro hx
        rw [List.map_cons, List.sum_cons, List.length_cons, hx x (List.mem_cons_self _ _),
          ih (fun face hf => hx face (List.mem_cons_of_mem _ hf))]
        omega
    constructor
    · cases helems : elements_nodes_connection_ with
      | nil => exact absurd helems hne
      | cons face rest =>
        have hf : face.length = 4 := hfour face (by rw [helems]; exact List.mem_cons_self _ _)
        rw [BodyStatesRecordingToMeshVtu.FileOffsets_eq, List.length_cons,
          List.range_succ_eq_map]
        simp [hf, BodyStatesRecordingToMeshVtu.offsetsRangeMin]
    · rw [BodyStatesRecordingToMeshVtu.FileOffsets_getLast? _ hne, hsum _ hfour]
      rfl

/-- Witness of C27: two tetrahedra give the offsets 4 and 8. -/
theorem BodyStatesRecordingToMeshVtu.FileOffsets_prefix_sums_witness :
    ([[0, 1, 2, 3], [1, 2, 3, 4]] : List (List Nat)) ≠ [] ∧
      (∀ face, face ∈ ([[0, 1, 2, 3], [1, 2, 3, 4]] : List (List Nat)) → face.length = 4) ∧
      (1 : Nat) < ([[0, 1, 2, 3], [1, 2, 3, 4]] : List (List Nat)).length ∧
      (BodyStatesRecordingToMeshVtu.FileOffsets [[0, 1, 2, 3], [1, 2, 3, 4]])[1]? =
        some ((([[0, 1, 2, 3], [1, 2, 3, 4]] : List (List Nat)).take (1 + 1)).map
          List.length).sum ∧
      (BodyStatesRecordingToMeshVtu.FileOffsets [[0, 1, 2, 3], [1, 2, 3, 4]]).getLast? =
        some (BodyStatesRecordingToMeshVtu.FileCellConnectivity
          [[0, 1, 2, 3], [1, 2, 3, 4]]).length ∧
      (BodyStatesRecordingToMeshVtu.FileOffsets [[0, 1, 2, 3], [1, 2, 3, 4]]).head? =
        some BodyStatesRecordingToMeshVtu.offsetsRangeMin ∧
      (BodyStatesRecordingToMeshVtu.FileOffsets [[0, 1, 2, 3], [1, 2, 3, 4]]).getLast? =
        some (BodyStatesRecordingToMeshVtu.offsetsRangeMax [[0, 1, 2, 3], [1, 2, 3, 4]]) :=
  ⟨by decide, by decide, by decide,
    (BodyStatesRecordingToMeshVtu.FileOffsets_prefix_sums [[0, 1, 2, 3], [1, 2, 3, 4]]).2.1 1
      (by decide),
    (BodyStatesRecordingToMeshVtu.FileOffsets_prefix_sums
      [[0, 1, 2, 3], [1, 2, 3, 4]]).2.2.2.1 (by decide),
    (BodyStatesRecordingToMeshVtu.FileOffsets_prefix_sums
      [[0, 1, 2, 3], [1, 2, 3, 4]]).2.2.2.2 (by decide) (by decide)⟩

/-! ## Claims on the advection time step -/

theorem SMAX_eq_max (a b : Real) : SMAX a b = max a b := by
  unfold SMAX
  split
  · rename_i h; exact (max_eq_left (le_of_lt h)).symm
  · rename_i h; exact (max_eq_right (not_lt.mp h)).symm

theorem exampleSqrt_nonneg (v : Real) : 0 ≤ exampleSqrt v := by
  unfold exampleSqrt
  exact Nat.cast_nonneg _

theorem exampleSqrt_zero : exampleSqrt 0 = 0 := by
  unfold exampleSqrt
  simp

/-- Claim C25, the claimed upper bound refuted: with `advectionCFL = 1`, `h_min = 1`,
`TinyReal = 1/1000`, reduced value 0 and the reference speed `U_ref = -1`, the result is
1000 while `advectionCFL * h_min / (speed_ref + TinyReal)` is negative. -/
theorem AdvectionTimeStepCK.FinishDynamics.Result_bound_counterexample :
    (0 : Real) < 1 ∧ (0 : Real) < 1 / 1000 ∧ (∀ v, 0 ≤ v → 0 ≤ exampleSqrt v) ∧
      ¬ (AdvectionTimeStepCK.FinishDynamics.Result exampleSqrt (1 / 1000)
          (AdvectionTimeStepCK.FinishDynamics.construct
            (AdvectionTimeStepCK.construct 1 (-1) 1)) 0 ≤
        1 * 1 / (-1 + 1 / 1000)) := by
  refine ⟨by norm_num, by norm_num, fun v _ => exampleSqrt_nonneg v, ?_⟩
  unfold AdvectionTimeStepCK.FinishDynamics.Result AdvectionTimeStepCK.FinishDynamics.construct
    AdvectionTimeStepCK.construct
  simp only []
  rw [exampleSqrt_zero, SMAX_eq_max]
  norm_num

/-- Claim C25, amended: for positive `advectionCFL`, `h_min` and `TinyReal`, a reduced value
`v >= 0` and a square root that is not negative on such values, the denominator of
`Result(v)` is strictly positive for the plain and for the viscous variant, `Result(v)` is
`advectionCFL * h_min / (max(sqrt(v), speed_ref) + TinyReal)`, the viscous variant's time
step never exceeds the plain one for the same `U_ref`, CFL, `h_min` and `v`, and the bound
`Result(v) <= advectionCFL * h_min / (speed_ref + TinyReal)` holds when
`speed_ref + TinyReal` is positive. -/
theorem AdvectionTimeStepCK.FinishDynamics.Result_bounds (sqrt : Real → Real)
    (TinyReal MinimumSmoothingLength ReferenceViscosity ReferenceDensity U_ref advectionCFL
      v : Real)
    (hCFL : 0 < advectionCFL) (hh : 0 < MinimumSmoothingLength) (hTiny : 0 < TinyReal)
    (hv : 0 ≤ v) (hsqrt : ∀ x, 0 ≤ x → 0 ≤ sqrt x) :
    0 < SMAX (sqrt v)
          (AdvectionTimeStepCK.FinishDynamics.construct
            (AdvectionTimeStepCK.construct MinimumSmoothingLength U_ref
              advectionCFL)).speed_ref_ + TinyReal ∧
      0 < SMAX (sqrt v)
          (AdvectionTimeStepCK.FinishDynamics.construct
            (AdvectionViscousTimeStepCK.construct MinimumSmoothingLength ReferenceViscosity
              ReferenceDensity U_ref advectionCFL)).speed_ref_ + TinyReal ∧
      AdvectionTimeStepCK.FinishDynamics.Result sqrt TinyReal
          (AdvectionTimeStepCK.FinishDynamics.construct
            (AdvectionTimeStepCK.construct MinimumSmoothingLength U_ref advectionCFL)) v =
        advectionCFL * MinimumSmoothingLength / (max (sqrt v) U_ref + TinyReal) ∧
      AdvectionTimeStepCK.FinishDynamics.Result sqrt TinyReal
          (AdvectionTimeStepCK.FinishDynamics.construct
            (AdvectionViscousTimeStepCK.construct MinimumSmoothingLength ReferenceViscosity
              ReferenceDensity U_ref advectionCFL)) v ≤
        AdvectionTimeStepCK.FinishDynamics.Result sqrt TinyReal
          (AdvectionTimeStepCK.FinishDynamics.construct
            (AdvectionTimeStepCK.construct MinimumSmoothingLength U_ref advectionCFL)) v ∧
      (0 < U_ref + TinyReal →
        AdvectionTimeStepCK.FinishDynamics.Result sqrt TinyReal
            (AdvectionTimeStepCK.FinishDynamics.construct
              (AdvectionTimeStepCK.construct MinimumSmoothingLength U_ref advectionCFL)) v ≤
          advectionCFL * MinimumSmoothingLength / (U_ref + TinyReal)) := by
  have hs : 0 ≤ sqrt v := hsqrt v hv
  have hnum : 0 ≤ advectionCFL * MinimumSmoothingLength := le_of_lt (mul_pos hCFL hh)
  unfold AdvectionTimeStepCK.FinishDynamics.Result AdvectionTimeStepCK.FinishDynamics.construct
    AdvectionViscousTimeStepCK.construct AdvectionTimeStepCK.construct
  simp only [SMAX_eq_max]
  have h1 : 0 < max (sqrt v) U_ref + TinyReal :=
    lt_of_lt_of_le hTiny (by linarith [le_max_left (sqrt v) U_ref])
  have hmono : max (sqrt v) U_ref ≤
      max (sqrt v) (max (ReferenceViscosity / ReferenceDensity / MinimumSmoothingLength) U_ref) :=
    max_le_max (le_refl _) (le_max_right _ _)
  refine ⟨h1, by linarith, trivial, ?_, ?_⟩
  · exact div_le_div_of_nonneg_left hnum h1 (by linarith)
  · intro hpos
    exact div_le_div_of_nonneg_left hnum hpos (by linarith [le_max_right (sqrt v) U_ref])

/-- Witness of C25: `advectionCFL = 1/4`, `h_min = 1/10`, `TinyReal = 1/1000`, viscosity 1,
density 1000, `U_ref = 1` and the reduced value 4. -/
theorem AdvectionTimeStepCK.FinishDynamics.Result_bounds_witness :
    (0 : Real) < 1 / 4 ∧ (0 : Real) < 1 / 10 ∧ (0 : Real) < 1 / 1000 ∧ (0 : Real) ≤ 4 ∧
      (∀ x, 0 ≤ x → 0 ≤ exampleSqrt x) ∧ (0 : Real) < 1 + 1 / 1000 ∧
      AdvectionTimeStepCK.FinishDynamics.Result exampleSqrt (1 / 1000)
          (AdvectionTimeStepCK.FinishDynamics.construct
            (AdvectionViscousTimeStepCK.construct (1 / 10) 1 1000 1 (1 / 4))) 4 ≤
        AdvectionTimeStepCK.FinishDynamics.Result exampleSqrt (1 / 1000)
          (AdvectionTimeStepCK.FinishDynamics.construct
            (AdvectionTimeStepCK.construct (1 / 10) 1 (1 / 4))) 4 ∧
      AdvectionTimeStepCK.FinishDynamics.Result exampleSqrt (1 / 1000)
          (AdvectionTimeStepCK.FinishDynamics.construct
            (AdvectionTimeStepCK.construct (1 / 10) 1 (1 / 4))) 4 ≤
        1 / 4 * (1 / 10) / (1 + 1 / 1000) :=
  ⟨by norm_num, by norm_num, by norm_num, by norm_num, fun x _ => exampleSqrt_nonneg x,
    by norm_num,
    (AdvectionTimeStepCK.FinishDynamics.Result_bounds exampleSqrt (1 / 1000) (1 / 10) 1 1000 1
      (1 / 4) 4 (by norm_num) (by norm_num) (by norm_num) (by norm_num)
      (fun x _ => exampleSqrt_nonneg x)).2.2.2.1,
    (AdvectionTimeStepCK.FinishDynamics.Result_bounds exampleSqrt (1 / 1000) (1 / 10) 1 1000 1
      (1 / 4) 4 (by norm_num) (by norm_num) (by norm_num) (by norm_num)
      (fun x _ => exampleSqrt_nonneg x)).2.2.2.2 (by norm_num)⟩

/-! ## Claims on the time stepping of `run_simulation` -/

theorem SMIN_eq_min (a b : Real) : SMIN a b = min a b := by
  unfold SMIN
  split
  · rename_i h; exact (min_eq_left (le_of_lt h)).symm
  · rename_i h; exact (min_eq_right (not_lt.mp h)).symm

/-- The solid loop keeps `dt_s_sum <= dt`, leaves with equality when its condition fails, and
its final `dt_s_sum` is the starting one plus the steps taken. -/
theorem run_simulation_solid_loop_invariant (dt_s_ref dt : Real) (dt_s_temp : Nat → Real) :
    ∀ (fuel m : Nat) (dt_s_sum : Real), dt_s_sum ≤ dt →
      (run_simulation_solid_loop id dt_s_ref dt dt_s_temp fuel m dt_s_sum).dt_s_sum ≤ dt ∧
      ((run_simulation_solid_loop id dt_s_ref dt dt_s_temp fuel m dt_s_sum).exit =
          LoopExit.finished →
        (run_simulation_solid_loop id dt_s_ref dt dt_s_temp fuel m dt_s_sum).dt_s_sum = dt) ∧
      (run_simulation_solid_loop id dt_s_ref dt dt_s_temp fuel m dt_s_sum).dt_s_sum =
        dt_s_sum +
          ((run_simulation_solid_loop id dt_s_ref dt dt_s_temp fuel m dt_s_sum).steps.map
            Prod.snd).sum ∧
      ∀ p, p ∈ (run_simulation_solid_loop id dt_s_ref dt dt_s_temp fuel m dt_s_sum).steps →
        p.1 < dt ∧ p.1 + p.2 ≤ dt := by
  intro fuel
  induction fuel with
  | zero =>
    intro m s hs
    simp [run_simulation_solid_loop, hs]
  | succ fuel ih =>
    intro m s hs
    rw [run_simulation_solid_loop]
    simp only [id_eq]
    by_cases hlt : s < dt
    · rw [if_pos hlt]
      by_cases hthrow : dt_s_temp m < dt_s_ref / 100
      · rw [if_pos hthrow]
        simp [hs]
      · rw [if_neg hthrow]
        simp only []
        have hstep : s + min (dt_s_temp m) (dt - s) ≤ dt := by
          have := min_le_right (dt_s_temp m) (dt - s)
          linarith
        obtain ⟨h1, h2, h3, h4⟩ := ih (m + 1) (s + min (dt_s_temp m) (dt - s)) hstep
        refine ⟨h1, h2, ?_, ?_⟩
        · rw [h3, List.map_cons, List.sum_cons]
          ring
        · intro p hp
          rcases List.mem_cons.mp hp with hp | hp
          · rw [hp]
            exact ⟨hlt, hstep⟩
          · exact h4 p hp
    · rw [if_neg hlt]
      simp only []
      refine ⟨hs, fun _ => le_antisymm hs (not_lt.mp hlt), by simp, by simp⟩

/-- Every solid iteration that passes the check advances by at least
`min(dt_s_ref / 100, dt - dt_s_sum)`. -/
theorem run_simulation_solid_loop_advance (dt_s_ref dt : Real) (dt_s_temp : Nat → Real) :
    ∀ (fuel m : Nat) (dt_s_sum : Real) (p : Real × Real),
      p ∈ (run_simulation_solid_loop id dt_s_ref dt dt_s_temp fuel m dt_s_sum).steps →
        min (dt_s_ref / 100) (dt - p.1) ≤ p.2 := by
  intro fuel
  induction fuel with
  | zero =>
    intro m s p hp
    simp [run_simulation_solid_loop] at hp
  | succ fuel ih =>
    intro m s p hp
    rw [run_simulation_solid_loop] at hp
    simp only [id_eq] at hp
    by_cases hlt : s < dt
    · rw [if_pos hlt] at hp
      by_cases hthrow : dt_s_temp m < dt_s_ref / 100
      · rw [if_pos hthrow] at hp
        simp at hp
      · rw [if_neg hthrow] at hp
        simp only [] at hp
        rcases List.mem_cons.mp hp with hp | hp
        · rw [hp]
          exact min_le_min (not_lt.mp hthrow) (le_refl _)
        · exact ih _ _ p hp
    · rw [if_neg hlt] at hp
      simp at hp

/-- With `dt_s_ref > 0` the solid loop needs at most `N` iterations when the time left is at
most `N` times `dt_s_ref / 100`, and more fuel than that is never used up. -/
theorem run_simulation_solid_loop_bound (dt_s_ref dt : Real) (dt_s_temp : Nat → Real)
    (href : 0 < dt_s_ref) :
    ∀ (fuel m : Nat) (dt_s_sum : Real) (N : Nat),
      dt - dt_s_sum ≤ (N : Real) * (dt_s_ref / 100) → N < fuel →
        (run_simulation_solid_loop id dt_s_ref dt dt_s_temp fuel m dt_s_sum).exit ≠
            LoopExit.outOfFuel ∧
          (run_simulation_solid_loop id dt_s_ref dt dt_s_temp fuel m dt_s_sum).iterations ≤ N := by
  intro fuel
  induction fuel with
  | zero => intro m s N _ hN; omega
  | succ fuel ih =>
    intro m s N hleft hN
    rw [run_simulation_solid_loop]
    simp only [id_eq]
    by_cases hlt : s < dt
    · rw [if_pos hlt]
      have hNpos : 0 < N := by
        rcases Nat.eq_zero_or_pos N with h0 | h0
        · rw [h0] at hleft
          simp at hleft
          linarith
        · exact h0
      by_cases hthrow : dt_s_temp m < dt_s_ref / 100
      · rw [if_pos hthrow]
        exact ⟨by simp, hNpos⟩
      · rw [if_neg hthrow]
        simp only []
        obtain ⟨k, hk⟩ : ∃ k, N = k + 1 := ⟨N - 1, by omega⟩
        have hleft2 : dt - (s + min (dt_s_temp m) (dt - s)) ≤ (k : Real) * (dt_s_ref / 100) := by
          have hkn : (0 : Real) ≤ (k : Real) * (dt_s_ref / 100) :=
            mul_nonneg (Nat.cast_nonneg k) (by linarith)
          rw [hk] at hleft
          push_cast at hleft
          rcases min_choice (dt_s_temp m) (dt - s) with hmin | hmin
          · rw [hmin]
            have := not_lt.mp hthrow
            linarith
          · rw [hmin]
            linarith
        obtain ⟨h1, h2⟩ := ih (m + 1) (s + min (dt_s_temp m) (dt - s)) k hleft2 (by omega)
        exact ⟨h1, by omega⟩
    · rw [if_neg hlt]
      exact ⟨by simp, Nat.zero_le _⟩

theorem le_ceil_mul_div (x r c : Real) (hr : 0 < r) (hc : 0 < c) :
    x ≤ ((Nat.ceil (c * x / r) : Nat) : Real) * (r / c) := by
  have h := Nat.le_ceil (c * x / r)
  have hrc : 0 < r / c := div_pos hr hc
  have h2 := mul_le_mul_of_nonneg_right h (le_of_lt hrc)
  have h3 : c * x / r * (r / c) = x := by
    field_simp
  linarith

/-- The acoustic loop keeps `relaxation_time <= Dt`, leaves with equality when its condition
fails, and every solid loop inside it keeps `dt_s_sum <= dt` and ends at `dt`. -/
theorem run_simulation_acoustic_loop_invariant (dt_ref dt_s_ref Dt : Real)
    (dt_temp : Nat → Real) (dt_s_temp : Nat → Nat → Real) (solidFuel : Nat)
    (href : 0 ≤ dt_ref) :
    ∀ (fuel n : Nat) (relaxation_time : Real), relaxation_time ≤ Dt →
      (run_simulation_acoustic_loop id dt_ref dt_s_ref Dt dt_temp dt_s_temp solidFuel fuel n
          relaxation_time).relaxation_time ≤ Dt ∧
      ((run_simulation_acoustic_loop id dt_ref dt_s_ref Dt dt_temp dt_s_temp solidFuel fuel n
          relaxation_time).exit = LoopExit.finished →
        (run_simulation_acoustic_loop id dt_ref dt_s_ref Dt dt_temp dt_s_temp solidFuel fuel n
            relaxation_time).relaxation_time = Dt ∧
          relaxation_time +
              ((run_simulation_acoustic_loop id dt_ref dt_s_ref Dt dt_temp dt_s_temp solidFuel
                fuel n relaxation_time).steps.map AcousticStep.dt).sum = Dt) ∧
      ∀ step, step ∈ (run_simulation_acoustic_loop id dt_ref dt_s_ref Dt dt_temp dt_s_temp
          solidFuel fuel n relaxation_time).steps →
        step.relaxation_time < Dt ∧ step.relaxation_time + step.dt ≤ Dt ∧
          step.solid.dt_s_sum ≤ step.dt ∧
          (step.solid.exit = LoopExit.finished →
            step.solid.dt_s_sum = step.dt ∧ (step.solid.steps.map Prod.snd).sum = step.dt) ∧
          ∀ p, p ∈ step.solid.steps → p.1 < step.dt ∧ p.1 + p.2 ≤ step.dt := by
  intro fuel
  induction fuel with
  | zero =>
    intro n t ht
    simp [run_simulation_acoustic_loop, ht]
  | succ fuel ih =>
    intro n t ht
    rw [run_simulation_acoustic_loop]
    simp only [id_eq]
    by_cases hlt : t < Dt
    · rw [if_pos hlt]
      by_cases hthrow : dt_temp n < dt_ref / 20
      · rw [if_pos hthrow]
        simp [ht]
      · rw [if_neg hthrow]
        have hdt_le : SMIN (dt_temp n) (Dt - t) ≤ Dt - t := by
          rw [SMIN_eq_min]; exact min_le_right _ _
        have hdt_nonneg : 0 ≤ SMIN (dt_temp n) (Dt - t) := by
          rw [SMIN_eq_min]
          exact le_min (by linarith [not_lt.mp hthrow]) (by linarith)
        obtain ⟨s1, s2, s3, s4⟩ := run_simulation_solid_loop_invariant dt_s_ref
          (SMIN (dt_temp n) (Dt - t)) (dt_s_temp n) solidFuel 0 0 hdt_nonneg
        have hrec : ∀ step : AcousticStep,
            step = { relaxation_time := t, dt := SMIN (dt_temp n) (Dt - t),
                     solid := run_simulation_solid_loop id dt_s_ref (SMIN (dt_temp n) (Dt - t))
                       (dt_s_temp n) solidFuel 0 0 } →
            step.relaxation_time < Dt ∧ step.relaxation_time + step.dt ≤ Dt ∧
              step.solid.dt_s_sum ≤ step.dt ∧
              (step.solid.exit = LoopExit.finished →
                step.solid.dt_s_sum = step.dt ∧
                  (step.solid.steps.map Prod.snd).sum = step.dt) ∧
              ∀ p, p ∈ step.solid.steps → p.1 < step.dt ∧ p.1 + p.2 ≤ step.dt := by
          intro step hstep
          rw [hstep]
          refine ⟨hlt, by simp only []; linarith, s1, ?_, s4⟩
          intro hfin
          have h2 := s2 hfin
          refine ⟨h2, ?_⟩
          simp only [] at h2 s3 ⊢
          linarith
        split
        · simp only []
          obtain ⟨h1, h2, h3⟩ := ih (n + 1) (t + SMIN (dt_temp n) (Dt - t)) (by linarith)
          refine ⟨h1, ?_, ?_⟩
          · intro hfin
            obtain ⟨h2a, h2b⟩ := h2 hfin
            refine ⟨h2a, ?_⟩
            rw [List.map_cons, List.sum_cons]
            simp only []
            linarith
          · intro step hstep
            rcases List.mem_cons.mp hstep with hs | hs
            · exact hrec step hs
            · exact h3 step hs
        · rename_i hnot
          simp only []
          refine ⟨ht, ?_, ?_⟩
          · intro hfin
            exact absurd hfin (hnot)
          · intro step hstep
            exact hrec step (List.mem_singleton.mp hstep)
    · rw [if_neg hlt]
      simp only []
      refine ⟨ht, fun _ => ⟨le_antisymm ht (not_lt.mp hlt), ?_⟩, by simp⟩
      rw [List.map_nil, List.sum_nil, add_zero]
      exact le_antisymm ht (not_lt.mp hlt)

/-- With `dt_ref > 0` and `dt_s_ref > 0` the acoustic loop needs at most `N` iterations when
the time left is at most `N` times `dt_ref / 20`; more fuel than that is never used up, and
the same holds for every solid loop inside it. -/
theorem run_simulation_acoustic_loop_bound (dt_ref dt_s_ref Dt : Real)
    (dt_temp : Nat → Real) (dt_s_temp : Nat → Nat → Real) (solidFuel : Nat)
    (href : 0 < dt_ref) (hsref : 0 < dt_s_ref)
    (hsolid : Nat.ceil (100 * Dt / dt_s_ref) < solidFuel) :
    ∀ (fuel n : Nat) (relaxation_time : Real) (N : Nat), 0 ≤ relaxation_time →
      Dt - relaxation_time ≤ (N : Real) * (dt_ref / 20) → N < fuel →
        (run_simulation_acoustic_loop id dt_ref dt_s_ref Dt dt_temp dt_s_temp solidFuel fuel n
            relaxation_time).exit ≠ LoopExit.outOfFuel ∧
          (run_simulation_acoustic_loop id dt_ref dt_s_ref Dt dt_temp dt_s_temp solidFuel fuel n
            relaxation_time).iterations ≤ N ∧
          ∀ step, step ∈ (run_simulation_acoustic_loop id dt_ref dt_s_ref Dt dt_temp dt_s_temp
              solidFuel fuel n relaxation_time).steps →
            min (dt_ref / 20) (Dt - step.relaxation_time) ≤ step.dt ∧
              step.solid.exit ≠ LoopExit.outOfFuel ∧
              step.solid.iterations ≤ Nat.ceil (100 * step.dt / dt_s_ref) ∧
              ∀ p, p ∈ step.solid.steps → min (dt_s_ref / 100) (step.dt - p.1) ≤ p.2 := by
  intro fuel
  induction fuel with
  | zero => intro n t N _ _ hN; omega
  | succ fuel ih =>
    intro n t N ht hleft hN
    rw [run_simulation_acoustic_loop]
    simp only [id_eq]
    by_cases hlt : t < Dt
    · rw [if_pos hlt]
      have hNpos : 0 < N := by
        rcases Nat.eq_zero_or_pos N with h0 | h0
        · rw [h0] at hleft
          simp at hleft
          linarith
        · exact h0
      by_cases hthrow : dt_temp n < dt_ref / 20
      · rw [if_pos hthrow]
        exact ⟨by simp, hNpos, by simp⟩
      · rw [if_neg hthrow]
        have hdt_le : SMIN (dt_temp n) (Dt - t) ≤ Dt := by
          rw [SMIN_eq_min]
          have := min_le_right (dt_temp n) (Dt - t)
          linarith
        have hdt_ge : min (dt_ref / 20) (Dt - t) ≤ SMIN (dt_temp n) (Dt - t) := by
          rw [SMIN_eq_min]
          exact min_le_min (not_lt.mp hthrow) (le_refl _)
        have hdt_pos : 0 < SMIN (dt_temp n) (Dt - t) :=
          lt_of_lt_of_le (lt_min (by linarith) (by linarith)) hdt_ge
        have hceil : Nat.ceil (100 * SMIN (dt_temp n) (Dt - t) / dt_s_ref) < solidFuel := by
          refine lt_of_le_of_lt (Nat.ceil_mono ?_) hsolid
          exact div_le_div_of_nonneg_right (by linarith) (le_of_lt hsref)
        obtain ⟨b1, b2⟩ := run_simulation_solid_loop_bound dt_s_ref
          (SMIN (dt_temp n) (Dt - t)) (dt_s_temp n) hsref solidFuel 0 0
          (Nat.ceil (100 * SMIN (dt_temp n) (Dt - t) / dt_s_ref))
          (by
            rw [sub_zero]
            exact le_ceil_mul_div _ dt_s_ref 100 hsref (by norm_num))
          hceil
        have hrec : ∀ step : AcousticStep,
            step = { relaxation_time := t, dt := SMIN (dt_temp n) (Dt - t),
                     solid := run_simulation_solid_loop id dt_s_ref (SMIN (dt_temp n) (Dt - t))
                       (dt_s_temp n) solidFuel 0 0 } →
            min (dt_ref / 20) (Dt - step.relaxation_time) ≤ step.dt ∧
              step.solid.exit ≠ LoopExit.outOfFuel ∧
              step.solid.iterations ≤ Nat.ceil (100 * step.dt / dt_s_ref) ∧
              ∀ p, p ∈ step.solid.steps → min (dt_s_ref / 100) (step.dt - p.1) ≤ p.2 := by
          intro step hstep
          rw [hstep]
          exact ⟨hdt_ge, b1, b2, fun p hp =>
            run_simulation_solid_loop_advance dt_s_ref _ (dt_s_temp n) solidFuel 0 0 p hp⟩
        split
        · simp only []
          obtain ⟨k, hk⟩ : ∃ k, N = k + 1 := ⟨N - 1, by omega⟩
          have hleft2 : Dt - (t + SMIN (dt_temp n) (Dt - t)) ≤ (k : Real) * (dt_ref / 20) := by
            have hkn : (0 : Real) ≤ (k : Real) * (dt_ref / 20) :=
              mul_nonneg (Nat.cast_nonneg k) (by linarith)
            rw [hk] at hleft
            push_cast at hleft
            rcases min_choice (dt_ref / 20) (Dt - t) with hmin | hmin
            · rw [hmin] at hdt_ge
              linarith
            · rw [hmin] at hdt_ge
              linarith
          obtain ⟨h1, h2, h3⟩ := ih (n + 1) (t + SMIN (dt_temp n) (Dt - t)) k (by linarith)
            hleft2 (by omega)
          refine ⟨h1, by omega, ?_⟩
          intro step hstep
          rcases List.mem_cons.mp hstep with hs | hs
          · exact hrec step hs
          · exact h3 step hs
        · simp only []
          refine ⟨b1, hNpos, ?_⟩
          intro step hstep
          exact hrec step (List.mem_singleton.mp hstep)
    · rw [if_neg hlt]
      exact ⟨by simp, Nat.zero_le _, by simp⟩

/-- Without a time step below `dt_s_ref / 100` the solid loop does not throw. -/
theorem run_simulation_solid_loop_no_throw (dt_s_ref dt : Real) (dt_s_temp : Nat → Real)
    (hpass : ∀ m, dt_s_ref / 100 ≤ dt_s_temp m) :
    ∀ (fuel m : Nat) (dt_s_sum : Real),
      (run_simulation_solid_loop id dt_s_ref dt dt_s_temp fuel m dt_s_sum).exit ≠
        LoopExit.thrown := by
  intro fuel
  induction fuel with
  | zero => intro m s; simp [run_simulation_solid_loop]
  | succ fuel ih =>
    intro m s
    rw [run_simulation_solid_loop]
    simp only [id_eq]
    by_cases hlt : s < dt
    · rw [if_pos hlt, if_neg (not_lt.mpr (hpass m))]
      exact ih _ _
    · rw [if_neg hlt]
      simp

/-- What the solid loop records: iteration `m + k` takes the step
`min(dt_s_temp, dt - dt_s_sum)` from the sum of the steps before it. -/
theorem run_simulation_solid_loop_steps (dt_s_ref dt : Real) (dt_s_temp : Nat → Real) :
    ∀ (fuel m : Nat) (dt_s_sum : Real) (k : Nat) (p : Real × Real),
      (run_simulation_solid_loop id dt_s_ref dt dt_s_temp fuel m dt_s_sum).steps[k]? = some p →
        p.2 = min (dt_s_temp (m + k)) (dt - p.1) ∧
          p.1 = dt_s_sum +
            (((run_simulation_solid_loop id dt_s_ref dt dt_s_temp fuel m dt_s_sum).steps.take
              k).map Prod.snd).sum := by
  intro fuel
  induction fuel with
  | zero => intro m s k p hp; simp [run_simulation_solid_loop] at hp
  | succ fuel ih =>
    intro m s k p
    rw [run_simulation_solid_loop]
    simp only [id_eq]
    by_cases hlt : s < dt
    · rw [if_pos hlt]
      by_cases hthrow : dt_s_temp m < dt_s_ref / 100
      · rw [if_pos hthrow]
        intro hp
        simp at hp
      · rw [if_neg hthrow]
        intro hp
        cases k with
        | zero =>
          simp only [List.getElem?_cons_zero, Option.some.injEq] at hp
          rw [← hp]
          simp
        | succ k =>
          simp only [List.getElem?_cons_succ] at hp
          obtain ⟨h1, h2⟩ := ih (m + 1) _ k p hp
          refine ⟨?_, ?_⟩
          · rw [h1]
            congr 2
            omega
          · rw [h2]
            simp only [List.take_succ_cons, List.map_cons, List.sum_cons]
            ring
    · rw [if_neg hlt]
      intro hp
      simp at hp

/-- Without a time step below its threshold the acoustic loop does not throw. -/
theorem run_simulation_acoustic_loop_no_throw (dt_ref dt_s_ref Dt : Real)
    (dt_temp : Nat → Real) (dt_s_temp : Nat → Nat → Real) (solidFuel : Nat)
    (hpass : ∀ n, dt_ref / 20 ≤ dt_temp n) (hspass : ∀ n m, dt_s_ref / 100 ≤ dt_s_temp n m) :
    ∀ (fuel n : Nat) (relaxation_time : Real),
      (run_simulation_acoustic_loop id dt_ref dt_s_ref Dt dt_temp dt_s_temp solidFuel fuel n
        relaxation_time).exit ≠ LoopExit.thrown := by
  intro fuel
  induction fuel with
  | zero => intro n t; simp [run_simulation_acoustic_loop]
  | succ fuel ih =>
    intro n t
    rw [run_simulation_acoustic_loop]
    simp only [id_eq]
    by_cases hlt : t < Dt
    · rw [if_pos hlt, if_neg (not_lt.mpr (hpass n))]
      split
      · exact ih _ _
      · exact run_simulation_solid_loop_no_throw dt_s_ref _ (dt_s_temp n) (hspass n)
          solidFuel 0 0
    · rw [if_neg hlt]
      simp

/-- What the acoustic loop records: iteration `n + k` takes the step
`min(dt_temp, Dt - relaxation_time)` from the sum of the steps before it and runs the solid
loop for this step from `dt_s_sum = 0`; when the loop is left by its condition every solid
loop was left by its condition. -/
theorem run_simulation_acoustic_loop_steps (dt_ref dt_s_ref Dt : Real)
    (dt_temp : Nat → Real) (dt_s_temp : Nat → Nat → Real) (solidFuel : Nat) :
    ∀ (fuel n : Nat) (relaxation_time : Real) (k : Nat) (step : AcousticStep),
      (run_simulation_acoustic_loop id dt_ref dt_s_ref Dt dt_temp dt_s_temp solidFuel fuel n
          relaxation_time).steps[k]? = some step →
        step.dt = min (dt_temp (n + k)) (Dt - step.relaxation_time) ∧
          step.relaxation_time = relaxation_time +
            (((run_simulation_acoustic_loop id dt_ref dt_s_ref Dt dt_temp dt_s_temp solidFuel
              fuel n relaxation_time).steps.take k).map AcousticStep.dt).sum ∧
          step.solid =
            run_simulation_solid_loop id dt_s_ref step.dt (dt_s_temp (n + k)) solidFuel 0 0 ∧
          ((run_simulation_acoustic_loop id dt_ref dt_s_ref Dt dt_temp dt_s_temp solidFuel fuel
              n relaxation_time).exit = LoopExit.finished →
            step.solid.exit = LoopExit.finished) := by
  intro fuel
  induction fuel with
  | zero => intro n t k step hp; simp [run_simulation_acoustic_loop] at hp
  | succ fuel ih =>
    intro n t k step
    rw [run_simulation_acoustic_loop]
    simp only [id_eq]
    by_cases hlt : t < Dt
    · rw [if_pos hlt]
      by_cases hthrow : dt_temp n < dt_ref / 20
      · rw [if_pos hthrow]
        intro hp
        simp at hp
      · rw [if_neg hthrow]
        split
        · rename_i hfin
          intro hp
          cases k with
          | zero =>
            simp only [List.getElem?_cons_zero, Option.some.injEq] at hp
            rw [← hp]
            refine ⟨by simp [SMIN_eq_min], by simp, by simp, fun _ => hfin⟩
          | succ k =>
            simp only [List.getElem?_cons_succ] at hp
            obtain ⟨h1, h2, h3, h4⟩ := ih (n + 1) _ k step hp
            have hidx : n + 1 + k = n + (k + 1) := by omega
            refine ⟨?_, ?_, ?_, h4⟩
            · rw [h1, hidx]
            · rw [h2]
              simp only [List.take_succ_cons, List.map_cons, List.sum_cons]
              ring
            · rw [h3, hidx]
        · rename_i hnot
          intro hp
          cases k with
          | zero =>
            simp only [List.getElem?_cons_zero, Option.some.injEq] at hp
            rw [← hp]
            refine ⟨by simp [SMIN_eq_min], by simp, by simp, ?_⟩
            intro hfin
            exact absurd hfin hnot
          | succ k => simp at hp
    · rw [if_neg hlt]
      intro hp
      simp at hp

/-- Claim C23, amended to exact arithmetic. With every operation exact, `Dt >= 0` and
`dt_ref >= 0`, the acoustic loop started at `relaxation_time = 0` keeps `relaxation_time <= Dt`:
iteration `k` starts below `Dt` at the sum of the steps before it, takes
`dt = min(dt_temp, Dt - relaxation_time)` and ends at or below `Dt`; its solid loop, started
at `dt_s_sum = 0` for this `dt`, takes the steps `dt_s = min(dt_s_temp, dt - dt_s_sum)`, keeps
`dt_s_sum <= dt` before and after every iteration and, left by its condition, ends at
`dt_s_sum = dt`, the solid steps summing to `dt`. An acoustic
loop left by its condition ends at `relaxation_time = Dt`, the steps summing to `Dt`, every
solid loop having ended at its `dt`. With `dt_ref > 0`, `dt_s_ref > 0` and fuel above
`ceil(20 * Dt / dt_ref)` and `ceil(100 * Dt / dt_s_ref)` the loop is left by its condition or
by a throw, and by its condition, at `relaxation_time = Dt`, when no time step is below its
threshold. -/
theorem run_simulation_substeps_exact (dt_ref dt_s_ref Dt : Real) (dt_temp : Nat → Real)
    (dt_s_temp : Nat → Nat → Real) (solidFuel fuel : Nat) (hDt : 0 ≤ Dt) (href : 0 ≤ dt_ref) :
    (run_simulation_acoustic_loop id dt_ref dt_s_ref Dt dt_temp dt_s_temp solidFuel fuel 0
        0).relaxation_time ≤ Dt ∧
      (∀ k step, (run_simulation_acoustic_loop id dt_ref dt_s_ref Dt dt_temp dt_s_temp
          solidFuel fuel 0 0).steps[k]? = some step →
        step.dt = min (dt_temp k) (Dt - step.relaxation_time) ∧
          step.relaxation_time =
            (((run_simulation_acoustic_loop id dt_ref dt_s_ref Dt dt_temp dt_s_temp solidFuel
              fuel 0 0).steps.take k).map AcousticStep.dt).sum ∧
          step.solid =
            run_simulation_solid_loop id dt_s_ref step.dt (dt_s_temp k) solidFuel 0 0 ∧
          (∀ m p, step.solid.steps[m]? = some p →
            p.2 = min (dt_s_temp k m) (step.dt - p.1) ∧
              p.1 = ((step.solid.steps.take m).map Prod.snd).sum) ∧
          step.relaxation_time < Dt ∧ step.relaxation_time + step.dt ≤ Dt ∧
          step.solid.dt_s_sum ≤ step.dt ∧
          (step.solid.exit = LoopExit.finished →
            step.solid.dt_s_sum = step.dt ∧ (step.solid.steps.map Prod.snd).sum = step.dt) ∧
          ∀ p, p ∈ step.solid.steps → p.1 < step.dt ∧ p.1 + p.2 ≤ step.dt) ∧
      ((run_simulation_acoustic_loop id dt_ref dt_s_ref Dt dt_temp dt_s_temp solidFuel fuel 0
          0).exit = LoopExit.finished →
        (run_simulation_acoustic_loop id dt_ref dt_s_ref Dt dt_temp dt_s_temp solidFuel fuel 0
            0).relaxation_time = Dt ∧
          ((run_simulation_acoustic_loop id dt_ref dt_s_ref Dt dt_temp dt_s_temp solidFuel fuel
            0 0).steps.map AcousticStep.dt).sum = Dt ∧
          ∀ step, step ∈ (run_simulation_acoustic_loop id dt_ref dt_s_ref Dt dt_temp dt_s_temp
              solidFuel fuel 0 0).steps →
            step.solid.exit = LoopExit.finished ∧ step.solid.dt_s_sum = step.dt) ∧
      (0 < dt_ref → 0 < dt_s_ref → Nat.ceil (20 * Dt / dt_ref) < fuel →
        Nat.ceil (100 * Dt / dt_s_ref) < solidFuel →
        (run_simulation_acoustic_loop id dt_ref dt_s_ref Dt dt_temp dt_s_temp solidFuel fuel 0
            0).exit ≠ LoopExit.outOfFuel ∧
          ((∀ n, dt_ref / 20 ≤ dt_temp n) → (∀ n m, dt_s_ref / 100 ≤ dt_s_temp n m) →
            (run_simulation_acoustic_loop id dt_ref dt_s_ref Dt dt_temp dt_s_temp solidFuel
                fuel 0 0).exit = LoopExit.finished ∧
              (run_simulation_acoustic_loop id dt_ref dt_s_ref Dt dt_temp dt_s_temp solidFuel
                fuel 0 0).relaxation_time = Dt)) := by
  obtain ⟨h1, h2, h3⟩ := run_simulation_acoustic_loop_invariant dt_ref dt_s_ref Dt dt_temp
    dt_s_temp solidFuel href fuel 0 0 hDt
  have hsteps := run_simulation_acoustic_loop_steps dt_ref dt_s_ref Dt dt_temp dt_s_temp
    solidFuel fuel 0 0
  refine ⟨h1, ?_, ?_, ?_⟩
  · intro k step hk
    obtain ⟨s1, s2, s3, _⟩ := hsteps k step hk
    rw [zero_add] at s1 s2 s3
    obtain ⟨i1, i2, i3, i4, i5⟩ := h3 step (List.mem_iff_getElem?.mpr ⟨k, hk⟩)
    refine ⟨s1, s2, s3, ?_, i1, i2, i3, i4, i5⟩
    intro m p hp
    rw [s3] at hp ⊢
    have hsol := run_simulation_solid_loop_steps dt_s_ref step.dt (dt_s_temp k) solidFuel 0 0
      m p hp
    rw [zero_add, zero_add] at hsol
    exact hsol
  · intro hfin
    obtain ⟨h2a, h2b⟩ := h2 hfin
    rw [zero_add] at h2b
    refine ⟨h2a, h2b, ?_⟩
    intro step hstep
    obtain ⟨k, hk⟩ := List.mem_iff_getElem?.mp hstep
    have hsolid := (hsteps k step hk).2.2.2 hfin
    exact ⟨hsolid, ((h3 step hstep).2.2.2.1 hsolid).1⟩
  · intro hpos hspos hfuel hsolid
    have hfuelled := (run_simulation_acoustic_loop_bound dt_ref dt_s_ref Dt dt_temp dt_s_temp
      solidFuel hpos hspos hsolid fuel 0 0 (Nat.ceil (20 * Dt / dt_ref)) (le_refl _)
      (by rw [sub_zero]; exact le_ceil_mul_div Dt dt_ref 20 hpos (by norm_num)) hfuel).1
    refine ⟨hfuelled, ?_⟩
    intro hpass hspass
    have hnothrow := run_simulation_acoustic_loop_no_throw dt_ref dt_s_ref Dt dt_temp
      dt_s_temp solidFuel hpass hspass fuel 0 0
    have hfin : (run_simulation_acoustic_loop id dt_ref dt_s_ref Dt dt_temp dt_s_temp
        solidFuel fuel 0 0).exit = LoopExit.finished := by
      cases hexit : (run_simulation_acoustic_loop id dt_ref dt_s_ref Dt dt_temp dt_s_temp
          solidFuel fuel 0 0).exit with
      | finished => rfl
      | thrown => exact absurd hexit hnothrow
      | outOfFuel => exact absurd hexit hfuelled
    exact ⟨hfin, (h2 hfin).1⟩

/-- Witness of C23: `Dt = 1`, `dt_ref = 3/10`, `dt_s_ref = 1/10` and the constant example time
steps 3/10 and 1/10, none below its threshold; the loop is left by its condition at
`relaxation_time = 1 = Dt`. -/
theorem run_simulation_substeps_exact_witness :
    (0 : Real) ≤ 1 ∧ (0 : Real) ≤ 3 / 10 ∧ (0 : Real) < 3 / 10 ∧ (0 : Real) < 1 / 10 ∧
      Nat.ceil (20 * (1 : Real) / (3 / 10)) < 68 ∧
      Nat.ceil (100 * (1 : Real) / (1 / 10)) < 1001 ∧
      (∀ n, (3 / 10 : Real) / 20 ≤ exampleDtTemp n) ∧
      (∀ n m, (1 / 10 : Real) / 100 ≤ exampleDtSTemp n m) ∧
      (run_simulation_acoustic_loop id (3 / 10) (1 / 10) 1 exampleDtTemp exampleDtSTemp 1001 68
        0 0).exit = LoopExit.finished ∧
      (run_simulation_acoustic_loop id (3 / 10) (1 / 10) 1 exampleDtTemp exampleDtSTemp 1001 68
        0 0).relaxation_time = 1 :=
  ⟨by norm_num, by norm_num, by norm_num, by norm_num,
    Nat.lt_succ_of_le (Nat.ceil_le.mpr (by norm_num)),
    Nat.lt_succ_of_le (Nat.ceil_le.mpr (by norm_num)),
    fun _ => by norm_num [exampleDtTemp], fun _ _ => by norm_num [exampleDtSTemp],
    ((run_simulation_substeps_exact (3 / 10) (1 / 10) 1 exampleDtTemp exampleDtSTemp 1001 68
      (by norm_num) (by norm_num)).2.2.2 (by norm_num) (by norm_num)
      (Nat.lt_succ_of_le (Nat.ceil_le.mpr (by norm_num)))
      (Nat.lt_succ_of_le (Nat.ceil_le.mpr (by norm_num)))).2
      (fun _ => by norm_num [exampleDtTemp]) (fun _ _ => by norm_num [exampleDtSTemp])⟩

/-- Claim C24, amended to exact arithmetic. With every operation exact, `dt_ref > 0` and
`dt_s_ref > 0`, every acoustic iteration that does not throw advances by at least
`min(dt_ref / 20, Dt - relaxation_time)` and every solid iteration that does not throw by at
least `min(dt_s_ref / 100, dt - dt_s_sum)`; the acoustic loop enters at most
`ceil(20 * Dt / dt_ref)` iterations and each solid loop at most `ceil(100 * dt / dt_s_ref)`,
so with more fuel than these bounds each loop is left by its condition or by a throw. -/
theorem run_simulation_loops_terminate (dt_ref dt_s_ref Dt : Real) (dt_temp : Nat → Real)
    (dt_s_temp : Nat → Nat → Real) (solidFuel fuel : Nat) (href : 0 < dt_ref)
    (hsref : 0 < dt_s_ref) (hfuel : Nat.ceil (20 * Dt / dt_ref) < fuel)
    (hsolid : Nat.ceil (100 * Dt / dt_s_ref) < solidFuel) :
    (run_simulation_acoustic_loop id dt_ref dt_s_ref Dt dt_temp dt_s_temp solidFuel fuel 0
        0).exit ≠ LoopExit.outOfFuel ∧
      (run_simulation_acoustic_loop id dt_ref dt_s_ref Dt dt_temp dt_s_temp solidFuel fuel 0
        0).iterations ≤ Nat.ceil (20 * Dt / dt_ref) ∧
      ∀ step, step ∈ (run_simulation_acoustic_loop id dt_ref dt_s_ref Dt dt_temp dt_s_temp
          solidFuel fuel 0 0).steps →
        min (dt_ref / 20) (Dt - step.relaxation_time) ≤ step.dt ∧
          step.solid.exit ≠ LoopExit.outOfFuel ∧
          step.solid.iterations ≤ Nat.ceil (100 * step.dt / dt_s_ref) ∧
          ∀ p, p ∈ step.solid.steps → min (dt_s_ref / 100) (step.dt - p.1) ≤ p.2 :=
  run_simulation_acoustic_loop_bound dt_ref dt_s_ref Dt dt_temp dt_s_temp solidFuel
    href hsref hsolid fuel 0 0 (Nat.ceil (20 * Dt / dt_ref)) (le_refl _)
    (by rw [sub_zero]; exact le_ceil_mul_div Dt dt_ref 20 href (by norm_num)) hfuel

/-- Witness of C24: `Dt = 1`, `dt_ref = 3/10`, `dt_s_ref = 1/10` and the constant example
time steps, with fuel 68 and 1001. -/
theorem run_simulation_loops_terminate_witness :
    (0 : Real) < 3 / 10 ∧ (0 : Real) < 1 / 10 ∧
      Nat.ceil (20 * (1 : Real) / (3 / 10)) < 68 ∧
      Nat.ceil (100 * (1 : Real) / (1 / 10)) < 1001 ∧
      (run_simulation_acoustic_loop id (3 / 10) (1 / 10) 1 exampleDtTemp exampleDtSTemp 1001 68 0
        0).exit ≠ LoopExit.outOfFuel ∧
      (run_simulation_acoustic_loop id (3 / 10) (1 / 10) 1 exampleDtTemp exampleDtSTemp 1001 68 0
        0).iterations ≤ Nat.ceil (20 * (1 : Real) / (3 / 10)) :=
  ⟨by norm_num, by norm_num, Nat.lt_succ_of_le (Nat.ceil_le.mpr (by norm_num)),
    Nat.lt_succ_of_le (Nat.ceil_le.mpr (by norm_num)),
    (run_simulation_loops_terminate (3 / 10) (1 / 10) 1 exampleDtTemp exampleDtSTemp 1001 68
      (by norm_num) (by norm_num) (Nat.lt_succ_of_le (Nat.ceil_le.mpr (by norm_num)))
      (Nat.lt_succ_of_le (Nat.ceil_le.mpr (by norm_num)))).1,
    (run_simulation_loops_terminate (3 / 10) (1 / 10) 1 exampleDtTemp exampleDtSTemp 1001 68
      (by norm_num) (by norm_num) (Nat.lt_succ_of_le (Nat.ceil_le.mpr (by norm_num)))
      (Nat.lt_succ_of_le (Nat.ceil_le.mpr (by norm_num)))).2.1⟩

/-- The example run is left by its condition after the acoustic steps 3/10, 3/10, 3/10 and
1/10, at `relaxation_time = 1`. -/
theorem run_simulation_acoustic_loop_example :
    (run_simulation_acoustic_loop id (3 / 10) (1 / 10) 1 exampleDtTemp exampleDtSTemp 4 5 0
        0).exit = LoopExit.finished ∧
      (run_simulation_acoustic_loop id (3 / 10) (1 / 10) 1 exampleDtTemp exampleDtSTemp 4 5 0
        0).relaxation_time = 1 ∧
      (run_simulation_acoustic_loop id (3 / 10) (1 / 10) 1 exampleDtTemp exampleDtSTemp 4 5 0
        0).iterations = 4 ∧
      (run_simulation_acoustic_loop id (3 / 10) (1 / 10) 1 exampleDtTemp exampleDtSTemp 4 5 0
        0).steps.map AcousticStep.dt = [3 / 10, 3 / 10, 3 / 10, 1 / 10] := by
  norm_num [run_simulation_acoustic_loop, run_simulation_solid_loop, SMIN, exampleDtTemp,
    exampleDtSTemp]

/-- Claim C23 refuted in the program's arithmetic: with doubles, `Dt = 1600.5645113247945` and
the acoustic time steps 526.5009916186067 and 1289.130911015274, no check throws, the loop is
left by its condition after two iterations, and `relaxation_time` ends above `Dt`: the second
step is the rounded `Dt - relaxation_time` and the sum is rounded up. -/
theorem run_simulation_overshoot_counterexample :
    (run_simulation_acoustic_loop roundDouble 1 1 (roundDouble 1600.5645113247945)
        exampleDtTempLong exampleDtSTempLarge 2 3 0 0).exit = LoopExit.finished ∧
      (run_simulation_acoustic_loop roundDouble 1 1 (roundDouble 1600.5645113247945)
        exampleDtTempLong exampleDtSTempLarge 2 3 0 0).iterations = 2 ∧
      roundDouble 1600.5645113247945 <
        (run_simulation_acoustic_loop roundDouble 1 1 (roundDouble 1600.5645113247945)
          exampleDtTempLong exampleDtSTempLarge 2 3 0 0).relaxation_time ∧
      (run_simulation_acoustic_loop roundDouble 1 1 (roundDouble 1600.5645113247945)
        exampleDtTempLong exampleDtSTempLarge 2 3 0 0).relaxation_time =
        roundDouble 1600.5645113247947 := by
  decide!

/-- Claim C24 refuted in the program's arithmetic: with doubles, `Dt = 1.0`, `dt_ref = 2.0`
and the acoustic time step 0.1 in every iteration, no check throws and the loop runs 11
iterations, one more than `ceil(20 * Dt / dt_ref) = 10`; the fourth iteration starts at
0.30000000000000004 and advances `relaxation_time` by less than
`min(dt_ref / 20, Dt - relaxation_time)`. -/
theorem run_simulation_iterations_counterexample :
    (run_simulation_acoustic_loop roundDouble 2 1 1 exampleDtTempTenth exampleDtSTempLarge 2 12
        0 0).exit = LoopExit.finished ∧
      (run_simulation_acoustic_loop roundDouble 2 1 1 exampleDtTempTenth exampleDtSTempLarge 2
        12 0 0).iterations = 11 ∧
      Nat.ceil (20 * (1 : Real) / 2) = 10 ∧
      ((run_simulation_acoustic_loop roundDouble 2 1 1 exampleDtTempTenth exampleDtSTempLarge 2
        12 0 0).steps.map AcousticStep.relaxation_time).getD 3 0 =
        roundDouble 0.30000000000000004 ∧
      ((run_simulation_acoustic_loop roundDouble 2 1 1 exampleDtTempTenth exampleDtSTempLarge 2
        12 0 0).steps.map AcousticStep.relaxation_time).getD 4 0 -
          ((run_simulation_acoustic_loop roundDouble 2 1 1 exampleDtTempTenth
            exampleDtSTempLarge 2 12 0 0).steps.map AcousticStep.relaxation_time).getD 3 0 <
        min (roundDouble (2 / 20))
          (roundDouble (1 - ((run_simulation_acoustic_loop roundDouble 2 1 1 exampleDtTempTenth
            exampleDtSTempLarge 2 12 0 0).steps.map AcousticStep.relaxation_time).getD 3 0)) := by
  decide!

end SPH
